import Mathlib

/-!
Generated ARM clients of azure-sdk-for-go: builders, status dispatch, pagers, error decoding.

A shallow embedding of the generated clients `armelasticsan.ElasticSansClient`,
`armlogic.IntegrationAccountSchemasClient`, `armkeyvault.MHSMPrivateLinkResourcesClient`
and `armnetwork.HubVirtualNetworkConnectionsClient`.

Conventions of the embedding.

* A Go `string` is a sequence of bytes.  It is represented by a Lean `String`, one
  character per byte; every string literal of the source is ASCII.
* A Go pointer `*T` is an `Option T`, `nil` being `none`; a Go result pair
  `(*T, error)` is a pair of options, so that "both nil" and "both non-nil" stay
  expressible.
* The `context.Context` argument carries cancellation only and is left out.
* The azcore runtime, the pipeline and `encoding/json` are not part of the sources: they
  are arguments (`azcore.Runtime`, `azcore.JSON`, `azcore.Pollers`).  Every call into
  them is recorded, in order, in a list of `azcore.Call`; a client function returns its
  Go result together with the calls it made (`azcore.Traced`).
-/

/-! ## Go standard library: `strings`, `net/url`, `net/http`, `strconv` -/

namespace strings

/-- Scan of `strings.ReplaceAll` for a non-empty `old`: left to right, non-overlapping.
`skip` counts the bytes of the occurrence just replaced that are still to be passed over. -/
def replaceFrom (old new : List Char) : Nat → List Char → List Char
  | _, [] => []
  | skip + 1, _ :: rest => replaceFrom old new skip rest
  | 0, c :: rest =>
    if old.isPrefixOf (c :: rest) then new ++ replaceFrom old new (old.length - 1) rest
    else c :: replaceFrom old new 0 rest

/-- The function `strings.ReplaceAll(s, old, new)`.  Every call site passes a non-empty
literal for `old`; for an empty `old` (where Go interleaves `new` between the runes of `s`)
this model leaves `s` as it is. -/
def ReplaceAll (s old new : String) : String :=
  if old = "" then s else ⟨replaceFrom old.data new.data 0 s.data⟩

/-- The function `strings.Cut(s, sep)` for a one-byte separator, without its `found` flag:
the text before the first `sep` and the text after it. -/
def cut (sep : Char) : List Char → List Char × List Char
  | [] => ([], [])
  | c :: rest => if c = sep then ([], rest) else (c :: (cut sep rest).1, (cut sep rest).2)

/-- The pieces of `s` between the occurrences of the one-byte separator `sep`. -/
def split (sep : Char) : List Char → List (List Char)
  | [] => [[]]
  | c :: rest =>
    if c = sep then [] :: split sep rest
    else match split sep rest with
      | [] => [[c]]
      | piece :: pieces => (c :: piece) :: pieces

end strings

namespace strconv

/-- The function `strconv.FormatInt(i, 10)`. -/
def FormatInt (i : Int) : String :=
  if i < 0 then ⟨'-' :: Nat.toDigits 10 i.natAbs⟩ else ⟨Nat.toDigits 10 i.natAbs⟩

end strconv

namespace url

/-- The escaping modes of `net/url` that the clients reach. -/
inductive encoding where
  | encodePathSegment
  | encodeQueryComponent
deriving DecidableEq, Repr

/-- ASCII letters and digits. -/
def isAlnum (c : Char) : Bool :=
  ('a' ≤ c && c ≤ 'z') || ('A' ≤ c && c ≤ 'Z') || ('0' ≤ c && c ≤ '9')

/-- The function `shouldEscape(c, mode)` of `net/url`, for the two modes above. -/
def shouldEscape (c : Char) (mode : encoding) : Bool :=
  if isAlnum c then false
  else if c = '-' ∨ c = '_' ∨ c = '.' ∨ c = '~' then false
  else if c = '$' ∨ c = '&' ∨ c = '+' ∨ c = ',' ∨ c = '/' ∨ c = ':' ∨ c = ';' ∨ c = '='
      ∨ c = '?' ∨ c = '@' then
    match mode with
    | .encodePathSegment => c = '/' ∨ c = ';' ∨ c = ',' ∨ c = '?'
    | .encodeQueryComponent => true
  else true

/-- The digit `upperhex[n]` of `"0123456789ABCDEF"`, for a nibble `n`. -/
def upperhex (n : Nat) : Char :=
  "0123456789ABCDEF".data.getD (n % 16) '0'

/-- One byte of `escape(s, mode)`. -/
def escapeByte (mode : encoding) (c : Char) : List Char :=
  if c = ' ' ∧ mode = .encodeQueryComponent then ['+']
  else if shouldEscape c mode then ['%', upperhex (c.toNat / 16), upperhex c.toNat]
  else [c]

/-- The function `escape(s, mode)` of `net/url`. -/
def escape (s : String) (mode : encoding) : String :=
  ⟨s.data.flatMap (escapeByte mode)⟩

/-- The function `url.PathEscape`. -/
def PathEscape (s : String) : String := escape s .encodePathSegment

/-- The function `url.QueryEscape`. -/
def QueryEscape (s : String) : String := escape s .encodeQueryComponent

/-- The predicate `ishex`. -/
def ishex (c : Char) : Bool :=
  ('0' ≤ c && c ≤ '9') || ('a' ≤ c && c ≤ 'f') || ('A' ≤ c && c ≤ 'F')

/-- The function `unhex`. -/
def unhex (c : Char) : Nat :=
  if '0' ≤ c ∧ c ≤ '9' then c.toNat - '0'.toNat
  else if 'a' ≤ c ∧ c ≤ 'f' then c.toNat - 'a'.toNat + 10
  else if 'A' ≤ c ∧ c ≤ 'F' then c.toNat - 'A'.toNat + 10
  else 0

/-- The function `unescape(s, encodeQueryComponent)`: `none` stands for its `EscapeError`. -/
def unescape : List Char → Option (List Char)
  | [] => some []
  | c :: rest =>
    if c = '%' then
      match rest with
      | a :: b :: rest2 =>
        if ishex a ∧ ishex b then
          (unescape rest2).map (fun t => Char.ofNat (unhex a * 16 + unhex b) :: t)
        else none
      | _ => none
    else if c = '+' then (unescape rest).map (fun t => ' ' :: t)
    else (unescape rest).map (fun t => c :: t)

/-- The type `url.Values`, a `map[string][]string`: an association list with one entry
per key. -/
abbrev Values := List (String × List String)

/-- The map update `v[key] = append(v[key], value)`. -/
def Values.Add : Values → String → String → Values
  | [], key, value => [(key, [value])]
  | (k, vs) :: rest, key, value =>
    if k = key then (k, vs ++ [value]) :: rest else (k, vs) :: Values.Add rest key value

/-- The method `Values.Set`: `v[key] = []string{value}`. -/
def Values.Set : Values → String → String → Values
  | [], key, value => [(key, [value])]
  | (k, vs) :: rest, key, value =>
    if k = key then (k, [value]) :: rest else (k, vs) :: Values.Set rest key value

/-- One `&`-separated piece of the loop of `parseQuery`. -/
def parsePiece (m : Values) (piece : List Char) : Values :=
  if piece.contains ';' then m
  else if piece = [] then m
  else
    match unescape (strings.cut '=' piece).1, unescape (strings.cut '=' piece).2 with
    | some key, some value => m.Add ⟨key⟩ ⟨value⟩
    | _, _ => m

/-- The function `url.ParseQuery`, its error dropped as `URL.Query` drops it. -/
def ParseQuery (query : String) : Values :=
  (strings.split '&' query.data).foldl parsePiece []

/-- Bytewise lexical order of Go strings. -/
def bytesLE : List Char → List Char → Bool
  | [], _ => true
  | _ :: _, [] => false
  | a :: as, b :: bs =>
    if a.toNat < b.toNat then true
    else if b.toNat < a.toNat then false
    else bytesLE as bs

/-- Insertion of an entry into a list of entries sorted by key. -/
def insertByKey (kv : String × List String) : Values → Values
  | [] => [kv]
  | e :: rest => if bytesLE kv.1.data e.1.data then kv :: e :: rest else e :: insertByKey kv rest

/-- The entries of a `Values` in the order of `slices.Sort(keys)`. -/
def sortByKey (v : Values) : Values := v.foldr insertByKey []

/-- The method `Values.Encode`: `key=value` pairs, sorted by key, joined by `&`. -/
def Values.Encode (v : Values) : String :=
  "&".intercalate
    ((sortByKey v).flatMap (fun kv => kv.2.map (fun value => QueryEscape kv.1 ++ "=" ++ QueryEscape value)))

/-- The part of `net/url.URL` that the clients touch: the text it was parsed from and its
`RawQuery` field, which the builders overwrite. -/
structure URL where
  raw : String
  RawQuery : String
deriving DecidableEq, Repr

/-- The `RawQuery` that `url.Parse` finds in a URL text: what follows the first `?`, the
fragment after `#` cut off beforehand. -/
def rawQueryOf (rawURL : String) : String :=
  ⟨(strings.cut '?' (strings.cut '#' rawURL.data).1).2⟩

/-- The function `url.Parse`, restricted to the fields of `URL`. -/
def Parse (rawURL : String) : URL := { raw := rawURL, RawQuery := rawQueryOf rawURL }

/-- The method `URL.Query`. -/
def URL.Query (u : URL) : Values := ParseQuery u.RawQuery

end url

namespace http

/-- The constant `http.MethodGet`. -/
def MethodGet : String := "GET"
/-- The constant `http.MethodPut`. -/
def MethodPut : String := "PUT"
/-- The constant `http.MethodPatch`. -/
def MethodPatch : String := "PATCH"
/-- The constant `http.MethodPost`. -/
def MethodPost : String := "POST"
/-- The constant `http.MethodDelete`. -/
def MethodDelete : String := "DELETE"

/-- The constant `http.StatusOK`. -/
def StatusOK : Int := 200
/-- The constant `http.StatusCreated`. -/
def StatusCreated : Int := 201
/-- The constant `http.StatusAccepted`. -/
def StatusAccepted : Int := 202
/-- The constant `http.StatusNoContent`. -/
def StatusNoContent : Int := 204

/-- The type `http.Header`, a `map[string][]string`: an association list with one entry per
key. -/
abbrev Header := List (String × List String)

/-- The map assignment `h[key] = values`. -/
def Header.assign (h : Header) (key : String) (values : List String) : Header :=
  (key, values) :: h.filter (fun kv => kv.1 ≠ key)

/-- The map lookup `h[key]`. -/
def Header.values (h : Header) (key : String) : Option (List String) :=
  (h.find? (fun kv => kv.1 = key)).map (fun kv => kv.2)

/-- Bytes allowed in a header field name (`validHeaderFieldByte`): letters, digits and
the marks of an HTTP token, listed by their codes. -/
def validHeaderFieldByte (c : Char) : Bool :=
  url.isAlnum c || [33, 35, 36, 37, 38, 39, 42, 43, 45, 46, 94, 95, 96, 124, 126].contains c.toNat

/-- The letter case of `canonicalMIMEHeaderKey`: upper case at the start and after `-`,
lower case elsewhere. -/
def canonicalCase : Bool → List Char → List Char
  | _, [] => []
  | upper, c :: rest => (if upper then c.toUpper else c.toLower) :: canonicalCase (c = '-') rest

/-- The function `textproto.CanonicalMIMEHeaderKey`. -/
def CanonicalMIMEHeaderKey (s : String) : String :=
  if s.data.all validHeaderFieldByte then ⟨canonicalCase true s.data⟩ else s

/-- The method `Header.Set`. -/
def Header.Set (h : Header) (key value : String) : Header :=
  h.assign (CanonicalMIMEHeaderKey key) [value]

end http

/-! ## The azcore runtime, as the generated clients see it -/

namespace azcore

/-- An error value made outside the generated clients: by the azcore runtime, by the
pipeline or by `encoding/json`.  Only its `Error()` text is kept. -/
structure RuntimeError where
  text : String
deriving DecidableEq, Repr

/-- Modelled from the spec: the decoded service error payload (code, message and optional
target of the error shape of the Error Decoder); its declaration is outside the sources. -/
structure ErrorDetail where
  code : String
  message : String
  target : Option String
deriving DecidableEq, Repr

/-- Modelled from the spec: the type `CloudError` of armkeyvault and armnetwork, declared
outside the sources.  Its unexported field `raw` is the one the error handlers set; the
decoded payload is `InnerError`. -/
structure CloudError where
  raw : String
  InnerError : Option ErrorDetail
deriving DecidableEq, Repr

/-- The Go `error` values that pass through the clients, by their origin. -/
inductive GoError where
  /-- The value of `errors.New(text)`. -/
  | errorsNew (text : String)
  /-- The value of `fmt.Errorf`, with the text it renders to. -/
  | fmtErrorf (text : String)
  /-- An error handed back by the runtime, the pipeline or the JSON codec. -/
  | runtime (e : RuntimeError)
  /-- A pointer `&errType` to a `CloudError`. -/
  | cloudError (e : CloudError)
deriving DecidableEq, Repr

/-- The `policy.Request` (`azcore.Request` in the older clients): verb, URL, header map,
body and the telemetry value the older clients attach. -/
structure Request where
  Method : String
  URL : url.URL
  Header : http.Header
  Body : Option String
  Telemetry : Option String
deriving DecidableEq, Repr

/-- The `http.Response` (`azcore.Response` in the older clients). -/
structure Response where
  StatusCode : Int
  Header : http.Header
  Body : String
deriving DecidableEq, Repr

/-- Modelled from the spec: the hint of the LRO poller on where the final state is read,
`runtime.FinalStateVia`, declared outside the sources. -/
inductive FinalStateVia where
  | AzureAsyncOp
  | Location
  | OriginalURI
  | OpLocation
deriving DecidableEq, Repr

/-- A call into the runtime, the pipeline or the JSON codec, with its arguments. -/
inductive Call where
  | NewRequest (httpMethod endpoint : String)
  | Do (req : Option Request)
  | NewResponseError (resp : Option Response)
  | NewResponseErrorOf (inner : GoError) (resp : Option Response)
  | Payload (resp : Option Response)
  | UnmarshalAsJSON (resp : Option Response)
  | NewPoller (resp : Option Response) (finalStateVia : FinalStateVia)
  | NewPollerFromResumeToken (token : String)
deriving DecidableEq, Repr

/-- A Go result together with the calls made to obtain it, oldest first. -/
abbrev Traced (α : Type) := α × List Call

/-- How an evaluation ends: with a value, or in the run-time panic of dereferencing a nil
pointer. -/
inductive Outcome (α : Type) where
  | done (value : α)
  | nilDereference
deriving DecidableEq, Repr

/-- The functions of the azcore runtime and of the pipeline whose code is outside the
sources, as arguments.  `NewResponseError` is the one-argument function of the go1.18
clients, `NewResponseErrorOf` the two-argument `NewResponseError(inner, resp)` that
armkeyvault and armnetwork call. -/
structure Runtime where
  /-- The function `runtime.JoinPaths`. -/
  JoinPaths : String → String → String
  /-- The error, if any, with which `runtime.NewRequest` rejects a verb and endpoint. -/
  NewRequestError : String → String → Option RuntimeError
  /-- The method `Pipeline.Do`. -/
  Do : Option Request → Option Response × Option RuntimeError
  /-- The function `runtime.NewResponseError(resp)`. -/
  NewResponseError : Option Response → Option RuntimeError
  /-- The function `NewResponseError(inner, resp)` of the older azcore. -/
  NewResponseErrorOf : GoError → Option Response → Option RuntimeError
  /-- The function `runtime.Payload` (method `Response.Payload` in the older azcore). -/
  Payload : Option Response → String × Option RuntimeError

/-- The JSON codec for one Go type: `json.Marshal`, and `runtime.UnmarshalAsJSON(resp, &v)`
as a function from the value `v` held before the call to the value held after it. -/
structure JSON (α : Type) where
  Marshal : α → Except RuntimeError String
  UnmarshalAsJSON : Option Response → α → α × Option RuntimeError

/-- The constructors of the LRO poller, `runtime.NewPoller` and
`runtime.NewPollerFromResumeToken`, for a poller type `P`; the pipeline argument is fixed
by the client. -/
structure Pollers (P : Type) where
  NewPoller : Option Response → FinalStateVia → Option P × Option RuntimeError
  NewPollerFromResumeToken : String → Option P × Option RuntimeError

/-- A Go `error` result holding a runtime error, or nil. -/
def asError (e : Option RuntimeError) : Option GoError := e.map GoError.runtime

/-- Modelled from the spec: `runtime.NewRequest(ctx, httpMethod, endpoint)`, whose code is
outside the sources.  A request is a verb, a URL, a header multimap and an optional body;
the runtime either rejects the verb and endpoint, or returns the request for exactly that
verb and URL, with no header and no body: `Accept` and `api-version` are supplied by the
generated caller, not by the core. -/
def Runtime.NewRequest (rt : Runtime) (httpMethod endpoint : String) :
    Traced (Except GoError Request) :=
  (match rt.NewRequestError httpMethod endpoint with
    | some e => .error (.runtime e)
    | none => .ok { Method := httpMethod, URL := url.Parse endpoint, Header := [],
                    Body := none, Telemetry := none },
   [Call.NewRequest httpMethod endpoint])

/-- The Go pair `(req, err)` of a `NewRequest` result. -/
def asPair : Except GoError Request → Option Request × Option GoError
  | .error err => (none, some err)
  | .ok req => (some req, none)

/-- Modelled from the spec: `runtime.HasStatusCode(resp, statusCodes...)`, whose code is
outside the sources: the response is there and its status is one of the listed codes. -/
def HasStatusCode (resp : Option Response) (statusCodes : List Int) : Bool :=
  match resp with
  | none => false
  | some r => statusCodes.contains r.StatusCode

/-- Modelled from the spec: `runtime.MarshalAsJSON(req, v)`, whose code is outside the
sources.  Request bodies are JSON: when `v` encodes, the encoding becomes the body of the
request, with its content type; when it does not, the request is left as it was and the
error is returned. -/
def MarshalAsJSON {α : Type} (js : JSON α) (req : Request) (v : α) : Request × Option GoError :=
  match js.Marshal v with
  | .error e => (req, some (.runtime e))
  | .ok body =>
    ({ req with Body := some body, Header := req.Header.Set "Content-Type" "application/json" },
     none)

end azcore

/-! ## Package armelasticsan: `ElasticSansClient` -/

namespace armelasticsan

open azcore

/-- The client `ElasticSansClient`; its pipeline `pl` is the `Do` of the runtime argument. -/
structure ElasticSansClient where
  host : String
  subscriptionID : String
deriving DecidableEq, Repr

/-- The options `ElasticSansClientBeginCreateOptions`. -/
structure ElasticSansClientBeginCreateOptions where
  ResumeToken : String
deriving DecidableEq, Repr

/-- The model type `List` of the package (a page of ElasticSans), for an item type `E`
declared outside the sources. -/
structure ElasticSanList (E : Type) where
  NextLink : Option String
  Value : List E

/-- The response `ElasticSansClientGetResponse`, which embeds the model `ElasticSan`. -/
structure ElasticSansClientGetResponse (E : Type) where
  ElasticSan : E

/-- The response `ElasticSansClientListByResourceGroupResponse`, which embeds `List`. -/
structure ElasticSansClientListByResourceGroupResponse (E : Type) extends ElasticSanList E

/-- The response `ElasticSansClientListBySubscriptionResponse`, which embeds `List`. -/
structure ElasticSansClientListBySubscriptionResponse (E : Type) extends ElasticSanList E

/-- The zero value of the model `List`. -/
def ElasticSanList.zero (E : Type) : ElasticSanList E := { NextLink := none, Value := [] }

namespace ElasticSansClient

/-- The builder `createCreateRequest`. -/
def createCreateRequest {E : Type} (client : ElasticSansClient) (rt : Runtime) (js : JSON E)
    (resourceGroupName elasticSanName : String) (parameters : E) :
    Traced (Option Request × Option GoError) :=
  let urlPath := "/subscriptions/{subscriptionId}/resourceGroups/{resourceGroupName}/providers/Microsoft.ElasticSan/elasticSans/{elasticSanName}"
  if client.subscriptionID = "" then
    ((none, some (.errorsNew "parameter client.subscriptionID cannot be empty")), [])
  else
    let urlPath := strings.ReplaceAll urlPath "{subscriptionId}" (url.PathEscape client.subscriptionID)
    if resourceGroupName = "" then
      ((none, some (.errorsNew "parameter resourceGroupName cannot be empty")), [])
    else
      let urlPath := strings.ReplaceAll urlPath "{resourceGroupName}" (url.PathEscape resourceGroupName)
      if elasticSanName = "" then
        ((none, some (.errorsNew "parameter elasticSanName cannot be empty")), [])
      else
        let urlPath := strings.ReplaceAll urlPath "{elasticSanName}" (url.PathEscape elasticSanName)
        match rt.NewRequest http.MethodPut (rt.JoinPaths client.host urlPath) with
        | (.error err, calls) => ((none, some err), calls)
        | (.ok req, calls) =>
          let reqQP := req.URL.Query
          let reqQP := reqQP.Set "api-version" "2021-11-20-preview"
          let req := { req with URL := { req.URL with RawQuery := reqQP.Encode } }
          let req := { req with Header := req.Header.assign "Accept" ["application/json"] }
          ((some (MarshalAsJSON js req parameters).1, (MarshalAsJSON js req parameters).2), calls)

/-- The operation `create`, the initial call of `BeginCreate`. -/
def create {E : Type} (client : ElasticSansClient) (rt : Runtime) (js : JSON E)
    (resourceGroupName elasticSanName : String) (parameters : E) :
    Traced (Option Response × Option GoError) :=
  match createCreateRequest client rt js resourceGroupName elasticSanName parameters with
  | ((_, some err), calls) => ((none, some err), calls)
  | ((req, none), calls) =>
    match rt.Do req with
    | (_, some err) => ((none, some (.runtime err)), calls ++ [Call.Do req])
    | (resp, none) =>
      if !HasStatusCode resp [http.StatusOK, http.StatusAccepted] then
        ((none, asError (rt.NewResponseError resp)),
         calls ++ [Call.Do req, Call.NewResponseError resp])
      else ((resp, none), calls ++ [Call.Do req])

/-- The operation `BeginCreate`. -/
def BeginCreate {E P : Type} (client : ElasticSansClient) (rt : Runtime) (pollers : Pollers P)
    (js : JSON E) (resourceGroupName elasticSanName : String) (parameters : E)
    (options : Option ElasticSansClientBeginCreateOptions) :
    Traced (Option P × Option GoError) :=
  let initial : Traced (Option P × Option GoError) :=
    match create client rt js resourceGroupName elasticSanName parameters with
    | ((_, some err), calls) => ((none, some err), calls)
    | ((resp, none), calls) =>
      (((pollers.NewPoller resp .AzureAsyncOp).1, asError (pollers.NewPoller resp .AzureAsyncOp).2),
       calls ++ [Call.NewPoller resp .AzureAsyncOp])
  match options with
  | none => initial
  | some opts =>
    if opts.ResumeToken = "" then initial
    else
      (((pollers.NewPollerFromResumeToken opts.ResumeToken).1,
        asError (pollers.NewPollerFromResumeToken opts.ResumeToken).2),
       [Call.NewPollerFromResumeToken opts.ResumeToken])

/-- The builder `deleteCreateRequest`. -/
def deleteCreateRequest (client : ElasticSansClient) (rt : Runtime)
    (resourceGroupName elasticSanName : String) : Traced (Option Request × Option GoError) :=
  let urlPath := "/subscriptions/{subscriptionId}/resourceGroups/{resourceGroupName}/providers/Microsoft.ElasticSan/elasticSans/{elasticSanName}"
  if client.subscriptionID = "" then
    ((none, some (.errorsNew "parameter client.subscriptionID cannot be empty")), [])
  else
    let urlPath := strings.ReplaceAll urlPath "{subscriptionId}" (url.PathEscape client.subscriptionID)
    if resourceGroupName = "" then
      ((none, some (.errorsNew "parameter resourceGroupName cannot be empty")), [])
    else
      let urlPath := strings.ReplaceAll urlPath "{resourceGroupName}" (url.PathEscape resourceGroupName)
      if elasticSanName = "" then
        ((none, some (.errorsNew "parameter elasticSanName cannot be empty")), [])
      else
        let urlPath := strings.ReplaceAll urlPath "{elasticSanName}" (url.PathEscape elasticSanName)
        match rt.NewRequest http.MethodDelete (rt.JoinPaths client.host urlPath) with
        | (.error err, calls) => ((none, some err), calls)
        | (.ok req, calls) =>
          let reqQP := req.URL.Query
          let reqQP := reqQP.Set "api-version" "2021-11-20-preview"
          let req := { req with URL := { req.URL with RawQuery := reqQP.Encode } }
          let req := { req with Header := req.Header.assign "Accept" ["application/json"] }
          ((some req, none), calls)

/-- The operation `deleteOperation`, the initial call of `BeginDelete`. -/
def deleteOperation (client : ElasticSansClient) (rt : Runtime)
    (resourceGroupName elasticSanName : String) : Traced (Option Response × Option GoError) :=
  match deleteCreateRequest client rt resourceGroupName elasticSanName with
  | ((_, some err), calls) => ((none, some err), calls)
  | ((req, none), calls) =>
    match rt.Do req with
    | (_, some err) => ((none, some (.runtime err)), calls ++ [Call.Do req])
    | (resp, none) =>
      if !HasStatusCode resp [http.StatusOK, http.StatusAccepted, http.StatusNoContent] then
        ((none, asError (rt.NewResponseError resp)),
         calls ++ [Call.Do req, Call.NewResponseError resp])
      else ((resp, none), calls ++ [Call.Do req])

/-- The builder `getCreateRequest`. -/
def getCreateRequest (client : ElasticSansClient) (rt : Runtime)
    (resourceGroupName elasticSanName : String) : Traced (Option Request × Option GoError) :=
  let urlPath := "/subscriptions/{subscriptionId}/resourceGroups/{resourceGroupName}/providers/Microsoft.ElasticSan/elasticSans/{elasticSanName}"
  if client.subscriptionID = "" then
    ((none, some (.errorsNew "parameter client.subscriptionID cannot be empty")), [])
  else
    let urlPath := strings.ReplaceAll urlPath "{subscriptionId}" (url.PathEscape client.subscriptionID)
    if resourceGroupName = "" then
      ((none, some (.errorsNew "parameter resourceGroupName cannot be empty")), [])
    else
      let urlPath := strings.ReplaceAll urlPath "{resourceGroupName}" (url.PathEscape resourceGroupName)
      if elasticSanName = "" then
        ((none, some (.errorsNew "parameter elasticSanName cannot be empty")), [])
      else
        let urlPath := strings.ReplaceAll urlPath "{elasticSanName}" (url.PathEscape elasticSanName)
        match rt.NewRequest http.MethodGet (rt.JoinPaths client.host urlPath) with
        | (.error err, calls) => ((none, some err), calls)
        | (.ok req, calls) =>
          let reqQP := req.URL.Query
          let reqQP := reqQP.Set "api-version" "2021-11-20-preview"
          let req := { req with URL := { req.URL with RawQuery := reqQP.Encode } }
          let req := { req with Header := req.Header.assign "Accept" ["application/json"] }
          ((some req, none), calls)

/-- The handler `getHandleResponse`; `zero` is the zero value of the model `ElasticSan`. -/
def getHandleResponse {E : Type} (js : JSON E) (zero : E) (resp : Option Response) :
    Traced (ElasticSansClientGetResponse E × Option GoError) :=
  let result : ElasticSansClientGetResponse E := { ElasticSan := zero }
  match js.UnmarshalAsJSON resp result.ElasticSan with
  | (_, some err) => (({ ElasticSan := zero }, some (.runtime err)), [Call.UnmarshalAsJSON resp])
  | (decoded, none) => (({ result with ElasticSan := decoded }, none), [Call.UnmarshalAsJSON resp])

/-- The operation `Get`; `zero` is the zero value of the model `ElasticSan`. -/
def Get {E : Type} (client : ElasticSansClient) (rt : Runtime) (js : JSON E) (zero : E)
    (resourceGroupName elasticSanName : String) :
    Traced (ElasticSansClientGetResponse E × Option GoError) :=
  match getCreateRequest client rt resourceGroupName elasticSanName with
  | ((_, some err), calls) => (({ ElasticSan := zero }, some err), calls)
  | ((req, none), calls) =>
    match rt.Do req with
    | (_, some err) => (({ ElasticSan := zero }, some (.runtime err)), calls ++ [Call.Do req])
    | (resp, none) =>
      if !HasStatusCode resp [http.StatusOK] then
        (({ ElasticSan := zero }, asError (rt.NewResponseError resp)),
         calls ++ [Call.Do req, Call.NewResponseError resp])
      else
        ((getHandleResponse js zero resp).1,
         calls ++ [Call.Do req] ++ (getHandleResponse js zero resp).2)

/-- The builder `listByResourceGroupCreateRequest`. -/
def listByResourceGroupCreateRequest (client : ElasticSansClient) (rt : Runtime)
    (resourceGroupName : String) : Traced (Option Request × Option GoError) :=
  let urlPath := "/subscriptions/{subscriptionId}/resourceGroups/{resourceGroupName}/providers/Microsoft.ElasticSan/elasticSans"
  if client.subscriptionID = "" then
    ((none, some (.errorsNew "parameter client.subscriptionID cannot be empty")), [])
  else
    let urlPath := strings.ReplaceAll urlPath "{subscriptionId}" (url.PathEscape client.subscriptionID)
    if resourceGroupName = "" then
      ((none, some (.errorsNew "parameter resourceGroupName cannot be empty")), [])
    else
      let urlPath := strings.ReplaceAll urlPath "{resourceGroupName}" (url.PathEscape resourceGroupName)
      match rt.NewRequest http.MethodGet (rt.JoinPaths client.host urlPath) with
      | (.error err, calls) => ((none, some err), calls)
      | (.ok req, calls) =>
        let reqQP := req.URL.Query
        let reqQP := reqQP.Set "api-version" "2021-11-20-preview"
        let req := { req with URL := { req.URL with RawQuery := reqQP.Encode } }
        let req := { req with Header := req.Header.assign "Accept" ["application/json"] }
        ((some req, none), calls)

/-- The handler `listByResourceGroupHandleResponse`. -/
def listByResourceGroupHandleResponse {E : Type} (js : JSON (ElasticSanList E)) (resp : Option Response) :
    Traced (ElasticSansClientListByResourceGroupResponse E × Option GoError) :=
  let result : ElasticSansClientListByResourceGroupResponse E := { toElasticSanList := ElasticSanList.zero E }
  match js.UnmarshalAsJSON resp result.toElasticSanList with
  | (_, some err) =>
    (({ toElasticSanList := ElasticSanList.zero E }, some (.runtime err)), [Call.UnmarshalAsJSON resp])
  | (decoded, none) => (({ result with toElasticSanList := decoded }, none), [Call.UnmarshalAsJSON resp])

/-- The function `More` of the pager handler built by `NewListByResourceGroupPager`. -/
def NewListByResourceGroupPager.More {E : Type} (page : ElasticSansClientListByResourceGroupResponse E) : Bool :=
  match page.NextLink with
  | none => false
  | some nextLink => decide (nextLink.length > 0)

/-- The function `Fetcher` of the pager handler built by `NewListByResourceGroupPager`. -/
def NewListByResourceGroupPager.Fetcher {E : Type} (client : ElasticSansClient) (rt : Runtime)
    (js : JSON (ElasticSanList E)) (resourceGroupName : String)
    (page : Option (ElasticSansClientListByResourceGroupResponse E)) :
    Traced (Outcome (ElasticSansClientListByResourceGroupResponse E × Option GoError)) :=
  let built : Outcome (Traced (Option Request × Option GoError)) :=
    match page with
    | none => .done (listByResourceGroupCreateRequest client rt resourceGroupName)
    | some p =>
      match p.NextLink with
      | none => .nilDereference
      | some nextLink =>
        .done (asPair (rt.NewRequest http.MethodGet nextLink).1, (rt.NewRequest http.MethodGet nextLink).2)
  match built with
  | .nilDereference => (.nilDereference, [])
  | .done ((_, some err), calls) =>
    (.done ({ toElasticSanList := ElasticSanList.zero E }, some err), calls)
  | .done ((req, none), calls) =>
    match rt.Do req with
    | (_, some err) =>
      (.done ({ toElasticSanList := ElasticSanList.zero E }, some (.runtime err)), calls ++ [Call.Do req])
    | (resp, none) =>
      if !HasStatusCode resp [http.StatusOK] then
        (.done ({ toElasticSanList := ElasticSanList.zero E }, asError (rt.NewResponseError resp)),
         calls ++ [Call.Do req, Call.NewResponseError resp])
      else
        (.done (listByResourceGroupHandleResponse js resp).1,
         calls ++ [Call.Do req] ++ (listByResourceGroupHandleResponse js resp).2)

/-- The builder `listBySubscriptionCreateRequest`. -/
def listBySubscriptionCreateRequest (client : ElasticSansClient) (rt : Runtime) :
    Traced (Option Request × Option GoError) :=
  let urlPath := "/subscriptions/{subscriptionId}/providers/Microsoft.ElasticSan/elasticSans"
  if client.subscriptionID = "" then
    ((none, some (.errorsNew "parameter client.subscriptionID cannot be empty")), [])
  else
    let urlPath := strings.ReplaceAll urlPath "{subscriptionId}" (url.PathEscape client.subscriptionID)
    match rt.NewRequest http.MethodGet (rt.JoinPaths client.host urlPath) with
    | (.error err, calls) => ((none, some err), calls)
    | (.ok req, calls) =>
      let reqQP := req.URL.Query
      let reqQP := reqQP.Set "api-version" "2021-11-20-preview"
      let req := { req with URL := { req.URL with RawQuery := reqQP.Encode } }
      let req := { req with Header := req.Header.assign "Accept" ["application/json"] }
      ((some req, none), calls)

/-- The handler `listBySubscriptionHandleResponse`. -/
def listBySubscriptionHandleResponse {E : Type} (js : JSON (ElasticSanList E)) (resp : Option Response) :
    Traced (ElasticSansClientListBySubscriptionResponse E × Option GoError) :=
  let result : ElasticSansClientListBySubscriptionResponse E := { toElasticSanList := ElasticSanList.zero E }
  match js.UnmarshalAsJSON resp result.toElasticSanList with
  | (_, some err) =>
    (({ toElasticSanList := ElasticSanList.zero E }, some (.runtime err)), [Call.UnmarshalAsJSON resp])
  | (decoded, none) => (({ result with toElasticSanList := decoded }, none), [Call.UnmarshalAsJSON resp])

/-- The function `More` of the pager handler built by `NewListBySubscriptionPager`. -/
def NewListBySubscriptionPager.More {E : Type} (page : ElasticSansClientListBySubscriptionResponse E) : Bool :=
  match page.NextLink with
  | none => false
  | some nextLink => decide (nextLink.length > 0)

/-- The function `Fetcher` of the pager handler built by `NewListBySubscriptionPager`. -/
def NewListBySubscriptionPager.Fetcher {E : Type} (client : ElasticSansClient) (rt : Runtime)
    (js : JSON (ElasticSanList E))
    (page : Option (ElasticSansClientListBySubscriptionResponse E)) :
    Traced (Outcome (ElasticSansClientListBySubscriptionResponse E × Option GoError)) :=
  let built : Outcome (Traced (Option Request × Option GoError)) :=
    match page with
    | none => .done (listBySubscriptionCreateRequest client rt)
    | some p =>
      match p.NextLink with
      | none => .nilDereference
      | some nextLink =>
        .done (asPair (rt.NewRequest http.MethodGet nextLink).1, (rt.NewRequest http.MethodGet nextLink).2)
  match built with
  | .nilDereference => (.nilDereference, [])
  | .done ((_, some err), calls) =>
    (.done ({ toElasticSanList := ElasticSanList.zero E }, some err), calls)
  | .done ((req, none), calls) =>
    match rt.Do req with
    | (_, some err) =>
      (.done ({ toElasticSanList := ElasticSanList.zero E }, some (.runtime err)), calls ++ [Call.Do req])
    | (resp, none) =>
      if !HasStatusCode resp [http.StatusOK] then
        (.done ({ toElasticSanList := ElasticSanList.zero E }, asError (rt.NewResponseError resp)),
         calls ++ [Call.Do req, Call.NewResponseError resp])
      else
        (.done (listBySubscriptionHandleResponse js resp).1,
         calls ++ [Call.Do req] ++ (listBySubscriptionHandleResponse js resp).2)

/-- The builder `updateCreateRequest`; `U` is the model type `Update`. -/
def updateCreateRequest {U : Type} (client : ElasticSansClient) (rt : Runtime) (js : JSON U)
    (resourceGroupName elasticSanName : String) (parameters : U) :
    Traced (Option Request × Option GoError) :=
  let urlPath := "/subscriptions/{subscriptionId}/resourceGroups/{resourceGroupName}/providers/Microsoft.ElasticSan/elasticSans/{elasticSanName}"
  if client.subscriptionID = "" then
    ((none, some (.errorsNew "parameter client.subscriptionID cannot be empty")), [])
  else
    let urlPath := strings.ReplaceAll urlPath "{subscriptionId}" (url.PathEscape client.subscriptionID)
    if resourceGroupName = "" then
      ((none, some (.errorsNew "parameter resourceGroupName cannot be empty")), [])
    else
      let urlPath := strings.ReplaceAll urlPath "{resourceGroupName}" (url.PathEscape resourceGroupName)
      if elasticSanName = "" then
        ((none, some (.errorsNew "parameter elasticSanName cannot be empty")), [])
      else
        let urlPath := strings.ReplaceAll urlPath "{elasticSanName}" (url.PathEscape elasticSanName)
        match rt.NewRequest http.MethodPatch (rt.JoinPaths client.host urlPath) with
        | (.error err, calls) => ((none, some err), calls)
        | (.ok req, calls) =>
          let reqQP := req.URL.Query
          let reqQP := reqQP.Set "api-version" "2021-11-20-preview"
          let req := { req with URL := { req.URL with RawQuery := reqQP.Encode } }
          let req := { req with Header := req.Header.assign "Accept" ["application/json"] }
          ((some (MarshalAsJSON js req parameters).1, (MarshalAsJSON js req parameters).2), calls)

/-- The operation `update`, the initial call of `BeginUpdate`. -/
def update {U : Type} (client : ElasticSansClient) (rt : Runtime) (js : JSON U)
    (resourceGroupName elasticSanName : String) (parameters : U) :
    Traced (Option Response × Option GoError) :=
  match updateCreateRequest client rt js resourceGroupName elasticSanName parameters with
  | ((_, some err), calls) => ((none, some err), calls)
  | ((req, none), calls) =>
    match rt.Do req with
    | (_, some err) => ((none, some (.runtime err)), calls ++ [Call.Do req])
    | (resp, none) =>
      if !HasStatusCode resp [http.StatusOK, http.StatusAccepted] then
        ((none, asError (rt.NewResponseError resp)),
         calls ++ [Call.Do req, Call.NewResponseError resp])
      else ((resp, none), calls ++ [Call.Do req])

end ElasticSansClient

end armelasticsan

/-! ## Package armlogic: `IntegrationAccountSchemasClient` -/

namespace armlogic

open azcore

/-- The client `IntegrationAccountSchemasClient`; its pipeline is the `Do` of the runtime
argument. -/
structure IntegrationAccountSchemasClient where
  host : String
  subscriptionID : String
deriving DecidableEq, Repr

/-- The options `IntegrationAccountSchemasClientListOptions`; `Top` is a `*int32`. -/
structure IntegrationAccountSchemasClientListOptions where
  Filter : Option String
  Top : Option Int
deriving DecidableEq, Repr

/-- The model `IntegrationAccountSchemaListResult`, for an item type `S` declared outside
the sources. -/
structure IntegrationAccountSchemaListResult (S : Type) where
  NextLink : Option String
  Value : List S

/-- The response `IntegrationAccountSchemasClientListResponse`, which embeds the list
result. -/
structure IntegrationAccountSchemasClientListResponse (S : Type)
    extends IntegrationAccountSchemaListResult S

/-- The zero value of `IntegrationAccountSchemaListResult`. -/
def IntegrationAccountSchemaListResult.zero (S : Type) : IntegrationAccountSchemaListResult S :=
  { NextLink := none, Value := [] }

/-- The response `IntegrationAccountSchemasClientDeleteResponse`, declared outside the
sources: `Delete` returns its zero value `IntegrationAccountSchemasClientDeleteResponse{}`
on every path, so one value of the type is kept. -/
structure IntegrationAccountSchemasClientDeleteResponse where
deriving DecidableEq, Repr

namespace IntegrationAccountSchemasClient

/-- The builder `deleteCreateRequest`. -/
def deleteCreateRequest (client : IntegrationAccountSchemasClient) (rt : Runtime)
    (resourceGroupName integrationAccountName schemaName : String) :
    Traced (Option Request × Option GoError) :=
  let urlPath := "/subscriptions/{subscriptionId}/resourceGroups/{resourceGroupName}/providers/Microsoft.Logic/integrationAccounts/{integrationAccountName}/schemas/{schemaName}"
  if client.subscriptionID = "" then
    ((none, some (.errorsNew "parameter client.subscriptionID cannot be empty")), [])
  else
    let urlPath := strings.ReplaceAll urlPath "{subscriptionId}" (url.PathEscape client.subscriptionID)
    if resourceGroupName = "" then
      ((none, some (.errorsNew "parameter resourceGroupName cannot be empty")), [])
    else
      let urlPath := strings.ReplaceAll urlPath "{resourceGroupName}" (url.PathEscape resourceGroupName)
      if integrationAccountName = "" then
        ((none, some (.errorsNew "parameter integrationAccountName cannot be empty")), [])
      else
        let urlPath := strings.ReplaceAll urlPath "{integrationAccountName}" (url.PathEscape integrationAccountName)
        if schemaName = "" then
          ((none, some (.errorsNew "parameter schemaName cannot be empty")), [])
        else
          let urlPath := strings.ReplaceAll urlPath "{schemaName}" (url.PathEscape schemaName)
          match rt.NewRequest http.MethodDelete (rt.JoinPaths client.host urlPath) with
          | (.error err, calls) => ((none, some err), calls)
          | (.ok req, calls) =>
            let reqQP := req.URL.Query
            let reqQP := reqQP.Set "api-version" "2019-05-01"
            let req := { req with URL := { req.URL with RawQuery := reqQP.Encode } }
            let req := { req with Header := req.Header.assign "Accept" ["application/json"] }
            ((some req, none), calls)

/-- The operation `Delete`. -/
def Delete (client : IntegrationAccountSchemasClient) (rt : Runtime)
    (resourceGroupName integrationAccountName schemaName : String) :
    Traced (IntegrationAccountSchemasClientDeleteResponse × Option GoError) :=
  match deleteCreateRequest client rt resourceGroupName integrationAccountName schemaName with
  | ((_, some err), calls) => (({}, some err), calls)
  | ((req, none), calls) =>
    match rt.Do req with
    | (_, some err) => (({}, some (.runtime err)), calls ++ [Call.Do req])
    | (resp, none) =>
      if !HasStatusCode resp [http.StatusOK, http.StatusNoContent] then
        (({}, asError (rt.NewResponseError resp)),
         calls ++ [Call.Do req, Call.NewResponseError resp])
      else (({}, none), calls ++ [Call.Do req])

/-- The builder `getCreateRequest`. -/
def getCreateRequest (client : IntegrationAccountSchemasClient) (rt : Runtime)
    (resourceGroupName integrationAccountName schemaName : String) :
    Traced (Option Request × Option GoError) :=
  let urlPath := "/subscriptions/{subscriptionId}/resourceGroups/{resourceGroupName}/providers/Microsoft.Logic/integrationAccounts/{integrationAccountName}/schemas/{schemaName}"
  if client.subscriptionID = "" then
    ((none, some (.errorsNew "parameter client.subscriptionID cannot be empty")), [])
  else
    let urlPath := strings.ReplaceAll urlPath "{subscriptionId}" (url.PathEscape client.subscriptionID)
    if resourceGroupName = "" then
      ((none, some (.errorsNew "parameter resourceGroupName cannot be empty")), [])
    else
      let urlPath := strings.ReplaceAll urlPath "{resourceGroupName}" (url.PathEscape resourceGroupName)
      if integrationAccountName = "" then
        ((none, some (.errorsNew "parameter integrationAccountName cannot be empty")), [])
      else
        let urlPath := strings.ReplaceAll urlPath "{integrationAccountName}" (url.PathEscape integrationAccountName)
        if schemaName = "" then
          ((none, some (.errorsNew "parameter schemaName cannot be empty")), [])
        else
          let urlPath := strings.ReplaceAll urlPath "{schemaName}" (url.PathEscape schemaName)
          match rt.NewRequest http.MethodGet (rt.JoinPaths client.host urlPath) with
          | (.error err, calls) => ((none, some err), calls)
          | (.ok req, calls) =>
            let reqQP := req.URL.Query
            let reqQP := reqQP.Set "api-version" "2019-05-01"
            let req := { req with URL := { req.URL with RawQuery := reqQP.Encode } }
            let req := { req with Header := req.Header.assign "Accept" ["application/json"] }
            ((some req, none), calls)

/-- The builder `listCreateRequest`. -/
def listCreateRequest (client : IntegrationAccountSchemasClient) (rt : Runtime)
    (resourceGroupName integrationAccountName : String)
    (options : Option IntegrationAccountSchemasClientListOptions) :
    Traced (Option Request × Option GoError) :=
  let urlPath := "/subscriptions/{subscriptionId}/resourceGroups/{resourceGroupName}/providers/Microsoft.Logic/integrationAccounts/{integrationAccountName}/schemas"
  if client.subscriptionID = "" then
    ((none, some (.errorsNew "parameter client.subscriptionID cannot be empty")), [])
  else
    let urlPath := strings.ReplaceAll urlPath "{subscriptionId}" (url.PathEscape client.subscriptionID)
    if resourceGroupName = "" then
      ((none, some (.errorsNew "parameter resourceGroupName cannot be empty")), [])
    else
      let urlPath := strings.ReplaceAll urlPath "{resourceGroupName}" (url.PathEscape resourceGroupName)
      if integrationAccountName = "" then
        ((none, some (.errorsNew "parameter integrationAccountName cannot be empty")), [])
      else
        let urlPath := strings.ReplaceAll urlPath "{integrationAccountName}" (url.PathEscape integrationAccountName)
        match rt.NewRequest http.MethodGet (rt.JoinPaths client.host urlPath) with
        | (.error err, calls) => ((none, some err), calls)
        | (.ok req, calls) =>
          let reqQP := req.URL.Query
          let reqQP := reqQP.Set "api-version" "2019-05-01"
          let reqQP :=
            match options with
            | some { Top := some top, .. } => reqQP.Set "$top" (strconv.FormatInt top)
            | _ => reqQP
          let reqQP :=
            match options with
            | some { Filter := some filter, .. } => reqQP.Set "$filter" filter
            | _ => reqQP
          let req := { req with URL := { req.URL with RawQuery := reqQP.Encode } }
          let req := { req with Header := req.Header.assign "Accept" ["application/json"] }
          ((some req, none), calls)

/-- The handler `listHandleResponse`. -/
def listHandleResponse {S : Type} (js : JSON (IntegrationAccountSchemaListResult S))
    (resp : Option Response) :
    Traced (IntegrationAccountSchemasClientListResponse S × Option GoError) :=
  let result : IntegrationAccountSchemasClientListResponse S :=
    { toIntegrationAccountSchemaListResult := IntegrationAccountSchemaListResult.zero S }
  match js.UnmarshalAsJSON resp result.toIntegrationAccountSchemaListResult with
  | (_, some err) =>
    (({ toIntegrationAccountSchemaListResult := IntegrationAccountSchemaListResult.zero S },
      some (.runtime err)), [Call.UnmarshalAsJSON resp])
  | (decoded, none) =>
    (({ result with toIntegrationAccountSchemaListResult := decoded }, none),
     [Call.UnmarshalAsJSON resp])

/-- The function `More` of the pager handler built by `NewListPager`. -/
def NewListPager.More {S : Type} (page : IntegrationAccountSchemasClientListResponse S) : Bool :=
  match page.NextLink with
  | none => false
  | some nextLink => decide (nextLink.length > 0)

/-- The function `Fetcher` of the pager handler built by `NewListPager`. -/
def NewListPager.Fetcher {S : Type} (client : IntegrationAccountSchemasClient) (rt : Runtime)
    (js : JSON (IntegrationAccountSchemaListResult S))
    (resourceGroupName integrationAccountName : String)
    (options : Option IntegrationAccountSchemasClientListOptions)
    (page : Option (IntegrationAccountSchemasClientListResponse S)) :
    Traced (Outcome (IntegrationAccountSchemasClientListResponse S × Option GoError)) :=
  let built : Outcome (Traced (Option Request × Option GoError)) :=
    match page with
    | none => .done (listCreateRequest client rt resourceGroupName integrationAccountName options)
    | some p =>
      match p.NextLink with
      | none => .nilDereference
      | some nextLink =>
        .done (asPair (rt.NewRequest http.MethodGet nextLink).1, (rt.NewRequest http.MethodGet nextLink).2)
  match built with
  | .nilDereference => (.nilDereference, [])
  | .done ((_, some err), calls) =>
    (.done ({ toIntegrationAccountSchemaListResult := IntegrationAccountSchemaListResult.zero S },
      some err), calls)
  | .done ((req, none), calls) =>
    match rt.Do req with
    | (_, some err) =>
      (.done ({ toIntegrationAccountSchemaListResult := IntegrationAccountSchemaListResult.zero S },
        some (.runtime err)), calls ++ [Call.Do req])
    | (resp, none) =>
      if !HasStatusCode resp [http.StatusOK] then
        (.done ({ toIntegrationAccountSchemaListResult := IntegrationAccountSchemaListResult.zero S },
          asError (rt.NewResponseError resp)),
         calls ++ [Call.Do req, Call.NewResponseError resp])
      else
        (.done (listHandleResponse js resp).1,
         calls ++ [Call.Do req] ++ (listHandleResponse js resp).2)

end IntegrationAccountSchemasClient

end armlogic

/-! ## Package armkeyvault: `MHSMPrivateLinkResourcesClient` -/

namespace armkeyvault

open azcore

/-- The client `MHSMPrivateLinkResourcesClient`; `endpoint` is `client.con.Endpoint()`, and
`client.con.Pipeline()` is the `Do` of the runtime argument. -/
structure MHSMPrivateLinkResourcesClient where
  endpoint : String
  subscriptionID : String
deriving DecidableEq, Repr

namespace MHSMPrivateLinkResourcesClient

/-- The builder `listByMHSMResourceCreateRequest`; `telemetryInfo` is the package constant
of that name, declared outside the sources. -/
def listByMHSMResourceCreateRequest (client : MHSMPrivateLinkResourcesClient) (rt : Runtime)
    (telemetryInfo : String) (resourceGroupName name : String) :
    Traced (Option Request × Option GoError) :=
  let urlPath := "/subscriptions/{subscriptionId}/resourceGroups/{resourceGroupName}/providers/Microsoft.KeyVault/managedHSMs/{name}/privateLinkResources"
  if client.subscriptionID = "" then
    ((none, some (.errorsNew "parameter client.subscriptionID cannot be empty")), [])
  else
    let urlPath := strings.ReplaceAll urlPath "{subscriptionId}" (url.PathEscape client.subscriptionID)
    if resourceGroupName = "" then
      ((none, some (.errorsNew "parameter resourceGroupName cannot be empty")), [])
    else
      let urlPath := strings.ReplaceAll urlPath "{resourceGroupName}" (url.PathEscape resourceGroupName)
      if name = "" then
        ((none, some (.errorsNew "parameter name cannot be empty")), [])
      else
        let urlPath := strings.ReplaceAll urlPath "{name}" (url.PathEscape name)
        match rt.NewRequest http.MethodGet (rt.JoinPaths client.endpoint urlPath) with
        | (.error err, calls) => ((none, some err), calls)
        | (.ok req, calls) =>
          let req := { req with Telemetry := some telemetryInfo }
          let reqQP := req.URL.Query
          let reqQP := reqQP.Set "api-version" "2021-04-01-preview"
          let req := { req with URL := { req.URL with RawQuery := reqQP.Encode } }
          let req := { req with Header := req.Header.Set "Accept" "application/json" }
          ((some req, none), calls)

/-- The handler `listByMHSMResourceHandleError`.  Its argument is the `*azcore.Response` of
a pipeline call that returned no error; the handler reads its field `resp.Response`, so the
argument is a response that is there. -/
def listByMHSMResourceHandleError (rt : Runtime) (js : JSON CloudError) (resp : Response) :
    Traced (Option GoError) :=
  match rt.Payload (some resp) with
  | (_, some err) =>
    (asError (rt.NewResponseErrorOf (.runtime err) (some resp)),
     [Call.Payload (some resp), Call.NewResponseErrorOf (.runtime err) (some resp)])
  | (body, none) =>
    let errType : CloudError := { raw := body, InnerError := none }
    match js.UnmarshalAsJSON (some resp) errType with
    | (_, some err) =>
      (asError (rt.NewResponseErrorOf (.fmtErrorf (body ++ "\n" ++ err.text)) (some resp)),
       [Call.Payload (some resp), Call.UnmarshalAsJSON (some resp),
        Call.NewResponseErrorOf (.fmtErrorf (body ++ "\n" ++ err.text)) (some resp)])
    | (errType, none) =>
      (asError (rt.NewResponseErrorOf (.cloudError errType) (some resp)),
       [Call.Payload (some resp), Call.UnmarshalAsJSON (some resp),
        Call.NewResponseErrorOf (.cloudError errType) (some resp)])

end MHSMPrivateLinkResourcesClient

end armkeyvault

/-! ## Package armnetwork: `HubVirtualNetworkConnectionsClient` -/

namespace armnetwork

open azcore

/-- The client `HubVirtualNetworkConnectionsClient`; its pipeline `pl` is the `Do` of the
runtime argument. -/
structure HubVirtualNetworkConnectionsClient where
  ep : String
  subscriptionID : String
deriving DecidableEq, Repr

/-- The model `ListHubVirtualNetworkConnectionsResult`, for an item type `C` declared
outside the sources. -/
structure ListHubVirtualNetworkConnectionsResult (C : Type) where
  NextLink : Option String
  Value : List C

/-- The response `HubVirtualNetworkConnectionsListResponse`. -/
structure HubVirtualNetworkConnectionsListResponse (C : Type) where
  ListHubVirtualNetworkConnectionsResult : ListHubVirtualNetworkConnectionsResult C
  RawResponse : Option Response

namespace HubVirtualNetworkConnectionsClient

/-- The builder `createOrUpdateCreateRequest`; `C` is the model type
`HubVirtualNetworkConnection`. -/
def createOrUpdateCreateRequest {C : Type} (client : HubVirtualNetworkConnectionsClient)
    (rt : Runtime) (js : JSON C) (resourceGroupName virtualHubName connectionName : String)
    (hubVirtualNetworkConnectionParameters : C) : Traced (Option Request × Option GoError) :=
  let urlPath := "/subscriptions/{subscriptionId}/resourceGroups/{resourceGroupName}/providers/Microsoft.Network/virtualHubs/{virtualHubName}/hubVirtualNetworkConnections/{connectionName}"
  if client.subscriptionID = "" then
    ((none, some (.errorsNew "parameter client.subscriptionID cannot be empty")), [])
  else
    let urlPath := strings.ReplaceAll urlPath "{subscriptionId}" (url.PathEscape client.subscriptionID)
    if resourceGroupName = "" then
      ((none, some (.errorsNew "parameter resourceGroupName cannot be empty")), [])
    else
      let urlPath := strings.ReplaceAll urlPath "{resourceGroupName}" (url.PathEscape resourceGroupName)
      if virtualHubName = "" then
        ((none, some (.errorsNew "parameter virtualHubName cannot be empty")), [])
      else
        let urlPath := strings.ReplaceAll urlPath "{virtualHubName}" (url.PathEscape virtualHubName)
        if connectionName = "" then
          ((none, some (.errorsNew "parameter connectionName cannot be empty")), [])
        else
          let urlPath := strings.ReplaceAll urlPath "{connectionName}" (url.PathEscape connectionName)
          match rt.NewRequest http.MethodPut (rt.JoinPaths client.ep urlPath) with
          | (.error err, calls) => ((none, some err), calls)
          | (.ok req, calls) =>
            let reqQP := req.URL.Query
            let reqQP := reqQP.Set "api-version" "2021-03-01"
            let req := { req with URL := { req.URL with RawQuery := reqQP.Encode } }
            let req := { req with Header := req.Header.Set "Accept" "application/json" }
            ((some (MarshalAsJSON js req hubVirtualNetworkConnectionParameters).1,
              (MarshalAsJSON js req hubVirtualNetworkConnectionParameters).2), calls)

/-- The handler `createOrUpdateHandleError`. -/
def createOrUpdateHandleError (rt : Runtime) (js : JSON CloudError) (resp : Option Response) :
    Traced (Option GoError) :=
  match rt.Payload resp with
  | (_, some err) =>
    (asError (rt.NewResponseErrorOf (.runtime err) resp),
     [Call.Payload resp, Call.NewResponseErrorOf (.runtime err) resp])
  | (body, none) =>
    let errType : CloudError := { raw := body, InnerError := none }
    match js.UnmarshalAsJSON resp errType with
    | (_, some err) =>
      (asError (rt.NewResponseErrorOf (.fmtErrorf (body ++ "\n" ++ err.text)) resp),
       [Call.Payload resp, Call.UnmarshalAsJSON resp,
        Call.NewResponseErrorOf (.fmtErrorf (body ++ "\n" ++ err.text)) resp])
    | (errType, none) =>
      (asError (rt.NewResponseErrorOf (.cloudError errType) resp),
       [Call.Payload resp, Call.UnmarshalAsJSON resp,
        Call.NewResponseErrorOf (.cloudError errType) resp])

/-- The operation `createOrUpdate`, the initial call of `BeginCreateOrUpdate`. -/
def createOrUpdate {C : Type} (client : HubVirtualNetworkConnectionsClient) (rt : Runtime)
    (js : JSON C) (jsErr : JSON CloudError)
    (resourceGroupName virtualHubName connectionName : String)
    (hubVirtualNetworkConnectionParameters : C) : Traced (Option Response × Option GoError) :=
  match createOrUpdateCreateRequest client rt js resourceGroupName virtualHubName connectionName
      hubVirtualNetworkConnectionParameters with
  | ((_, some err), calls) => ((none, some err), calls)
  | ((req, none), calls) =>
    match rt.Do req with
    | (_, some err) => ((none, some (.runtime err)), calls ++ [Call.Do req])
    | (resp, none) =>
      if !HasStatusCode resp [http.StatusOK, http.StatusCreated] then
        ((none, (createOrUpdateHandleError rt jsErr resp).1),
         calls ++ [Call.Do req] ++ (createOrUpdateHandleError rt jsErr resp).2)
      else ((resp, none), calls ++ [Call.Do req])

/-- The handler `deleteHandleError`. -/
def deleteHandleError (rt : Runtime) (js : JSON CloudError) (resp : Option Response) :
    Traced (Option GoError) :=
  match rt.Payload resp with
  | (_, some err) =>
    (asError (rt.NewResponseErrorOf (.runtime err) resp),
     [Call.Payload resp, Call.NewResponseErrorOf (.runtime err) resp])
  | (body, none) =>
    let errType : CloudError := { raw := body, InnerError := none }
    match js.UnmarshalAsJSON resp errType with
    | (_, some err) =>
      (asError (rt.NewResponseErrorOf (.fmtErrorf (body ++ "\n" ++ err.text)) resp),
       [Call.Payload resp, Call.UnmarshalAsJSON resp,
        Call.NewResponseErrorOf (.fmtErrorf (body ++ "\n" ++ err.text)) resp])
    | (errType, none) =>
      (asError (rt.NewResponseErrorOf (.cloudError errType) resp),
       [Call.Payload resp, Call.UnmarshalAsJSON resp,
        Call.NewResponseErrorOf (.cloudError errType) resp])

/-- The handler `getHandleError`. -/
def getHandleError (rt : Runtime) (js : JSON CloudError) (resp : Option Response) :
    Traced (Option GoError) :=
  match rt.Payload resp with
  | (_, some err) =>
    (asError (rt.NewResponseErrorOf (.runtime err) resp),
     [Call.Payload resp, Call.NewResponseErrorOf (.runtime err) resp])
  | (body, none) =>
    let errType : CloudError := { raw := body, InnerError := none }
    match js.UnmarshalAsJSON resp errType with
    | (_, some err) =>
      (asError (rt.NewResponseErrorOf (.fmtErrorf (body ++ "\n" ++ err.text)) resp),
       [Call.Payload resp, Call.UnmarshalAsJSON resp,
        Call.NewResponseErrorOf (.fmtErrorf (body ++ "\n" ++ err.text)) resp])
    | (errType, none) =>
      (asError (rt.NewResponseErrorOf (.cloudError errType) resp),
       [Call.Payload resp, Call.UnmarshalAsJSON resp,
        Call.NewResponseErrorOf (.cloudError errType) resp])

/-- The function `advancer` of the pager built by `List`. -/
def List.advancer {C : Type} (rt : Runtime) (resp : HubVirtualNetworkConnectionsListResponse C) :
    Outcome (Traced (Option Request × Option GoError)) :=
  match resp.ListHubVirtualNetworkConnectionsResult.NextLink with
  | none => .nilDereference
  | some nextLink =>
    .done (asPair (rt.NewRequest http.MethodGet nextLink).1, (rt.NewRequest http.MethodGet nextLink).2)

/-- The handler `listHandleError`. -/
def listHandleError (rt : Runtime) (js : JSON CloudError) (resp : Option Response) :
    Traced (Option GoError) :=
  match rt.Payload resp with
  | (_, some err) =>
    (asError (rt.NewResponseErrorOf (.runtime err) resp),
     [Call.Payload resp, Call.NewResponseErrorOf (.runtime err) resp])
  | (body, none) =>
    let errType : CloudError := { raw := body, InnerError := none }
    match js.UnmarshalAsJSON resp errType with
    | (_, some err) =>
      (asError (rt.NewResponseErrorOf (.fmtErrorf (body ++ "\n" ++ err.text)) resp),
       [Call.Payload resp, Call.UnmarshalAsJSON resp,
        Call.NewResponseErrorOf (.fmtErrorf (body ++ "\n" ++ err.text)) resp])
    | (errType, none) =>
      (asError (rt.NewResponseErrorOf (.cloudError errType) resp),
       [Call.Payload resp, Call.UnmarshalAsJSON resp,
        Call.NewResponseErrorOf (.cloudError errType) resp])

end HubVirtualNetworkConnectionsClient

end armnetwork

/-! ## Package blockblob (azblob): upload options -/

namespace blob

/-- The types of package `blob` (and `time.Time`, and the progress callback) that the options
of package `blockblob` refer to; they are declared outside the sources. -/
structure Types where
  HTTPHeaders : Type
  AccessConditions : Type
  AccessTier : Type
  CpkInfo : Type
  CpkScopeInfo : Type
  TransferValidationType : Type
  ImmutabilityPolicySetting : Type
  Time : Type
  Progress : Type

end blob

namespace blockblob

/-- The constant `_1MiB` of the package, declared outside `models.go`: one mebibyte, the
"1 MiB" of the comment on `UploadStreamOptions.BlockSize`. -/
def _1MiB : Int := 1024 * 1024

/-- The options `CommitBlockListOptions`.  A Go map or slice that may be nil is an
`Option`. -/
structure CommitBlockListOptions (T : blob.Types) where
  Tags : Option (List (String × String))
  Metadata : Option (List (String × Option String))
  RequestID : Option String
  Tier : Option T.AccessTier
  Timeout : Option Int
  TransactionalContentCRC64 : Option String
  TransactionalContentMD5 : Option String
  HTTPHeaders : Option T.HTTPHeaders
  CpkInfo : Option T.CpkInfo
  CpkScopeInfo : Option T.CpkScopeInfo
  AccessConditions : Option T.AccessConditions
  LegalHold : Option Bool
  ImmutabilityPolicyMode : Option T.ImmutabilityPolicySetting
  ImmutabilityPolicyExpiryTime : Option T.Time

/-- The options `UploadOptions`. -/
structure UploadOptions (T : blob.Types) where
  Tags : Option (List (String × String))
  Metadata : Option (List (String × Option String))
  Tier : Option T.AccessTier
  TransactionalContentMD5 : Option String
  HTTPHeaders : Option T.HTTPHeaders
  CpkInfo : Option T.CpkInfo
  CpkScopeInfo : Option T.CpkScopeInfo
  AccessConditions : Option T.AccessConditions
  LegalHold : Option Bool
  ImmutabilityPolicyMode : Option T.ImmutabilityPolicySetting
  ImmutabilityPolicyExpiryTime : Option T.Time

/-- The options `uploadFromReaderOptions` of `UploadBuffer` and `UploadFile`.  `BlockSize` is
an `int64`, `Concurrency` a `uint16`, `TransactionalContentCRC64` a `uint64`. -/
structure uploadFromReaderOptions (T : blob.Types) where
  BlockSize : Int
  Progress : Option T.Progress
  HTTPHeaders : Option T.HTTPHeaders
  Metadata : Option (List (String × Option String))
  AccessConditions : Option T.AccessConditions
  AccessTier : Option T.AccessTier
  Tags : Option (List (String × String))
  CpkInfo : Option T.CpkInfo
  CpkScopeInfo : Option T.CpkScopeInfo
  Concurrency : Nat
  TransactionalValidation : Option T.TransferValidationType
  TransactionalContentCRC64 : Nat
  TransactionalContentMD5 : Option String

/-- The method `uploadFromReaderOptions.getUploadBlockBlobOptions`. -/
def uploadFromReaderOptions.getUploadBlockBlobOptions {T : blob.Types}
    (o : uploadFromReaderOptions T) : Option (UploadOptions T) :=
  some
    { Tags := o.Tags
      Metadata := o.Metadata
      Tier := o.AccessTier
      HTTPHeaders := o.HTTPHeaders
      AccessConditions := o.AccessConditions
      CpkInfo := o.CpkInfo
      CpkScopeInfo := o.CpkScopeInfo
      TransactionalContentMD5 := none
      LegalHold := none
      ImmutabilityPolicyMode := none
      ImmutabilityPolicyExpiryTime := none }

/-- The method `uploadFromReaderOptions.getCommitBlockListOptions`: the fields that the
composite literal does not name keep their zero value. -/
def uploadFromReaderOptions.getCommitBlockListOptions {T : blob.Types}
    (o : uploadFromReaderOptions T) : Option (CommitBlockListOptions T) :=
  some
    { Tags := o.Tags
      Metadata := o.Metadata
      Tier := o.AccessTier
      HTTPHeaders := o.HTTPHeaders
      CpkInfo := o.CpkInfo
      CpkScopeInfo := o.CpkScopeInfo
      RequestID := none
      Timeout := none
      TransactionalContentCRC64 := none
      TransactionalContentMD5 := none
      AccessConditions := none
      LegalHold := none
      ImmutabilityPolicyMode := none
      ImmutabilityPolicyExpiryTime := none }

/-- The options `UploadStreamOptions`.  `BlockSize` is an `int64`, `Concurrency` an `int`. -/
structure UploadStreamOptions (T : blob.Types) where
  BlockSize : Int
  Concurrency : Int
  TransactionalValidation : Option T.TransferValidationType
  HTTPHeaders : Option T.HTTPHeaders
  Metadata : Option (List (String × Option String))
  AccessConditions : Option T.AccessConditions
  AccessTier : Option T.AccessTier
  Tags : Option (List (String × String))
  CpkInfo : Option T.CpkInfo
  CpkScopeInfo : Option T.CpkScopeInfo

/-- The method `UploadStreamOptions.setDefaults`, from the options before the call to the
options after it. -/
def UploadStreamOptions.setDefaults {T : blob.Types} (u : UploadStreamOptions T) :
    UploadStreamOptions T :=
  let u := if u.Concurrency = 0 then { u with Concurrency := 1 } else u
  let u := if u.BlockSize < _1MiB then { u with BlockSize := _1MiB } else u
  u

/-- The method `UploadStreamOptions.getCommitBlockListOptions`, on a receiver that may be
nil. -/
def UploadStreamOptions.getCommitBlockListOptions {T : blob.Types}
    (u : Option (UploadStreamOptions T)) : Option (CommitBlockListOptions T) :=
  match u with
  | none => none
  | some u =>
    some
      { Tags := u.Tags
        Metadata := u.Metadata
        Tier := u.AccessTier
        HTTPHeaders := u.HTTPHeaders
        CpkInfo := u.CpkInfo
        CpkScopeInfo := u.CpkScopeInfo
        AccessConditions := u.AccessConditions
        RequestID := none
        Timeout := none
        TransactionalContentCRC64 := none
        TransactionalContentMD5 := none
        LegalHold := none
        ImmutabilityPolicyMode := none
        ImmutabilityPolicyExpiryTime := none }

/-- The method `UploadStreamOptions.getUploadOptions`, on a receiver that may be nil. -/
def UploadStreamOptions.getUploadOptions {T : blob.Types}
    (u : Option (UploadStreamOptions T)) : Option (UploadOptions T) :=
  match u with
  | none => none
  | some u =>
    some
      { Tags := u.Tags
        Metadata := u.Metadata
        Tier := u.AccessTier
        HTTPHeaders := u.HTTPHeaders
        CpkInfo := u.CpkInfo
        CpkScopeInfo := u.CpkScopeInfo
        AccessConditions := u.AccessConditions
        TransactionalContentMD5 := none
        LegalHold := none
        ImmutabilityPolicyMode := none
        ImmutabilityPolicyExpiryTime := none }

end blockblob

/-! ## The go-autorest library, as the batch client sees it -/

namespace strings

/-- The function `strings.TrimRight(s, cutset)`: `s` without its trailing characters that
are in `cutset`. -/
def TrimRight (s cutset : String) : String :=
  ⟨(s.data.reverse.dropWhile (fun x => cutset.data.contains x)).reverse⟩

/-- The function `strings.HasPrefix(s, p)`: `s` begins with `p`. -/
def HasPrefix (s p : String) : Bool := p.data.isPrefixOf s.data

end strings

namespace http

/-- The `http.Request` that the preparers of go-autorest build: verb, URL (nil in the empty
request) and header map. -/
structure Request where
  Method : String
  URL : Option url.URL
  Header : Header
deriving DecidableEq, Repr

/-- The empty request `&http.Request{}`. -/
def Request.empty : Request := { Method := "", URL := none, Header := [] }

end http

namespace validation

/-- The names of the constraints of go-autorest `validation` that the batch client uses on
an integer. -/
inductive IntConstraintName where
  | InclusiveMaximum
  | InclusiveMinimum
deriving DecidableEq, Repr

/-- A `validation.Constraint` on an integer: the members of a `Chain`.  Their own `Chain` is
nil in the sources. -/
structure IntConstraint where
  Target : String
  Name : IntConstraintName
  Rule : Int
deriving DecidableEq, Repr

/-- A `validation.Constraint` with the name `validation.Null` on a pointer: `Rule` tells
whether the value is required, `Chain` constrains the value pointed to. -/
structure NullConstraint where
  Target : String
  Rule : Bool
  Chain : List IntConstraint
deriving DecidableEq, Repr

/-- A `validation.Validation` of a `*int32` target. -/
structure Validation where
  TargetValue : Option Int
  Constraints : List NullConstraint
deriving DecidableEq, Repr

/-- What a failed validation reports: the target, the constraint that failed (`none` for the
nil check of `validation.Null`) and the value. -/
structure Failure where
  Target : String
  Constraint : Option IntConstraintName
  Value : Option Int
deriving DecidableEq, Repr

/-- The check of one integer constraint (`validateInt` of go-autorest): the value is at most,
or at least, the rule.  The rules of the sources, `int64(10)`, `int64(1000)` and `1`, are
read as the integers they are. -/
def validateInt (x : Int) (c : IntConstraint) : Option Failure :=
  match c.Name with
  | .InclusiveMaximum =>
    if x ≤ c.Rule then none else some { Target := c.Target, Constraint := some c.Name, Value := some x }
  | .InclusiveMinimum =>
    if x ≥ c.Rule then none else some { Target := c.Target, Constraint := some c.Name, Value := some x }

/-- The first failure of a chain of integer constraints, in order. -/
def validateChain (x : Int) : List IntConstraint → Option Failure
  | [] => none
  | c :: rest =>
    match validateInt x c with
    | some failure => some failure
    | none => validateChain x rest

/-- The check of a pointer (`validatePtr` of go-autorest): a nil pointer fails when the rule
of `validation.Null` says the value is required, and passes otherwise; a non-nil pointer is
checked against the chain. -/
def validatePtr (x : Option Int) (c : NullConstraint) : Option Failure :=
  match x with
  | none => if c.Rule then some { Target := c.Target, Constraint := none, Value := none } else none
  | some v => validateChain v c.Chain

/-- The first failure of the constraints of one target, in order. -/
def validateConstraints (x : Option Int) : List NullConstraint → Option Failure
  | [] => none
  | c :: rest =>
    match validatePtr x c with
    | some failure => some failure
    | none => validateConstraints x rest

/-- The function `validation.Validate`: the first failure, in order, or nil. -/
def Validate : List Validation → Option Failure
  | [] => none
  | item :: rest =>
    match validateConstraints item.TargetValue item.Constraints with
    | some failure => some failure
    | none => Validate rest

end validation

namespace autorest

open azcore (Response)

/-- The Go `error` values that pass through the batch client, by their origin. -/
inductive Error where
  /-- An error made inside go-autorest or below it (URL parsing, transport, responders). -/
  | library (text : String)
  /-- The value of `validation.NewError(packageType, method, message)`; the message is the
  text of the failure, kept as the failure itself. -/
  | validation (packageType method : String) (failure : validation.Failure)
  /-- An `autorest.DetailedError`. -/
  | detailed (original : Error) (packageType method : String) (response : Option Response)
      (message : String)
deriving DecidableEq, Repr

/-- The function `autorest.NewErrorWithError`: an error that is a `DetailedError` already is
returned as it is. -/
def NewErrorWithError (original : Error) (packageType method : String)
    (resp : Option Response) (message : String) : Error :=
  match original with
  | .detailed _ _ _ _ _ => original
  | _ => .detailed original packageType method resp message

/-- The values whose text `autorest.String` renders for a header. -/
inductive HeaderValue where
  | uuidPointer (text : String)
  | boolPointer (b : Bool)
  | bool (b : Bool)
  | timePointer (text : String)
deriving DecidableEq, Repr

/-- What the model does not decide about go-autorest, the `net/url` under it and the
context of a request: which texts `url.Parse` rejects, which have a scheme, how
`URL.String` writes a URL, how `autorest.String` renders a header value, which errors of a
sender `autorest.IsTemporaryNetworkError` and `autorest.IsTokenRefreshError` accept, and
how many delays between two sends the context of the request lets pass before it is done
(a context that is never cancelled is one whose number no run reaches). -/
structure Library where
  ParseError : String → Option String
  HasScheme : String → Bool
  URLString : url.URL → String
  String : HeaderValue → String
  IsTemporaryNetworkError : Error → Bool
  IsTokenRefreshError : Error → Bool
  Delays : Nat

/-- The function `autorest.Encode(location, v)` on the text that `autorest.String` gives
for `v` (a string itself, the decimal digits of an integer), for a location written in
lower case: `query` escapes with `url.QueryEscape`, `path` does the same and writes `%20`
for `+`. -/
def Encode (location text : String) : String :=
  if location = "path" then strings.ReplaceAll (url.QueryEscape text) "+" "%20"
  else if location = "query" then url.QueryEscape text
  else text

/-- A `map[string]interface{}` of parameters whose values are texts: an association list
with one entry per key. -/
abbrev Parameters := List (String × String)

/-- The map assignment `parameters[key] = value`. -/
def Parameters.assign : Parameters → String → String → Parameters
  | [], key, value => [(key, value)]
  | (k, v) :: rest, key, value =>
    if k = key then (k, value) :: rest else (k, v) :: Parameters.assign rest key value

/-- The prepare decorators of go-autorest that the batch client uses. -/
inductive PrepareDecorator where
  | AsGet
  | WithCustomBaseURL (baseURL : String) (urlParameters : Parameters)
  | WithPath (path : String)
  | WithQueryParameters (queryParameters : Parameters)
  | WithHeader (header value : String)
deriving DecidableEq, Repr

/-- The loop of `WithQueryParameters` over the parameters: each value is unescaped and
added for its key with `v.Add(key, d)`, after the values that the query of the URL already
holds for the key; an unescape error ends the loop. -/
def setQueryParameters : url.Values → Parameters → Except Error url.Values
  | v, [] => .ok v
  | v, (key, value) :: rest =>
    match url.unescape value.data with
    | none => .error (.library "invalid URL escape")
    | some decoded => setQueryParameters (v.Add key ⟨decoded⟩) rest

/-- The texts of a base URL after `WithCustomBaseURL` has replaced every `{key}` by its
value. -/
def replaceURLParameters : String → Parameters → String
  | baseURL, [] => baseURL
  | baseURL, (key, value) :: rest =>
    replaceURLParameters (strings.ReplaceAll baseURL ("\x7b" ++ key ++ "\x7d") value) rest

/-- What one decorator does to a request that the decorators before it have prepared
without error. -/
def PrepareDecorator.apply (lib : Library) (d : PrepareDecorator) (r : http.Request) :
    http.Request × Option Error :=
  match d with
  | .AsGet => ({ r with Method := "GET" }, none)
  | .WithCustomBaseURL baseURL urlParameters =>
    let baseURL := replaceURLParameters baseURL urlParameters
    match lib.ParseError baseURL with
    | some text => (r, some (.library text))
    | none =>
      if lib.HasScheme baseURL then ({ r with URL := some (url.Parse baseURL) }, none)
      else (r, some (.library ("autorest: No scheme detected in URL " ++ baseURL)))
  | .WithPath path =>
    match r.URL with
    | none => (r, some (.library "autorest#WithPath: Invoked with a nil URL"))
    | some u =>
      let p := strings.TrimRight (lib.URLString u) "/"
      let path := if !strings.HasPrefix path "/" then "/" ++ path else path
      match lib.ParseError (p ++ path) with
      | some text => ({ r with URL := none }, some (.library text))
      | none => ({ r with URL := some (url.Parse (p ++ path)) }, none)
  | .WithQueryParameters queryParameters =>
    match r.URL with
    | none => (r, some (.library "autorest#WithQueryParameters: Invoked with a nil URL"))
    | some u =>
      match setQueryParameters u.Query queryParameters with
      | .error err => (r, some err)
      | .ok v => ({ r with URL := some { u with RawQuery := v.Encode } }, none)
  | .WithHeader header value => ({ r with Header := r.Header.Set header value }, none)

/-- The method `Prepare` of the preparer that `CreatePreparer` and `DecoratePreparer` build
from a list of decorators: each decorator acts, in order, as long as no error has occurred. -/
def Prepare (lib : Library) : List PrepareDecorator → http.Request → http.Request × Option Error
  | [], r => (r, none)
  | d :: rest, r =>
    match d.apply lib r with
    | (r2, some err) => (r2, some err)
    | (r2, none) => Prepare lib rest r2

/-- The variable `autorest.StatusCodesForRetry`. -/
def StatusCodesForRetry : List Int := [408, 429, 500, 502, 503, 504]

/-- A sender: the answer of the transport to a request, given how many requests it has been
sent before. -/
abbrev Sender := Nat → Option http.Request → Option Response × Option Error

/-- The function `autorest.ResponseHasStatusCode(resp, codes...)`: the response is there
and its status is one of the codes. -/
def ResponseHasStatusCode (resp : Option Response) (codes : List Int) : Bool :=
  match resp with
  | none => false
  | some r => codes.contains r.StatusCode

/-- The test `resp == nil || resp.StatusCode != http.StatusTooManyRequests` of the retry
loop: a send counts against the number of attempts unless it is answered with status
429. -/
def countsAsAttempt (resp : Option Response) : Bool :=
  match resp with
  | none => true
  | some r => r.StatusCode ≠ 429

/-- What one pass of the retry loop does with the answer of the sender. -/
inductive RetryStep where
  /-- The loop returns this response and error. -/
  | finished (resp : Option Response) (err : Option Error)
  /-- The loop delays and goes on, the counter of attempts at `attempt`. -/
  | again (attempt : Int)
deriving DecidableEq, Repr

/-- One pass of the loop of `DoRetryForStatusCodes` after the send: an error that is no
temporary network error is returned with a nil response; an answer without error whose
status is none of `codes`, or a token refresh error, is returned as it is; otherwise the
loop delays and goes on, and the counter of attempts goes up unless the response has
status 429. -/
def retryStep (lib : Library) (codes : List Int) (resp : Option Response) (err : Option Error)
    (attempt : Int) : RetryStep :=
  match err with
  | some e =>
    if !lib.IsTemporaryNetworkError e then .finished none (some e)
    else if lib.IsTokenRefreshError e then .finished resp (some e)
    else .again (if countsAsAttempt resp then attempt + 1 else attempt)
  | none =>
    if !ResponseHasStatusCode resp codes then .finished resp none
    else .again (if countsAsAttempt resp then attempt + 1 else attempt)

/-- The loop `for attempt := 0; attempt < attempts; { ... }` of `DoRetryForStatusCodes`, for
a request without body, from the state with `attempt` counted attempts, `sent` requests
sent and the response and error of the last send; the first argument is the number of
delays that the context of the request still lets pass: when the context is done during a
delay, the loop returns the response with the error of the context.  The result is the
response and error returned, with the number of requests sent. -/
def retryLoop (lib : Library) (codes : List Int) (s : Sender) (r : Option http.Request)
    (attempts : Int) :
    Nat → Int → Nat → Option Response × Option Error → (Option Response × Option Error) × Nat
  | 0, attempt, sent, last =>
    if attempt < attempts then
      match retryStep lib codes (s sent r).1 (s sent r).2 attempt with
      | .finished resp err => ((resp, err), sent + 1)
      | .again _ => (((s sent r).1, some (.library "context canceled")), sent + 1)
    else (last, sent)
  | delays + 1, attempt, sent, last =>
    if attempt < attempts then
      match retryStep lib codes (s sent r).1 (s sent r).2 attempt with
      | .finished resp err => ((resp, err), sent + 1)
      | .again attempt2 => retryLoop lib codes s r attempts delays attempt2 (sent + 1) (s sent r)
    else (last, sent)

/-- The sender that `autorest.DoRetryForStatusCodes(attempts, backoff, codes...)` makes of a
sender, applied to a request: `attempts` denotes the number of retries and is incremented
for the first send, then the loop runs from no attempt, no request sent and the nil
response and error. -/
def DoRetryForStatusCodes (lib : Library) (attempts : Int) (codes : List Int) (s : Sender)
    (r : Option http.Request) : (Option Response × Option Error) × Nat :=
  retryLoop lib codes s r (attempts + 1) lib.Delays 0 0 (none, none)

end autorest

/-! ## Package batch: `AccountClient` -/

namespace batch

open azcore (Response)
open autorest (Error)

/-- A call of the batch client into go-autorest or into the transport. -/
inductive Call where
  | Prepare (decorators : List autorest.PrepareDecorator)
  | PrepareNext
  | Send (req : Option http.Request)
  | Respond (resp : Option Response)
deriving DecidableEq, Repr

/-- A Go result together with the calls made to obtain it, oldest first. -/
abbrev Traced (α : Type) := α × List Call

/-- The client `AccountClient`: of its embedded `autorest.Client`, the retry count
`RetryAttempts` (an `int`) and the sender `Sender`; of its `BaseClient`, `BatchURL`.
`RetryDuration` takes time only. -/
structure AccountClient where
  BatchURL : String
  RetryAttempts : Int
  Sender : autorest.Sender

/-- The two functions that a result page holds in its field `fn`. -/
inductive NextResults where
  | listPoolNodeCountsNextResults
  | listSupportedImagesNextResults
deriving DecidableEq, Repr

/-- The model `PoolNodeCountsListResult`, for an item type `N` declared outside the
sources; `Response` is the `*http.Response` of its embedded `autorest.Response`. -/
structure PoolNodeCountsListResult (N : Type) where
  Response : Option Response
  Value : Option (List N)
  OdataNextLink : Option String

/-- The page `PoolNodeCountsListResultPage`. -/
structure PoolNodeCountsListResultPage (N : Type) where
  fn : Option NextResults
  pnclr : PoolNodeCountsListResult N

/-- The model `AccountListSupportedImagesResult`, for an item type `I` declared outside the
sources. -/
structure AccountListSupportedImagesResult (I : Type) where
  Response : Option Response
  Value : Option (List I)
  OdataNextLink : Option String

/-- The page `AccountListSupportedImagesResultPage`. -/
structure AccountListSupportedImagesResultPage (I : Type) where
  fn : Option NextResults
  alsir : AccountListSupportedImagesResult I

/-- The zero value of `PoolNodeCountsListResult`. -/
def PoolNodeCountsListResult.zero (N : Type) : PoolNodeCountsListResult N :=
  { Response := none, Value := none, OdataNextLink := none }

/-- The zero value of `AccountListSupportedImagesResult`. -/
def AccountListSupportedImagesResult.zero (I : Type) : AccountListSupportedImagesResult I :=
  { Response := none, Value := none, OdataNextLink := none }

/-- What the sources leave to go-autorest and to the models of the package for a result type
`R`: `autorest.Respond` with the responders of the client, as a function from the result
held before the call to the result held after it, and the method of the model that
prepares the request for the next page. -/
structure Results (R : Type) where
  Respond : Option Response → R → R × Option Error
  nextPreparer : R → Option http.Request × Option Error

namespace AccountClient

/-- The validations of `maxResults` in `ListPoolNodeCounts`. -/
def ListPoolNodeCounts.validations (maxResults : Option Int) : List validation.Validation :=
  [{ TargetValue := maxResults
     Constraints :=
      [{ Target := "maxResults", Rule := false
         Chain :=
          [{ Target := "maxResults", Name := .InclusiveMaximum, Rule := 10 },
           { Target := "maxResults", Name := .InclusiveMinimum, Rule := 1 }] }] }]

/-- The validations of `maxResults` in `ListSupportedImages`. -/
def ListSupportedImages.validations (maxResults : Option Int) : List validation.Validation :=
  [{ TargetValue := maxResults
     Constraints :=
      [{ Target := "maxResults", Rule := false
         Chain :=
          [{ Target := "maxResults", Name := .InclusiveMaximum, Rule := 1000 },
           { Target := "maxResults", Name := .InclusiveMinimum, Rule := 1 }] }] }]

/-- The map `queryParameters` of `ListPoolNodeCountsPreparer`. -/
def ListPoolNodeCountsPreparer.queryParameters (filter : String) (maxResults timeout : Option Int) :
    autorest.Parameters :=
  let queryParameters : autorest.Parameters := [("api-version", "2019-06-01.9.0")]
  let queryParameters :=
    if filter.length > 0 then queryParameters.assign "$filter" (autorest.Encode "query" filter)
    else queryParameters
  let queryParameters :=
    match maxResults with
    | some m => queryParameters.assign "maxresults" (autorest.Encode "query" (strconv.FormatInt m))
    | none => queryParameters.assign "maxresults" (autorest.Encode "query" (strconv.FormatInt 10))
  let queryParameters :=
    match timeout with
    | some t => queryParameters.assign "timeout" (autorest.Encode "query" (strconv.FormatInt t))
    | none => queryParameters.assign "timeout" (autorest.Encode "query" (strconv.FormatInt 30))
  queryParameters

/-- The decorators of the preparer that `ListPoolNodeCountsPreparer` builds. -/
def ListPoolNodeCountsPreparer.decorators (client : AccountClient) (lib : autorest.Library)
    (filter : String) (maxResults timeout : Option Int) (clientRequestID : Option String)
    (returnClientRequestID : Option Bool) (ocpDate : Option String) :
    List autorest.PrepareDecorator :=
  let urlParameters : autorest.Parameters := [("batchUrl", client.BatchURL)]
  let queryParameters := ListPoolNodeCountsPreparer.queryParameters filter maxResults timeout
  let preparer : List autorest.PrepareDecorator :=
    [.AsGet, .WithCustomBaseURL "{batchUrl}" urlParameters, .WithPath "/nodecounts",
     .WithQueryParameters queryParameters]
  let preparer :=
    match clientRequestID with
    | some id => preparer ++ [.WithHeader "client-request-id" (lib.String (.uuidPointer id))]
    | none => preparer
  let preparer :=
    match returnClientRequestID with
    | some b => preparer ++ [.WithHeader "return-client-request-id" (lib.String (.boolPointer b))]
    | none => preparer ++ [.WithHeader "return-client-request-id" (lib.String (.bool false))]
  let preparer :=
    match ocpDate with
    | some d => preparer ++ [.WithHeader "ocp-date" (lib.String (.timePointer d))]
    | none => preparer
  preparer

/-- The method `ListPoolNodeCountsPreparer`. -/
def ListPoolNodeCountsPreparer (client : AccountClient) (lib : autorest.Library)
    (filter : String) (maxResults timeout : Option Int) (clientRequestID : Option String)
    (returnClientRequestID : Option Bool) (ocpDate : Option String) :
    Traced (Option http.Request × Option Error) :=
  let preparer := ListPoolNodeCountsPreparer.decorators client lib filter maxResults timeout
    clientRequestID returnClientRequestID ocpDate
  ((some (autorest.Prepare lib preparer http.Request.empty).1,
    (autorest.Prepare lib preparer http.Request.empty).2), [Call.Prepare preparer])

/-- The function `autorest.SendWithSender(client, req, DoRetryForStatusCodes(...))` of the
two senders of the client, for the non-nil request that their callers pass, with one `Send`
call for each request sent. -/
def sendWithRetry (client : AccountClient) (lib : autorest.Library) (req : Option http.Request) :
    Traced (Option Response × Option Error) :=
  ((autorest.DoRetryForStatusCodes lib client.RetryAttempts autorest.StatusCodesForRetry
      client.Sender req).1,
   List.replicate
    (autorest.DoRetryForStatusCodes lib client.RetryAttempts autorest.StatusCodesForRetry
      client.Sender req).2 (Call.Send req))

/-- The method `ListPoolNodeCountsSender`. -/
def ListPoolNodeCountsSender (client : AccountClient) (lib : autorest.Library)
    (req : Option http.Request) : Traced (Option Response × Option Error) :=
  sendWithRetry client lib req

/-- The method `ListPoolNodeCountsResponder`. -/
def ListPoolNodeCountsResponder {N : Type} (results : Results (PoolNodeCountsListResult N))
    (resp : Option Response) : Traced (PoolNodeCountsListResult N × Option Error) :=
  (({ (results.Respond resp (PoolNodeCountsListResult.zero N)).1 with Response := resp },
    (results.Respond resp (PoolNodeCountsListResult.zero N)).2), [Call.Respond resp])

/-- The method `ListPoolNodeCounts`, without its tracing span. -/
def ListPoolNodeCounts {N : Type} (client : AccountClient) (lib : autorest.Library)
    (results : Results (PoolNodeCountsListResult N)) (filter : String)
    (maxResults timeout : Option Int) (clientRequestID : Option String)
    (returnClientRequestID : Option Bool) (ocpDate : Option String) :
    Traced (PoolNodeCountsListResultPage N × Option Error) :=
  let result : PoolNodeCountsListResultPage N :=
    { fn := none, pnclr := PoolNodeCountsListResult.zero N }
  match validation.Validate (ListPoolNodeCounts.validations maxResults) with
  | some failure =>
    ((result, some (.validation "batch.AccountClient" "ListPoolNodeCounts" failure)), [])
  | none =>
    let result := { result with fn := some .listPoolNodeCountsNextResults }
    match ListPoolNodeCountsPreparer client lib filter maxResults timeout clientRequestID
        returnClientRequestID ocpDate with
    | ((_, some err), calls) =>
      ((result, some (autorest.NewErrorWithError err "batch.AccountClient" "ListPoolNodeCounts"
          none "Failure preparing request")), calls)
    | ((req, none), calls) =>
      match ListPoolNodeCountsSender client lib req with
      | ((resp, some err), calls2) =>
        (({ result with pnclr := { result.pnclr with Response := resp } },
          some (autorest.NewErrorWithError err "batch.AccountClient" "ListPoolNodeCounts" resp
            "Failure sending request")), calls ++ calls2)
      | ((resp, none), calls2) =>
        match ListPoolNodeCountsResponder results resp with
        | ((pnclr, some err), calls3) =>
          (({ result with pnclr := pnclr },
            some (autorest.NewErrorWithError err "batch.AccountClient" "ListPoolNodeCounts" resp
              "Failure responding to request")), calls ++ calls2 ++ calls3)
        | ((pnclr, none), calls3) =>
          (({ result with pnclr := pnclr }, none), calls ++ calls2 ++ calls3)

/-- The method `listPoolNodeCountsNextResults`. -/
def listPoolNodeCountsNextResults {N : Type} (client : AccountClient) (lib : autorest.Library)
    (results : Results (PoolNodeCountsListResult N)) (lastResults : PoolNodeCountsListResult N) :
    Traced (PoolNodeCountsListResult N × Option Error) :=
  let result := PoolNodeCountsListResult.zero N
  match results.nextPreparer lastResults with
  | (_, some err) =>
    ((result, some (autorest.NewErrorWithError err "batch.AccountClient"
        "listPoolNodeCountsNextResults" none "Failure preparing next results request")),
     [Call.PrepareNext])
  | (none, none) => ((result, none), [Call.PrepareNext])
  | (some req, none) =>
    match ListPoolNodeCountsSender client lib (some req) with
    | ((resp, some err), calls2) =>
      (({ result with Response := resp },
        some (autorest.NewErrorWithError err "batch.AccountClient"
          "listPoolNodeCountsNextResults" resp "Failure sending next results request")),
       [Call.PrepareNext] ++ calls2)
    | ((resp, none), calls2) =>
      match ListPoolNodeCountsResponder results resp with
      | ((result, some err), calls3) =>
        ((result, some (autorest.NewErrorWithError err "batch.AccountClient"
            "listPoolNodeCountsNextResults" resp "Failure responding to next results request")),
         [Call.PrepareNext] ++ calls2 ++ calls3)
      | ((result, none), calls3) => ((result, none), [Call.PrepareNext] ++ calls2 ++ calls3)

/-- The map `queryParameters` of `ListSupportedImagesPreparer`. -/
def ListSupportedImagesPreparer.queryParameters (filter : String)
    (maxResults timeout : Option Int) : autorest.Parameters :=
  let queryParameters : autorest.Parameters := [("api-version", "2019-06-01.9.0")]
  let queryParameters :=
    if filter.length > 0 then queryParameters.assign "$filter" (autorest.Encode "query" filter)
    else queryParameters
  let queryParameters :=
    match maxResults with
    | some m => queryParameters.assign "maxresults" (autorest.Encode "query" (strconv.FormatInt m))
    | none => queryParameters.assign "maxresults" (autorest.Encode "query" (strconv.FormatInt 1000))
  let queryParameters :=
    match timeout with
    | some t => queryParameters.assign "timeout" (autorest.Encode "query" (strconv.FormatInt t))
    | none => queryParameters.assign "timeout" (autorest.Encode "query" (strconv.FormatInt 30))
  queryParameters

/-- The decorators of the preparer that `ListSupportedImagesPreparer` builds. -/
def ListSupportedImagesPreparer.decorators (client : AccountClient) (lib : autorest.Library)
    (filter : String) (maxResults timeout : Option Int) (clientRequestID : Option String)
    (returnClientRequestID : Option Bool) (ocpDate : Option String) :
    List autorest.PrepareDecorator :=
  let urlParameters : autorest.Parameters := [("batchUrl", client.BatchURL)]
  let queryParameters := ListSupportedImagesPreparer.queryParameters filter maxResults timeout
  let preparer : List autorest.PrepareDecorator :=
    [.AsGet, .WithCustomBaseURL "{batchUrl}" urlParameters, .WithPath "/supportedimages",
     .WithQueryParameters queryParameters]
  let preparer :=
    match clientRequestID with
    | some id => preparer ++ [.WithHeader "client-request-id" (lib.String (.uuidPointer id))]
    | none => preparer
  let preparer :=
    match returnClientRequestID with
    | some b => preparer ++ [.WithHeader "return-client-request-id" (lib.String (.boolPointer b))]
    | none => preparer ++ [.WithHeader "return-client-request-id" (lib.String (.bool false))]
  let preparer :=
    match ocpDate with
    | some d => preparer ++ [.WithHeader "ocp-date" (lib.String (.timePointer d))]
    | none => preparer
  preparer

/-- The method `ListSupportedImagesPreparer`. -/
def ListSupportedImagesPreparer (client : AccountClient) (lib : autorest.Library)
    (filter : String) (maxResults timeout : Option Int) (clientRequestID : Option String)
    (returnClientRequestID : Option Bool) (ocpDate : Option String) :
    Traced (Option http.Request × Option Error) :=
  let preparer := ListSupportedImagesPreparer.decorators client lib filter maxResults timeout
    clientRequestID returnClientRequestID ocpDate
  ((some (autorest.Prepare lib preparer http.Request.empty).1,
    (autorest.Prepare lib preparer http.Request.empty).2), [Call.Prepare preparer])

/-- The method `ListSupportedImagesSender`. -/
def ListSupportedImagesSender (client : AccountClient) (lib : autorest.Library)
    (req : Option http.Request) : Traced (Option Response × Option Error) :=
  sendWithRetry client lib req

/-- The method `ListSupportedImagesResponder`. -/
def ListSupportedImagesResponder {I : Type}
    (results : Results (AccountListSupportedImagesResult I)) (resp : Option Response) :
    Traced (AccountListSupportedImagesResult I × Option Error) :=
  (({ (results.Respond resp (AccountListSupportedImagesResult.zero I)).1 with Response := resp },
    (results.Respond resp (AccountListSupportedImagesResult.zero I)).2), [Call.Respond resp])

/-- The method `ListSupportedImages`, without its tracing span. -/
def ListSupportedImages {I : Type} (client : AccountClient) (lib : autorest.Library)
    (results : Results (AccountListSupportedImagesResult I)) (filter : String)
    (maxResults timeout : Option Int) (clientRequestID : Option String)
    (returnClientRequestID : Option Bool) (ocpDate : Option String) :
    Traced (AccountListSupportedImagesResultPage I × Option Error) :=
  let result : AccountListSupportedImagesResultPage I :=
    { fn := none, alsir := AccountListSupportedImagesResult.zero I }
  match validation.Validate (ListSupportedImages.validations maxResults) with
  | some failure =>
    ((result, some (.validation "batch.AccountClient" "ListSupportedImages" failure)), [])
  | none =>
    let result := { result with fn := some .listSupportedImagesNextResults }
    match ListSupportedImagesPreparer client lib filter maxResults timeout clientRequestID
        returnClientRequestID ocpDate with
    | ((_, some err), calls) =>
      ((result, some (autorest.NewErrorWithError err "batch.AccountClient" "ListSupportedImages"
          none "Failure preparing request")), calls)
    | ((req, none), calls) =>
      match ListSupportedImagesSender client lib req with
      | ((resp, some err), calls2) =>
        (({ result with alsir := { result.alsir with Response := resp } },
          some (autorest.NewErrorWithError err "batch.AccountClient" "ListSupportedImages" resp
            "Failure sending request")), calls ++ calls2)
      | ((resp, none), calls2) =>
        match ListSupportedImagesResponder results resp with
        | ((alsir, some err), calls3) =>
          (({ result with alsir := alsir },
            some (autorest.NewErrorWithError err "batch.AccountClient" "ListSupportedImages" resp
              "Failure responding to request")), calls ++ calls2 ++ calls3)
        | ((alsir, none), calls3) =>
          (({ result with alsir := alsir }, none), calls ++ calls2 ++ calls3)

/-- The method `listSupportedImagesNextResults`. -/
def listSupportedImagesNextResults {I : Type} (client : AccountClient) (lib : autorest.Library)
    (results : Results (AccountListSupportedImagesResult I))
    (lastResults : AccountListSupportedImagesResult I) :
    Traced (AccountListSupportedImagesResult I × Option Error) :=
  let result := AccountListSupportedImagesResult.zero I
  match results.nextPreparer lastResults with
  | (_, some err) =>
    ((result, some (autorest.NewErrorWithError err "batch.AccountClient"
        "listSupportedImagesNextResults" none "Failure preparing next results request")),
     [Call.PrepareNext])
  | (none, none) => ((result, none), [Call.PrepareNext])
  | (some req, none) =>
    match ListSupportedImagesSender client lib (some req) with
    | ((resp, some err), calls2) =>
      (({ result with Response := resp },
        some (autorest.NewErrorWithError err "batch.AccountClient"
          "listSupportedImagesNextResults" resp "Failure sending next results request")),
       [Call.PrepareNext] ++ calls2)
    | ((resp, none), calls2) =>
      match ListSupportedImagesResponder results resp with
      | ((result, some err), calls3) =>
        ((result, some (autorest.NewErrorWithError err "batch.AccountClient"
            "listSupportedImagesNextResults" resp "Failure responding to next results request")),
         [Call.PrepareNext] ++ calls2 ++ calls3)
      | ((result, none), calls3) => ((result, none), [Call.PrepareNext] ++ calls2 ++ calls3)

end AccountClient

end batch

/-! ## Vocabulary of the properties, and a concrete scenario -/

namespace azcore

/-- The presence error of a builder for the path argument called `name`. -/
def presenceError (name : String) : GoError :=
  .errorsNew ("parameter " ++ name ++ " cannot be empty")

/-- Exactly one component of a Go result pair is non-nil. -/
def exactlyOne {α β : Type} (r : Option α × Option β) : Prop :=
  (r.1 ≠ none ∧ r.2 = none) ∨ (r.1 = none ∧ r.2 ≠ none)

/-- A call is a pipeline call. -/
def Call.isDo : Call → Bool
  | .Do _ => true
  | _ => false

/-- A call builds a request. -/
def Call.isNewRequest : Call → Bool
  | .NewRequest _ _ => true
  | _ => false

/-- A call constructs a poller from an initial response. -/
def Call.isNewPoller : Call → Bool
  | .NewPoller _ _ => true
  | _ => false

/-- The request that `runtime.NewRequest` returns for a GET on `endpoint`: no header, no
body, the query that `endpoint` itself carries. -/
def bareGet (endpoint : String) : Request :=
  { Method := http.MethodGet, URL := { raw := endpoint, RawQuery := url.rawQueryOf endpoint },
    Header := [], Body := none, Telemetry := none }

/-- What a builder returns: a presence error and no call; or, after one `NewRequest` call,
the error of the runtime, or a request that carries `Accept: application/json` (with the
error of the body encoder, if any). -/
def builderShape (r : Traced (Option Request × Option GoError)) : Prop :=
  (∃ name, r = ((none, some (presenceError name)), []))
  ∨ (∃ httpMethod endpoint e,
      r = ((none, some (.runtime e)), [Call.NewRequest httpMethod endpoint]))
  ∨ (∃ httpMethod endpoint req err,
      r = ((some req, err), [Call.NewRequest httpMethod endpoint])
      ∧ req.Header.values "Accept" = some ["application/json"])

end azcore

namespace url

/-- The values `v[key]` of a `Values`, none for a key it does not hold. -/
def Values.valuesOf (v : Values) (key : String) : List String :=
  (v.filter (fun kv => decide (kv.1 = key))).flatMap (fun kv => kv.2)

end url

namespace autorest

/-- The sends among the first `n` of a sender that are answered with status 429. -/
def throttled (s : Sender) (r : Option http.Request) (n : Nat) : Nat :=
  ((List.range n).filter (fun i => !countsAsAttempt (s i r).1)).length

end autorest

namespace batch

/-- A call hands a request to the sender. -/
def Call.isSend : Call → Bool
  | .Send _ => true
  | _ => false

end batch

namespace url

/-- The `&`-separated pieces of a raw query whose key, the text before the first `=`, is
`key`. -/
def piecesWithKey (rawQuery key : String) : List String :=
  ((strings.split '&' rawQuery.data).filter
    (fun piece => decide ((strings.cut '=' piece).1 = key.data))).map String.mk

end url

namespace armelasticsan

/-- The simultaneous substitution of the three path arguments, each path-escaped, into the
template of the ElasticSan resource path. -/
def resourcePath (subscriptionID resourceGroupName elasticSanName : String) : String :=
  "/subscriptions/" ++ url.PathEscape subscriptionID ++ "/resourceGroups/"
    ++ url.PathEscape resourceGroupName ++ "/providers/Microsoft.ElasticSan/elasticSans/"
    ++ url.PathEscape elasticSanName

end armelasticsan

namespace armlogic

/-- The template of the path of an integration account schema. -/
def schemaPathTemplate : String :=
  "/subscriptions/{subscriptionId}/resourceGroups/{resourceGroupName}/providers/Microsoft.Logic/integrationAccounts/{integrationAccountName}/schemas/{schemaName}"

/-- The simultaneous substitution of the four path arguments, each path-escaped, into the
template of the path of an integration account schema. -/
def schemaPath (subscriptionID resourceGroupName integrationAccountName schemaName : String) :
    String :=
  "/subscriptions/" ++ url.PathEscape subscriptionID ++ "/resourceGroups/"
    ++ url.PathEscape resourceGroupName ++ "/providers/Microsoft.Logic/integrationAccounts/"
    ++ url.PathEscape integrationAccountName ++ "/schemas/" ++ url.PathEscape schemaName

end armlogic

namespace Scenario

open azcore

/-- The response with which the transport of the scenario answers. -/
def response (status : Int) (body : String) : Response :=
  { StatusCode := status, Header := [], Body := body }

/-- A runtime whose transport answers every request with the given status and body, and
whose error constructors keep the text of what they wrap. -/
def runtime (status : Int) (body : String) : Runtime :=
  { JoinPaths := fun root path => root ++ path
    NewRequestError := fun _ _ => none
    Do := fun _ => (some (response status body), none)
    NewResponseError := fun _ => some { text := "unexpected status" }
    NewResponseErrorOf := fun inner _ =>
      match inner with
      | .errorsNew text => some { text := text }
      | .fmtErrorf text => some { text := text }
      | .runtime e => some e
      | .cloudError e => some { text := e.raw }
    Payload := fun resp => ((resp.map (fun r => r.Body)).getD "", none) }

/-- A codec for models kept as their JSON text: decoding fails on the body `oops`. -/
def json : JSON String :=
  { Marshal := fun v => .ok v
    UnmarshalAsJSON := fun resp v =>
      match resp with
      | some r => if r.Body = "oops" then (v, some { text := "invalid character" }) else (r.Body, none)
      | none => (v, none) }

/-- A codec for `CloudError`: decoding fails on the body `oops`. -/
def jsonCloudError : JSON CloudError :=
  { Marshal := fun v => .ok v.raw
    UnmarshalAsJSON := fun resp v =>
      match resp with
      | some r =>
        if r.Body = "oops" then (v, some { text := "invalid character" })
        else ({ v with InnerError := some { code := "NotFound", message := r.Body, target := none } }, none)
      | none => (v, none) }

/-- A codec for pages kept as a next-link and JSON items. -/
def jsonPage : JSON (armelasticsan.ElasticSanList String) :=
  { Marshal := fun _ => .ok "{}"
    UnmarshalAsJSON := fun resp v =>
      match resp with
      | some r => ({ NextLink := none, Value := [r.Body] }, none)
      | none => (v, none) }

/-- Pollers that record what they were made from. -/
def pollers : Pollers String :=
  { NewPoller := fun resp _ => (some ((resp.map (fun r => r.Body)).getD ""), none)
    NewPollerFromResumeToken := fun token => (some token, none) }

/-- An ElasticSans client of the scenario. -/
def client : armelasticsan.ElasticSansClient :=
  { host := "https://management.azure.com", subscriptionID := "sub" }

/-- A client of the scenario for armlogic. -/
def logicClient : armlogic.IntegrationAccountSchemasClient :=
  { host := "https://management.azure.com", subscriptionID := "sub" }

/-- A codec for pages of integration account schemas. -/
def jsonSchemas : JSON (armlogic.IntegrationAccountSchemaListResult String) :=
  { Marshal := fun _ => .ok "{}"
    UnmarshalAsJSON := fun resp v =>
      match resp with
      | some r => ({ NextLink := none, Value := [r.Body] }, none)
      | none => (v, none) }

/-- A page of integration account schemas with the given next-link. -/
def schemasPage (nextLink : Option String) :
    armlogic.IntegrationAccountSchemasClientListResponse String :=
  { NextLink := nextLink, Value := [] }

/-- A page of hub virtual network connections with the given next-link. -/
def connectionsPage (nextLink : Option String) :
    armnetwork.HubVirtualNetworkConnectionsListResponse String :=
  { ListHubVirtualNetworkConnectionsResult := { NextLink := nextLink, Value := [] },
    RawResponse := none }

/-- A page of ElasticSans with the given next-link. -/
def sansPage (nextLink : Option String) :
    armelasticsan.ElasticSansClientListByResourceGroupResponse String :=
  { NextLink := nextLink, Value := [] }

/-- The types of package `blob` of the scenario: every one is a text. -/
def blobTypes : blob.Types :=
  { HTTPHeaders := String, AccessConditions := String, AccessTier := String, CpkInfo := String,
    CpkScopeInfo := String, TransferValidationType := String,
    ImmutabilityPolicySetting := String, Time := String, Progress := String }

/-- Options of `UploadStream` with the given block size and concurrency, and an access
condition. -/
def streamOptions (blockSize concurrency : Int) : blockblob.UploadStreamOptions blobTypes :=
  { BlockSize := blockSize, Concurrency := concurrency, TransactionalValidation := none,
    HTTPHeaders := none, Metadata := none, AccessConditions := some "if-match: etag",
    AccessTier := none, Tags := none, CpkInfo := none, CpkScopeInfo := none }

/-- Options of `UploadBuffer` with an access condition. -/
def bufferOptions : blockblob.uploadFromReaderOptions blobTypes :=
  { BlockSize := 0, Progress := none, HTTPHeaders := none, Metadata := none,
    AccessConditions := some "if-match: etag", AccessTier := none, Tags := none, CpkInfo := none,
    CpkScopeInfo := none, Concurrency := 0, TransactionalValidation := none,
    TransactionalContentCRC64 := 0, TransactionalContentMD5 := none }

/-- A go-autorest over a `net/url` that accepts every URL text, finds a scheme in each and
writes a URL back as the text it was parsed from; every error of the transport is a
temporary network error, none a token refresh error, and the context of a request is done
after a hundred delays. -/
def library : autorest.Library :=
  { ParseError := fun _ => none
    HasScheme := fun _ => true
    URLString := fun u => u.raw
    String := fun v =>
      match v with
      | .uuidPointer text => text
      | .boolPointer b => if b then "true" else "false"
      | .bool b => if b then "true" else "false"
      | .timePointer text => text
    IsTemporaryNetworkError := fun _ => true
    IsTokenRefreshError := fun _ => false
    Delays := 100 }

/-- A batch client with the given retry count whose transport answers every request with the
given status. -/
def batchClient (attempts status : Int) : batch.AccountClient :=
  { BatchURL := "https://account.region.batch.azure.com"
    RetryAttempts := attempts
    Sender := fun _ _ => (some (response status ""), none) }

/-- A batch client with the given retry count whose transport answers the first `busy`
requests with status 429 and every later one with status 200. -/
def throttledClient (attempts : Int) (busy : Nat) : batch.AccountClient :=
  { BatchURL := "https://account.region.batch.azure.com"
    RetryAttempts := attempts
    Sender := fun i _ => (some (response (if i < busy then 429 else 200) ""), none) }

/-- A batch client whose batch URL carries a query with the key `timeout`. -/
def queryClient : batch.AccountClient :=
  { BatchURL := "https://h/?timeout=5"
    RetryAttempts := 3
    Sender := fun _ _ => (some (response 200 ""), none) }

/-- The request for the pool node counts of the scenario, as `ListPoolNodeCountsPreparer`
prepares it for a batch URL without query: a GET with the four query parameters and the
`return-client-request-id` header. -/
def nodeCountsRequest : http.Request :=
  { Method := "GET"
    URL := some { raw := "https://account.region.batch.azure.com/nodecounts"
                  RawQuery := "api-version=2019-06-01.9.0&maxresults=10&timeout=30" }
    Header := [("Return-Client-Request-Id", ["false"])] }

/-- Results of pool node counts with texts as items: the responder keeps the body of the
response as the one item, and the request for the next page exists when the next-link is
present and not empty. -/
def nodeCountResults : batch.Results (batch.PoolNodeCountsListResult String) :=
  { Respond := fun resp r =>
      match resp with
      | some rs =>
        if rs.StatusCode = 200 then ({ r with Value := some [rs.Body] }, none)
        else (r, some (.library "unexpected status"))
      | none => (r, some (.library "no response"))
    nextPreparer := fun last =>
      match last.OdataNextLink with
      | none => (none, none)
      | some link =>
        if link.length < 1 then (none, none)
        else (some { Method := "GET", URL := some (url.Parse link), Header := [] }, none) }

/-- A last page of pool node counts: it carries no next-link. -/
def lastNodeCounts : batch.PoolNodeCountsListResult String :=
  { Response := some (response 200 ""), Value := some ["pool-1"], OdataNextLink := none }

/-- Results of supported images with texts as items, built like those of pool node
counts. -/
def imageResults : batch.Results (batch.AccountListSupportedImagesResult String) :=
  { Respond := fun resp r =>
      match resp with
      | some rs =>
        if rs.StatusCode = 200 then ({ r with Value := some [rs.Body] }, none)
        else (r, some (.library "unexpected status"))
      | none => (r, some (.library "no response"))
    nextPreparer := fun last =>
      match last.OdataNextLink with
      | none => (none, none)
      | some link =>
        if link.length < 1 then (none, none)
        else (some { Method := "GET", URL := some (url.Parse link), Header := [] }, none) }

/-- A last page of supported images: it carries no next-link. -/
def lastImages : batch.AccountListSupportedImagesResult String :=
  { Response := some (response 200 ""), Value := some ["image-1"], OdataNextLink := none }

/-- A codec for models kept as their JSON text that encodes no value: `json.Marshal`
fails on each. -/
def jsonFailing : JSON String :=
  { Marshal := fun _ => .error { text := "json: unsupported value" }
    UnmarshalAsJSON := fun _ v => (v, some { text := "invalid character" }) }

end Scenario

/-! ## Properties -/

open azcore armelasticsan armlogic armkeyvault armnetwork

/-! ### Shared lemmas: headers and the shape of what the builders return -/

/-- The map lookup after the map assignment of the same key. -/
theorem Header_values_assign_same (h : http.Header) (key : String) (values : List String) :
    (h.assign key values).values key = some values := by
  simp [http.Header.assign, http.Header.values]

/-- The map lookup after the map assignment of another key. -/
theorem Header_values_assign_other (h : http.Header) (key other : String) (values : List String)
    (hne : other ≠ key) : (h.assign key values).values other = h.values other := by
  have hfilter : ∀ l : http.Header,
      (l.filter (fun kv => decide (kv.1 ≠ key))).find? (fun kv => decide (kv.1 = other))
        = l.find? (fun kv => decide (kv.1 = other)) := by
    intro l
    rw [List.find?_filter]
    congr 1
    funext a
    by_cases ha : a.1 = other <;> simp [ha, hne]
  have hk : ¬ key = other := fun h2 => hne h2.symm
  simp only [http.Header.assign, http.Header.values]
  rw [List.find?_cons]
  simp only [hk, decide_False]
  rw [hfilter]

/-- The runtime either rejects a verb and endpoint or returns the bare request for them; in
both cases the call is recorded. -/
theorem NewRequest_cases (rt : Runtime) (httpMethod endpoint : String) :
    (∃ e, rt.NewRequest httpMethod endpoint
        = (.error (.runtime e), [Call.NewRequest httpMethod endpoint]))
    ∨ rt.NewRequest httpMethod endpoint
        = (.ok { Method := httpMethod, URL := url.Parse endpoint, Header := [], Body := none,
                 Telemetry := none }, [Call.NewRequest httpMethod endpoint]) := by
  unfold Runtime.NewRequest
  cases rt.NewRequestError httpMethod endpoint with
  | none => exact Or.inr rfl
  | some e => exact Or.inl ⟨e, rfl⟩

/-- The body encoder leaves the `Accept` header of a request as it is. -/
theorem MarshalAsJSON_Accept {α : Type} (js : JSON α) (req : Request) (v : α) :
    (MarshalAsJSON js req v).1.Header.values "Accept" = req.Header.values "Accept" := by
  unfold MarshalAsJSON
  cases js.Marshal v with
  | error e => rfl
  | ok body =>
    have hk : http.CanonicalMIMEHeaderKey "Content-Type" = "Content-Type" := by decide
    simp only [http.Header.Set, hk]
    exact Header_values_assign_other _ _ _ _ (by decide)

/-- The shape of the results of the six builders of `ElasticSansClient`. -/
theorem ElasticSansClient_builders_shape {E U : Type} (client : ElasticSansClient) (rt : Runtime)
    (jsE : JSON E) (jsU : JSON U) (resourceGroupName elasticSanName : String)
    (pE : E) (pU : U) :
    builderShape (ElasticSansClient.createCreateRequest client rt jsE resourceGroupName elasticSanName pE)
    ∧ builderShape (ElasticSansClient.deleteCreateRequest client rt resourceGroupName elasticSanName)
    ∧ builderShape (ElasticSansClient.getCreateRequest client rt resourceGroupName elasticSanName)
    ∧ builderShape (ElasticSansClient.listByResourceGroupCreateRequest client rt resourceGroupName)
    ∧ builderShape (ElasticSansClient.listBySubscriptionCreateRequest client rt)
    ∧ builderShape (ElasticSansClient.updateCreateRequest client rt jsU resourceGroupName elasticSanName pU) := by
  unfold ElasticSansClient.createCreateRequest ElasticSansClient.deleteCreateRequest
    ElasticSansClient.getCreateRequest ElasticSansClient.listByResourceGroupCreateRequest
    ElasticSansClient.listBySubscriptionCreateRequest ElasticSansClient.updateCreateRequest
  refine ⟨?_, ?_, ?_, ?_, ?_, ?_⟩ <;>
  · simp only []
    split_ifs
    all_goals first
      | exact Or.inl ⟨"client.subscriptionID", rfl⟩
      | exact Or.inl ⟨"resourceGroupName", rfl⟩
      | exact Or.inl ⟨"elasticSanName", rfl⟩
      | (generalize rt.JoinPaths _ _ = ep
         rcases NewRequest_cases rt _ ep with ⟨e, he⟩ | he
         · rw [he]; exact Or.inr (Or.inl ⟨_, _, e, rfl⟩)
         · rw [he]
           refine Or.inr (Or.inr ⟨_, _, _, _, rfl, ?_⟩)
           first
             | exact Header_values_assign_same _ _ _
             | (rw [MarshalAsJSON_Accept]; exact Header_values_assign_same _ _ _))

/-! ### The claims -/

/-- C1: `ElasticSansClient.getCreateRequest` and the keyvault builder
`listByMHSMResourceCreateRequest` return no request and the error
"parameter <name> cannot be empty" exactly when the subscription ID, the resource group
name or the resource name is empty; when all three are non-empty, the builder returns no
error made by `errors.New` at all. -/
theorem getCreateRequest_presence_error_iff (client : ElasticSansClient) (rt : Runtime)
    (resourceGroupName elasticSanName : String) (kv : MHSMPrivateLinkResourcesClient)
    (telemetryInfo name : String) :
    ((∃ p ∈ ["client.subscriptionID", "resourceGroupName", "elasticSanName"],
        (ElasticSansClient.getCreateRequest client rt resourceGroupName elasticSanName).1
          = (none, some (presenceError p)))
      ↔ (client.subscriptionID = "" ∨ resourceGroupName = "" ∨ elasticSanName = ""))
    ∧ ((client.subscriptionID ≠ "" ∧ resourceGroupName ≠ "" ∧ elasticSanName ≠ "") →
        ∀ text, (ElasticSansClient.getCreateRequest client rt resourceGroupName elasticSanName).1.2
          ≠ some (.errorsNew text))
    ∧ ((∃ p ∈ ["client.subscriptionID", "resourceGroupName", "name"],
        (MHSMPrivateLinkResourcesClient.listByMHSMResourceCreateRequest kv rt telemetryInfo
            resourceGroupName name).1 = (none, some (presenceError p)))
      ↔ (kv.subscriptionID = "" ∨ resourceGroupName = "" ∨ name = ""))
    ∧ ((kv.subscriptionID ≠ "" ∧ resourceGroupName ≠ "" ∧ name ≠ "") →
        ∀ text, (MHSMPrivateLinkResourcesClient.listByMHSMResourceCreateRequest kv rt telemetryInfo
            resourceGroupName name).1.2 ≠ some (.errorsNew text)) := by
  unfold ElasticSansClient.getCreateRequest
    MHSMPrivateLinkResourcesClient.listByMHSMResourceCreateRequest Runtime.NewRequest
  refine ⟨?_, ?_, ?_, ?_⟩
  · by_cases h1 : client.subscriptionID = ""
    · simp [h1, presenceError]
    · by_cases h2 : resourceGroupName = ""
      · simp [h1, h2, presenceError]
      · by_cases h3 : elasticSanName = ""
        · simp [h1, h2, h3, presenceError]
        · simp only [h1, h2, h3, if_false]
          cases h : rt.NewRequestError http.MethodGet _ <;> simp [presenceError]
  · rintro ⟨h1, h2, h3⟩ text
    simp only [h1, h2, h3, if_false]
    cases h : rt.NewRequestError http.MethodGet _ <;> simp
  · by_cases h1 : kv.subscriptionID = ""
    · simp [h1, presenceError]
    · by_cases h2 : resourceGroupName = ""
      · simp [h1, h2, presenceError]
      · by_cases h3 : name = ""
        · simp [h1, h2, h3, presenceError]
        · simp only [h1, h2, h3, if_false]
          cases h : rt.NewRequestError http.MethodGet _ <;> simp [presenceError]
  · rintro ⟨h1, h2, h3⟩ text
    simp only [h1, h2, h3, if_false]
    cases h : rt.NewRequestError http.MethodGet _ <;> simp

/-- C2: `ElasticSansClient.Get` decodes the body only of a pipeline response with status
200.  For a response with any other status it returns the zero-valued response with the
error of `runtime.NewResponseError`, non-nil since that function never returns nil, after
the calls of the builder, the pipeline call and `NewResponseError` and no decoding; it
returns without error only after a response with status 200. -/
theorem Get_decodes_only_status_200 {E : Type} (client : ElasticSansClient) (rt : Runtime)
    (js : JSON E) (zero : E) (resourceGroupName elasticSanName : String)
    (hNRE : ∀ resp, rt.NewResponseError resp ≠ none) :
    (∀ req calls resp,
        ElasticSansClient.getCreateRequest client rt resourceGroupName elasticSanName
          = ((req, none), calls) →
        rt.Do req = (some resp, none) → resp.StatusCode ≠ 200 →
        ElasticSansClient.Get client rt js zero resourceGroupName elasticSanName
            = (({ ElasticSan := zero }, asError (rt.NewResponseError (some resp))),
               calls ++ [Call.Do req, Call.NewResponseError (some resp)])
          ∧ (ElasticSansClient.Get client rt js zero resourceGroupName elasticSanName).1.2 ≠ none)
    ∧ ((ElasticSansClient.Get client rt js zero resourceGroupName elasticSanName).1.2 = none →
        ∃ req calls resp,
          ElasticSansClient.getCreateRequest client rt resourceGroupName elasticSanName
            = ((req, none), calls)
          ∧ rt.Do req = (some resp, none) ∧ resp.StatusCode = 200)
    ∧ (∀ r, Call.UnmarshalAsJSON r ∈
          (ElasticSansClient.Get client rt js zero resourceGroupName elasticSanName).2 →
        ∃ req resp, r = some resp ∧ rt.Do req = (some resp, none) ∧ resp.StatusCode = 200) := by
  have hne : ∀ resp, asError (rt.NewResponseError resp) ≠ none := by
    intro resp h
    cases hr : rt.NewResponseError resp with
    | none => exact hNRE resp hr
    | some e => simp [asError, hr] at h
  have hshape := (ElasticSansClient_builders_shape client rt js js resourceGroupName
    elasticSanName zero zero).2.2.1
  unfold ElasticSansClient.Get
  rcases hshape with ⟨name, hb⟩ | ⟨m, ep, e, hb⟩ | ⟨m, ep, req, err, hb, -⟩
  · simp [hb]
  · simp [hb]
  · rw [hb]
    cases err with
    | some e => simp
    | none =>
      dsimp only
      refine ⟨?_, ?_, ?_⟩
      · intro req2 calls2 resp hreq hdo hs
        simp only [Prod.mk.injEq, and_true] at hreq
        obtain ⟨rfl, rfl⟩ := hreq
        simp [hdo, HasStatusCode, http.StatusOK, hs, hne]
      · intro h
        rcases hd : rt.Do (some req) with ⟨resp, derr⟩
        rw [hd] at h
        cases derr with
        | some e => simp at h
        | none =>
          cases resp with
          | none => simp [HasStatusCode, hne] at h
          | some resp =>
            by_cases hs : resp.StatusCode = 200
            · exact ⟨_, _, resp, rfl, hd, hs⟩
            · simp [HasStatusCode, http.StatusOK, hs, hne] at h
      · intro r h
        rcases hd : rt.Do (some req) with ⟨resp, derr⟩
        rw [hd] at h
        cases derr with
        | some e => simp at h
        | none =>
          cases resp with
          | none => simp [HasStatusCode] at h
          | some resp =>
            by_cases hs : resp.StatusCode = 200
            · simp [HasStatusCode, http.StatusOK, hs, ElasticSansClient.getHandleResponse] at h
              refine ⟨some req, resp, ?_, hd, hs⟩
              revert h
              cases js.UnmarshalAsJSON (some resp) zero with
              | mk v uerr => cases uerr <;> simp
            · simp [HasStatusCode, http.StatusOK, hs] at h

/-- Witness for C2: a transport that answers 404, where `Get` returns an error. -/
theorem Get_decodes_only_status_200_witness :
    (∀ resp, (Scenario.runtime 404 "gone").NewResponseError resp ≠ none)
    ∧ (ElasticSansClient.Get Scenario.client (Scenario.runtime 404 "gone") Scenario.json ""
        "rg" "san").1.2 ≠ none :=
  ⟨fun _ => by simp [Scenario.runtime],
   ((Get_decodes_only_status_200 Scenario.client (Scenario.runtime 404 "gone") Scenario.json ""
      "rg" "san" (fun _ => by simp [Scenario.runtime])).1
      (ElasticSansClient.getCreateRequest Scenario.client (Scenario.runtime 404 "gone") "rg" "san").1.1
      (ElasticSansClient.getCreateRequest Scenario.client (Scenario.runtime 404 "gone") "rg" "san").2
      (Scenario.response 404 "gone") (by decide) (by rfl) (by decide)).2⟩

/-- C3: when the pipeline returns exactly one of response and error, and
`runtime.NewResponseError` never returns nil, each of `create`, `update` and
`deleteOperation` of `ElasticSansClient` returns exactly one of response and error: never
both nil, never both non-nil. -/
theorem create_update_delete_exactly_one {E U : Type} (client : ElasticSansClient)
    (rt : Runtime) (jsE : JSON E) (jsU : JSON U) (resourceGroupName elasticSanName : String)
    (pE : E) (pU : U)
    (hDo : ∀ req, exactlyOne (rt.Do req))
    (hNRE : ∀ resp, rt.NewResponseError resp ≠ none) :
    exactlyOne (ElasticSansClient.create client rt jsE resourceGroupName elasticSanName pE).1
    ∧ exactlyOne (ElasticSansClient.update client rt jsU resourceGroupName elasticSanName pU).1
    ∧ exactlyOne (ElasticSansClient.deleteOperation client rt resourceGroupName elasticSanName).1 := by
  have hne : ∀ resp, asError (rt.NewResponseError resp) ≠ none := by
    intro resp h
    cases hr : rt.NewResponseError resp with
    | none => exact hNRE resp hr
    | some e => simp [asError, hr] at h
  have hsend : ∀ (req : Option Request) (calls : List Call) (codes : List Int),
      exactlyOne
        (match rt.Do req with
          | (_, some err) =>
            (((none : Option Response), some (GoError.runtime err)), calls ++ [Call.Do req])
          | (resp, none) =>
            if !HasStatusCode resp codes then
              ((none, asError (rt.NewResponseError resp)),
               calls ++ [Call.Do req, Call.NewResponseError resp])
            else ((resp, none), calls ++ [Call.Do req])).1 := by
    intro req calls codes
    have h := hDo req
    rcases hd : rt.Do req with ⟨resp, derr⟩
    rw [hd] at h
    cases derr with
    | some e => exact Or.inr ⟨rfl, by simp⟩
    | none =>
      dsimp only
      split_ifs with hc
      · exact Or.inr ⟨rfl, hne resp⟩
      · rcases h with ⟨h1, -⟩ | ⟨-, h2⟩
        · exact Or.inl ⟨h1, rfl⟩
        · exact absurd rfl h2
  obtain ⟨hc, hdel, -, -, -, hu⟩ := ElasticSansClient_builders_shape client rt jsE jsU
    resourceGroupName elasticSanName pE pU
  refine ⟨?_, ?_, ?_⟩
  · unfold ElasticSansClient.create
    rcases hc with ⟨name, hb⟩ | ⟨m, ep, e, hb⟩ | ⟨m, ep, req, err, hb, -⟩
    · rw [hb]; exact Or.inr ⟨rfl, by simp⟩
    · rw [hb]; exact Or.inr ⟨rfl, by simp⟩
    · rw [hb]
      cases err with
      | some e => exact Or.inr ⟨rfl, by simp⟩
      | none => exact hsend _ _ _
  · unfold ElasticSansClient.update
    rcases hu with ⟨name, hb⟩ | ⟨m, ep, e, hb⟩ | ⟨m, ep, req, err, hb, -⟩
    · rw [hb]; exact Or.inr ⟨rfl, by simp⟩
    · rw [hb]; exact Or.inr ⟨rfl, by simp⟩
    · rw [hb]
      cases err with
      | some e => exact Or.inr ⟨rfl, by simp⟩
      | none => exact hsend _ _ _
  · unfold ElasticSansClient.deleteOperation
    rcases hdel with ⟨name, hb⟩ | ⟨m, ep, e, hb⟩ | ⟨m, ep, req, err, hb, -⟩
    · rw [hb]; exact Or.inr ⟨rfl, by simp⟩
    · rw [hb]; exact Or.inr ⟨rfl, by simp⟩
    · rw [hb]
      cases err with
      | some e => exact Or.inr ⟨rfl, by simp⟩
      | none => exact hsend _ _ _

/-- Witness for C3: a transport that answers 202 to every request. -/
theorem create_update_delete_exactly_one_witness :
    (∀ req, exactlyOne ((Scenario.runtime 202 "{}").Do req))
    ∧ (∀ resp, (Scenario.runtime 202 "{}").NewResponseError resp ≠ none)
    ∧ exactlyOne (ElasticSansClient.create Scenario.client (Scenario.runtime 202 "{}")
        Scenario.json "rg" "san" "{}").1
    ∧ exactlyOne (ElasticSansClient.update Scenario.client (Scenario.runtime 202 "{}")
        Scenario.json "rg" "san" "{}").1
    ∧ exactlyOne (ElasticSansClient.deleteOperation Scenario.client (Scenario.runtime 202 "{}")
        "rg" "san").1 :=
  ⟨fun _ => Or.inl ⟨by simp [Scenario.runtime], rfl⟩,
   fun _ => by simp [Scenario.runtime],
   create_update_delete_exactly_one Scenario.client (Scenario.runtime 202 "{}") Scenario.json
     Scenario.json "rg" "san" "{}" "{}"
     (fun _ => Or.inl ⟨by simp [Scenario.runtime], rfl⟩)
     (fun _ => by simp [Scenario.runtime])⟩

/-- C4: the `More` predicates of the pagers of `NewListByResourceGroupPager`,
`NewListBySubscriptionPager` and armlogic `NewListPager` are true for a page exactly when
its next-link is non-nil and a non-empty string; a page whose next-link is nil or the
empty string is a final page. -/
theorem More_iff_nextLink_present_and_nonempty {E S : Type}
    (p1 : ElasticSansClientListByResourceGroupResponse E)
    (p2 : ElasticSansClientListBySubscriptionResponse E)
    (p3 : IntegrationAccountSchemasClientListResponse S) :
    ((ElasticSansClient.NewListByResourceGroupPager.More p1 = true
        ↔ ∃ nextLink, p1.NextLink = some nextLink ∧ nextLink ≠ "")
      ∧ ((p1.NextLink = none ∨ p1.NextLink = some "")
          → ElasticSansClient.NewListByResourceGroupPager.More p1 = false))
    ∧ ((ElasticSansClient.NewListBySubscriptionPager.More p2 = true
        ↔ ∃ nextLink, p2.NextLink = some nextLink ∧ nextLink ≠ "")
      ∧ ((p2.NextLink = none ∨ p2.NextLink = some "")
          → ElasticSansClient.NewListBySubscriptionPager.More p2 = false))
    ∧ ((IntegrationAccountSchemasClient.NewListPager.More p3 = true
        ↔ ∃ nextLink, p3.NextLink = some nextLink ∧ nextLink ≠ "")
      ∧ ((p3.NextLink = none ∨ p3.NextLink = some "")
          → IntegrationAccountSchemasClient.NewListPager.More p3 = false)) := by
  have hlen : ∀ s : String, 0 < s.length ↔ s ≠ "" := by
    intro s
    rw [String.length, List.length_pos, ne_eq, ne_eq, String.ext_iff]
  unfold ElasticSansClient.NewListByResourceGroupPager.More
    ElasticSansClient.NewListBySubscriptionPager.More
    IntegrationAccountSchemasClient.NewListPager.More
  refine ⟨⟨?_, ?_⟩, ⟨?_, ?_⟩, ⟨?_, ?_⟩⟩
  · cases h : p1.NextLink <;> simp [hlen]
  · rintro (h | h) <;> simp [h]
  · cases h : p2.NextLink <;> simp [hlen]
  · rintro (h | h) <;> simp [h]
  · cases h : p3.NextLink <;> simp [hlen]
  · rintro (h | h) <;> simp [h]

/-- The shape of the result of the builder `listCreateRequest` of armlogic. -/
theorem IntegrationAccountSchemasClient_listCreateRequest_shape
    (client : IntegrationAccountSchemasClient) (rt : Runtime)
    (resourceGroupName integrationAccountName : String)
    (options : Option IntegrationAccountSchemasClientListOptions) :
    builderShape (IntegrationAccountSchemasClient.listCreateRequest client rt resourceGroupName
      integrationAccountName options) := by
  unfold IntegrationAccountSchemasClient.listCreateRequest
  simp only []
  split_ifs
  · exact Or.inl ⟨"client.subscriptionID", rfl⟩
  · exact Or.inl ⟨"resourceGroupName", rfl⟩
  · exact Or.inl ⟨"integrationAccountName", rfl⟩
  · generalize rt.JoinPaths _ _ = ep
    rcases NewRequest_cases rt http.MethodGet ep with ⟨e, he⟩ | he
    · rw [he]; exact Or.inr (Or.inl ⟨_, _, e, rfl⟩)
    · rw [he]
      exact Or.inr (Or.inr ⟨_, _, _, _, rfl, Header_values_assign_same _ _ _⟩)

/-- C5: in the `Fetcher` of armlogic `NewListPager`, for a previous page that carries the
next-link `nextLink`, the one request built is `runtime.NewRequest(GET, nextLink)`, and
every request handed to the pipeline is the bare GET on exactly `nextLink`, with the query
that `nextLink` itself carries and nothing from the list options: the result is the same
for all resource group names, account names and options.  It is handed to the pipeline
whenever the runtime accepts it.  For a nil page the request handed to the pipeline is the
one built by `listCreateRequest`.  The `advancer` of armnetwork `List` builds the same
bare GET. -/
theorem NewListPager_Fetcher_uses_nextLink_verbatim {S C : Type}
    (client : IntegrationAccountSchemasClient) (rt : Runtime)
    (js : JSON (IntegrationAccountSchemaListResult S))
    (resourceGroupName integrationAccountName : String)
    (options : Option IntegrationAccountSchemasClientListOptions)
    (page : IntegrationAccountSchemasClientListResponse S)
    (resp : HubVirtualNetworkConnectionsListResponse C) (nextLink : String)
    (hpage : page.NextLink = some nextLink)
    (hresp : resp.ListHubVirtualNetworkConnectionsResult.NextLink = some nextLink) :
    (∃ rest,
        (IntegrationAccountSchemasClient.NewListPager.Fetcher client rt js resourceGroupName
          integrationAccountName options (some page)).2
          = Call.NewRequest http.MethodGet nextLink :: rest
        ∧ ∀ c ∈ rest, c.isNewRequest = false)
    ∧ (∀ req, Call.Do req ∈
          (IntegrationAccountSchemasClient.NewListPager.Fetcher client rt js resourceGroupName
            integrationAccountName options (some page)).2 → req = some (bareGet nextLink))
    ∧ (rt.NewRequestError http.MethodGet nextLink = none →
        Call.Do (some (bareGet nextLink)) ∈
          (IntegrationAccountSchemasClient.NewListPager.Fetcher client rt js resourceGroupName
            integrationAccountName options (some page)).2)
    ∧ (∀ resourceGroupName2 integrationAccountName2 options2,
        IntegrationAccountSchemasClient.NewListPager.Fetcher client rt js resourceGroupName2
            integrationAccountName2 options2 (some page)
          = IntegrationAccountSchemasClient.NewListPager.Fetcher client rt js resourceGroupName
            integrationAccountName options (some page))
    ∧ (∀ req, Call.Do req ∈
          (IntegrationAccountSchemasClient.NewListPager.Fetcher client rt js resourceGroupName
            integrationAccountName options none).2 →
        (IntegrationAccountSchemasClient.listCreateRequest client rt resourceGroupName
          integrationAccountName options).1 = (req, none))
    ∧ (HubVirtualNetworkConnectionsClient.List.advancer rt resp
        = .done (asPair (rt.NewRequest http.MethodGet nextLink).1,
                 [Call.NewRequest http.MethodGet nextLink])
      ∧ (rt.NewRequestError http.MethodGet nextLink = none →
          HubVirtualNetworkConnectionsClient.List.advancer rt resp
            = .done ((some (bareGet nextLink), none), [Call.NewRequest http.MethodGet nextLink]))) := by
  refine ⟨?_, ?_, ?_, ?_, ?_, ?_⟩
  · unfold IntegrationAccountSchemasClient.NewListPager.Fetcher
    simp only [hpage]
    rcases NewRequest_cases rt http.MethodGet nextLink with ⟨e, he⟩ | he
    · rw [he]; simp [asPair]
    · rw [he]
      simp only [asPair]
      rcases rt.Do _ with ⟨r, derr⟩
      cases derr with
      | some e => simp [Call.isNewRequest]
      | none =>
        dsimp only
        split_ifs
        · simp [Call.isNewRequest]
        · simp only [IntegrationAccountSchemasClient.listHandleResponse]
          rcases js.UnmarshalAsJSON r _ with ⟨v, uerr⟩
          cases uerr <;> simp [Call.isNewRequest]
  · unfold IntegrationAccountSchemasClient.NewListPager.Fetcher
    simp only [hpage]
    rcases NewRequest_cases rt http.MethodGet nextLink with ⟨e, he⟩ | he
    · rw [he]; simp [asPair]
    · rw [he]
      simp only [asPair]
      rcases rt.Do _ with ⟨r, derr⟩
      cases derr with
      | some e => simp [bareGet, url.Parse]
      | none =>
        dsimp only
        split_ifs
        · simp [bareGet, url.Parse]
        · simp only [IntegrationAccountSchemasClient.listHandleResponse]
          rcases js.UnmarshalAsJSON r _ with ⟨v, uerr⟩
          cases uerr <;> simp [bareGet, url.Parse]
  · intro hok
    unfold IntegrationAccountSchemasClient.NewListPager.Fetcher
    simp only [hpage, Runtime.NewRequest, hok, asPair]
    rcases rt.Do _ with ⟨r, derr⟩
    cases derr with
    | some e => simp [bareGet, url.Parse]
    | none =>
      dsimp only
      split_ifs
      · simp [bareGet, url.Parse]
      · simp [bareGet, url.Parse]
  · intro rg2 ia2 options2
    unfold IntegrationAccountSchemasClient.NewListPager.Fetcher
    simp only [hpage]
  · intro req
    unfold IntegrationAccountSchemasClient.NewListPager.Fetcher
    rcases IntegrationAccountSchemasClient_listCreateRequest_shape client rt resourceGroupName
      integrationAccountName options with ⟨name, hb⟩ | ⟨m, ep, e, hb⟩ | ⟨m, ep, req0, err, hb, -⟩
    · simp [hb]
    · simp [hb]
    · simp only [hb]
      cases err with
      | some e => simp
      | none =>
        dsimp only
        rcases rt.Do _ with ⟨r, derr⟩
        cases derr with
        | some e => simp; intro h; exact h.symm
        | none =>
          dsimp only
          split_ifs
          · simp; intro h; exact h.symm
          · simp only [IntegrationAccountSchemasClient.listHandleResponse]
            rcases js.UnmarshalAsJSON r _ with ⟨v, uerr⟩
            cases uerr <;> simp <;> intro h <;> exact h.symm
  · unfold HubVirtualNetworkConnectionsClient.List.advancer
    simp only [hresp]
    refine ⟨rfl, ?_⟩
    intro hok
    simp [Runtime.NewRequest, hok, asPair, bareGet, url.Parse]

/-- Witness for C5: a page whose next-link is `https://example.org/next?page=2`, fetched
with list options that set `$top` and `$filter`. -/
theorem NewListPager_Fetcher_uses_nextLink_verbatim_witness :
    (Scenario.schemasPage (some "https://example.org/next?page=2")).NextLink
        = some "https://example.org/next?page=2"
    ∧ (Scenario.connectionsPage (some "https://example.org/next?page=2")).ListHubVirtualNetworkConnectionsResult.NextLink
        = some "https://example.org/next?page=2"
    ∧ Call.Do (some (bareGet "https://example.org/next?page=2")) ∈
        (IntegrationAccountSchemasClient.NewListPager.Fetcher Scenario.logicClient
          (Scenario.runtime 200 "{}") Scenario.jsonSchemas "rg" "account"
          (some { Filter := some "name eq 1", Top := some 5 })
          (some (Scenario.schemasPage (some "https://example.org/next?page=2")))).2 :=
  ⟨rfl, rfl,
   (NewListPager_Fetcher_uses_nextLink_verbatim Scenario.logicClient (Scenario.runtime 200 "{}")
      Scenario.jsonSchemas "rg" "account" (some { Filter := some "name eq 1", Top := some 5 })
      (Scenario.schemasPage (some "https://example.org/next?page=2"))
      (Scenario.connectionsPage (some "https://example.org/next?page=2"))
      "https://example.org/next?page=2" rfl rfl).2.2.1 rfl⟩

/-- The calls of `ElasticSansClient.create`: no poller is constructed, at most one pipeline
call is made, and exactly one when `create` returns no error. -/
theorem ElasticSansClient_create_calls {E : Type} (client : ElasticSansClient) (rt : Runtime)
    (js : JSON E) (resourceGroupName elasticSanName : String) (parameters : E) :
    (∀ c ∈ (ElasticSansClient.create client rt js resourceGroupName elasticSanName parameters).2,
        c.isNewPoller = false)
    ∧ ((ElasticSansClient.create client rt js resourceGroupName elasticSanName
          parameters).2.filter Call.isDo).length ≤ 1
    ∧ ((ElasticSansClient.create client rt js resourceGroupName elasticSanName parameters).1.2
          = none →
        ((ElasticSansClient.create client rt js resourceGroupName elasticSanName
          parameters).2.filter Call.isDo).length = 1) := by
  unfold ElasticSansClient.create
  rcases (ElasticSansClient_builders_shape client rt js js resourceGroupName elasticSanName
    parameters parameters).1 with ⟨name, hb⟩ | ⟨m, ep, e, hb⟩ | ⟨m, ep, req, err, hb, -⟩
  · simp [hb]
  · simp [hb, Call.isNewPoller, Call.isDo]
  · rw [hb]
    cases err with
    | some e => simp [Call.isNewPoller, Call.isDo]
    | none =>
      dsimp only
      rcases rt.Do _ with ⟨r, derr⟩
      cases derr with
      | some e => simp [Call.isNewPoller, Call.isDo]
      | none =>
        dsimp only
        split_ifs <;> simp [Call.isNewPoller, Call.isDo]

/-- C6: `ElasticSansClient.BeginCreate` with a non-empty resume token makes one call,
`NewPollerFromResumeToken` on that token, and returns its result: no request is built, no
pipeline call is made, and the resource group name, the ElasticSan name and the parameters
play no part (empty names included).  With nil options or an empty token it runs `create`:
when `create` returns an error, `BeginCreate` returns `(nil, err)` with the calls of
`create` and constructs no poller; otherwise exactly one pipeline call has been made and
the poller is then constructed from the response of `create`.  -/
theorem BeginCreate_resume_token_or_one_initial_request {E P : Type}
    (client : ElasticSansClient) (rt : Runtime) (pollers : Pollers P) (js : JSON E)
    (resourceGroupName elasticSanName : String) (parameters : E) :
    (∀ opts : ElasticSansClientBeginCreateOptions, opts.ResumeToken ≠ "" →
        ElasticSansClient.BeginCreate client rt pollers js resourceGroupName elasticSanName
            parameters (some opts)
          = (((pollers.NewPollerFromResumeToken opts.ResumeToken).1,
              asError (pollers.NewPollerFromResumeToken opts.ResumeToken).2),
             [Call.NewPollerFromResumeToken opts.ResumeToken]))
    ∧ (∀ options : Option ElasticSansClientBeginCreateOptions,
        (options = none ∨ options = some { ResumeToken := "" }) →
        (∀ err, (ElasticSansClient.create client rt js resourceGroupName elasticSanName parameters).1.2
              = some err →
            ElasticSansClient.BeginCreate client rt pollers js resourceGroupName elasticSanName
                parameters options
              = ((none, some err),
                 (ElasticSansClient.create client rt js resourceGroupName elasticSanName parameters).2)
            ∧ (∀ c ∈ (ElasticSansClient.BeginCreate client rt pollers js resourceGroupName
                  elasticSanName parameters options).2, c.isNewPoller = false)
            ∧ ((ElasticSansClient.BeginCreate client rt pollers js resourceGroupName
                  elasticSanName parameters options).2.filter Call.isDo).length ≤ 1)
        ∧ ((ElasticSansClient.create client rt js resourceGroupName elasticSanName parameters).1.2
              = none →
            ∃ resp calls,
              ElasticSansClient.create client rt js resourceGroupName elasticSanName parameters
                = ((resp, none), calls)
              ∧ (calls.filter Call.isDo).length = 1
              ∧ ElasticSansClient.BeginCreate client rt pollers js resourceGroupName
                  elasticSanName parameters options
                = (((pollers.NewPoller resp .AzureAsyncOp).1,
                    asError (pollers.NewPoller resp .AzureAsyncOp).2),
                   calls ++ [Call.NewPoller resp .AzureAsyncOp]))) := by
  have hcalls : ∀ c ∈ (ElasticSansClient.create client rt js resourceGroupName elasticSanName
      parameters).2, c.isNewPoller = false :=
    (ElasticSansClient_create_calls client rt js resourceGroupName elasticSanName parameters).1
  have hcount : ((ElasticSansClient.create client rt js resourceGroupName elasticSanName
      parameters).2.filter Call.isDo).length ≤ 1
      ∧ ((ElasticSansClient.create client rt js resourceGroupName elasticSanName
          parameters).1.2 = none →
        ((ElasticSansClient.create client rt js resourceGroupName elasticSanName
          parameters).2.filter Call.isDo).length = 1) :=
    (ElasticSansClient_create_calls client rt js resourceGroupName elasticSanName parameters).2
  refine ⟨?_, ?_⟩
  · intro opts hne
    simp [ElasticSansClient.BeginCreate, hne]
  · intro options hopt
    have hB : ElasticSansClient.BeginCreate client rt pollers js resourceGroupName elasticSanName
        parameters options
        = match ElasticSansClient.create client rt js resourceGroupName elasticSanName parameters with
          | ((_, some err), calls) => ((none, some err), calls)
          | ((resp, none), calls) =>
            (((pollers.NewPoller resp .AzureAsyncOp).1, asError (pollers.NewPoller resp .AzureAsyncOp).2),
             calls ++ [Call.NewPoller resp .AzureAsyncOp]) := by
      rcases hopt with h | h <;> simp [ElasticSansClient.BeginCreate, h]
    rw [hB]
    rcases hc : ElasticSansClient.create client rt js resourceGroupName elasticSanName parameters
      with ⟨⟨resp, cerr⟩, calls⟩
    rw [hc] at hcalls hcount
    cases cerr with
    | some e =>
      refine ⟨?_, by simp⟩
      intro err herr
      simp only [Option.some.injEq] at herr
      subst herr
      exact ⟨rfl, hcalls, hcount.1⟩
    | none =>
      refine ⟨by simp, ?_⟩
      intro _
      exact ⟨resp, calls, rfl, hcount.2 rfl, rfl⟩

/-- C7, counterexample: the transport answers 201 to the request of `create`; `create`
returns no response and the error of `runtime.NewResponseError`, and `BeginCreate`
constructs no poller. -/
theorem create_rejects_status_201 :
    (Scenario.runtime 201 "{}").Do
        (ElasticSansClient.createCreateRequest Scenario.client (Scenario.runtime 201 "{}")
          Scenario.json "rg" "san" "{}").1.1
      = (some (Scenario.response 201 "{}"), none)
    ∧ (Scenario.response 201 "{}").StatusCode = 201
    ∧ (ElasticSansClient.create Scenario.client (Scenario.runtime 201 "{}") Scenario.json
        "rg" "san" "{}").1 = (none, some (.runtime { text := "unexpected status" }))
    ∧ (ElasticSansClient.BeginCreate Scenario.client (Scenario.runtime 201 "{}") Scenario.pollers
        Scenario.json "rg" "san" "{}" none).1
        = (none, some (.runtime { text := "unexpected status" })) := by
  decide

/-- C7, amended: `ElasticSansClient.create` accepts a 200 or 202 response.  For a pipeline
response with status 200 or 202 it returns that response with a nil error, and
`BeginCreate` without resume token then constructs the poller from it; for a response with
any other status, 201 included, it returns no response and the error of
`runtime.NewResponseError`. -/
theorem create_accepts_status_200_and_202 {E P : Type} (client : ElasticSansClient)
    (rt : Runtime) (pollers : Pollers P) (js : JSON E)
    (resourceGroupName elasticSanName : String) (parameters : E)
    (req : Option Request) (calls : List Call) (resp : Response)
    (hreq : ElasticSansClient.createCreateRequest client rt js resourceGroupName elasticSanName
        parameters = ((req, none), calls))
    (hdo : rt.Do req = (some resp, none)) :
    ((resp.StatusCode = 200 ∨ resp.StatusCode = 202) →
        ElasticSansClient.create client rt js resourceGroupName elasticSanName parameters
          = ((some resp, none), calls ++ [Call.Do req])
        ∧ ElasticSansClient.BeginCreate client rt pollers js resourceGroupName elasticSanName
            parameters none
          = (((pollers.NewPoller (some resp) .AzureAsyncOp).1,
              asError (pollers.NewPoller (some resp) .AzureAsyncOp).2),
             calls ++ [Call.Do req, Call.NewPoller (some resp) .AzureAsyncOp]))
    ∧ (¬ (resp.StatusCode = 200 ∨ resp.StatusCode = 202) →
        ElasticSansClient.create client rt js resourceGroupName elasticSanName parameters
          = ((none, asError (rt.NewResponseError (some resp))),
             calls ++ [Call.Do req, Call.NewResponseError (some resp)])) := by
  have hc : ElasticSansClient.create client rt js resourceGroupName elasticSanName parameters
      = if !HasStatusCode (some resp) [http.StatusOK, http.StatusAccepted] then
          ((none, asError (rt.NewResponseError (some resp))),
           calls ++ [Call.Do req, Call.NewResponseError (some resp)])
        else ((some resp, none), calls ++ [Call.Do req]) := by
    simp only [ElasticSansClient.create, hreq, hdo]
  refine ⟨?_, ?_⟩
  · intro hs
    have hcreate : ElasticSansClient.create client rt js resourceGroupName elasticSanName
        parameters = ((some resp, none), calls ++ [Call.Do req]) := by
      rw [hc]
      rcases hs with hs | hs <;> simp [HasStatusCode, http.StatusOK, http.StatusAccepted, hs]
    refine ⟨hcreate, ?_⟩
    simp [ElasticSansClient.BeginCreate, hcreate]
  · intro hs
    rw [hc]
    have h1 : ¬ resp.StatusCode = 200 := fun h => hs (Or.inl h)
    have h2 : ¬ resp.StatusCode = 202 := fun h => hs (Or.inr h)
    simp [HasStatusCode, http.StatusOK, http.StatusAccepted, h1, h2]

/-- Witness for C7, amended: the transport answers 202. -/
theorem create_accepts_status_200_and_202_witness :
    ElasticSansClient.createCreateRequest Scenario.client (Scenario.runtime 202 "{}")
        Scenario.json "rg" "san" "{}"
      = (((ElasticSansClient.createCreateRequest Scenario.client (Scenario.runtime 202 "{}")
            Scenario.json "rg" "san" "{}").1.1, none),
         (ElasticSansClient.createCreateRequest Scenario.client (Scenario.runtime 202 "{}")
            Scenario.json "rg" "san" "{}").2)
    ∧ (Scenario.runtime 202 "{}").Do
        (ElasticSansClient.createCreateRequest Scenario.client (Scenario.runtime 202 "{}")
          Scenario.json "rg" "san" "{}").1.1 = (some (Scenario.response 202 "{}"), none)
    ∧ (ElasticSansClient.create Scenario.client (Scenario.runtime 202 "{}") Scenario.json
        "rg" "san" "{}").1 = (some (Scenario.response 202 "{}"), none) :=
  ⟨by decide, by decide,
   congrArg Prod.fst
     ((create_accepts_status_200_and_202 Scenario.client (Scenario.runtime 202 "{}")
        Scenario.pollers Scenario.json "rg" "san" "{}"
        (ElasticSansClient.createCreateRequest Scenario.client (Scenario.runtime 202 "{}")
          Scenario.json "rg" "san" "{}").1.1
        (ElasticSansClient.createCreateRequest Scenario.client (Scenario.runtime 202 "{}")
          Scenario.json "rg" "san" "{}").2
        (Scenario.response 202 "{}") (by decide) (by decide)).1 (Or.inr rfl)).1⟩

/-- C8: when the two-argument `NewResponseError` never returns nil, the error handler
`listByMHSMResourceHandleError` of armkeyvault and the handlers `createOrUpdateHandleError`,
`deleteHandleError`, `getHandleError` and `listHandleError` of armnetwork return a non-nil
error for every response: on each path (payload read failure, JSON decode failure,
successful decode) the result is what `NewResponseError` returns for some inner error and
the response, and that call is the last one made. -/
theorem HandleError_returns_non_nil (rt : Runtime) (js : JSON CloudError) (resp : Response)
    (oresp : Option Response)
    (hNRE : ∀ inner r, rt.NewResponseErrorOf inner r ≠ none) :
    ((MHSMPrivateLinkResourcesClient.listByMHSMResourceHandleError rt js resp).1 ≠ none
      ∧ ∃ inner,
          (MHSMPrivateLinkResourcesClient.listByMHSMResourceHandleError rt js resp).1
            = asError (rt.NewResponseErrorOf inner (some resp))
          ∧ (MHSMPrivateLinkResourcesClient.listByMHSMResourceHandleError rt js resp).2.getLast?
            = some (Call.NewResponseErrorOf inner (some resp)))
    ∧ ((HubVirtualNetworkConnectionsClient.createOrUpdateHandleError rt js oresp).1 ≠ none
      ∧ ∃ inner,
          (HubVirtualNetworkConnectionsClient.createOrUpdateHandleError rt js oresp).1
            = asError (rt.NewResponseErrorOf inner oresp)
          ∧ (HubVirtualNetworkConnectionsClient.createOrUpdateHandleError rt js oresp).2.getLast?
            = some (Call.NewResponseErrorOf inner oresp))
    ∧ ((HubVirtualNetworkConnectionsClient.deleteHandleError rt js oresp).1 ≠ none
      ∧ ∃ inner,
          (HubVirtualNetworkConnectionsClient.deleteHandleError rt js oresp).1
            = asError (rt.NewResponseErrorOf inner oresp)
          ∧ (HubVirtualNetworkConnectionsClient.deleteHandleError rt js oresp).2.getLast?
            = some (Call.NewResponseErrorOf inner oresp))
    ∧ ((HubVirtualNetworkConnectionsClient.getHandleError rt js oresp).1 ≠ none
      ∧ ∃ inner,
          (HubVirtualNetworkConnectionsClient.getHandleError rt js oresp).1
            = asError (rt.NewResponseErrorOf inner oresp)
          ∧ (HubVirtualNetworkConnectionsClient.getHandleError rt js oresp).2.getLast?
            = some (Call.NewResponseErrorOf inner oresp))
    ∧ ((HubVirtualNetworkConnectionsClient.listHandleError rt js oresp).1 ≠ none
      ∧ ∃ inner,
          (HubVirtualNetworkConnectionsClient.listHandleError rt js oresp).1
            = asError (rt.NewResponseErrorOf inner oresp)
          ∧ (HubVirtualNetworkConnectionsClient.listHandleError rt js oresp).2.getLast?
            = some (Call.NewResponseErrorOf inner oresp)) := by
  have hne : ∀ inner r, asError (rt.NewResponseErrorOf inner r) ≠ none := by
    intro inner r h
    cases hr : rt.NewResponseErrorOf inner r with
    | none => exact hNRE inner r hr
    | some e => simp [asError, hr] at h
  unfold MHSMPrivateLinkResourcesClient.listByMHSMResourceHandleError
    HubVirtualNetworkConnectionsClient.createOrUpdateHandleError
    HubVirtualNetworkConnectionsClient.deleteHandleError
    HubVirtualNetworkConnectionsClient.getHandleError
    HubVirtualNetworkConnectionsClient.listHandleError
  refine ⟨?_, ?_, ?_, ?_, ?_⟩
  · rcases rt.Payload (some resp) with ⟨body, perr⟩
    cases perr with
    | some e => exact ⟨hne _ _, _, rfl, rfl⟩
    | none =>
      dsimp only
      rcases js.UnmarshalAsJSON (some resp) _ with ⟨v, uerr⟩
      cases uerr with
      | some e => exact ⟨hne _ _, _, rfl, rfl⟩
      | none => exact ⟨hne _ _, _, rfl, rfl⟩
  all_goals
    rcases rt.Payload oresp with ⟨body, perr⟩
    cases perr with
    | some e => exact ⟨hne _ _, _, rfl, rfl⟩
    | none =>
      dsimp only
      rcases js.UnmarshalAsJSON oresp _ with ⟨v, uerr⟩
      cases uerr with
      | some e => exact ⟨hne _ _, _, rfl, rfl⟩
      | none => exact ⟨hne _ _, _, rfl, rfl⟩

/-- Witness for C8: a 404 response whose body is not JSON. -/
theorem HandleError_returns_non_nil_witness :
    (∀ inner r, (Scenario.runtime 404 "oops").NewResponseErrorOf inner r ≠ none)
    ∧ (MHSMPrivateLinkResourcesClient.listByMHSMResourceHandleError (Scenario.runtime 404 "oops")
        Scenario.jsonCloudError (Scenario.response 404 "oops")).1 ≠ none :=
  ⟨fun inner _ => by cases inner <;> simp [Scenario.runtime],
   (HandleError_returns_non_nil (Scenario.runtime 404 "oops") Scenario.jsonCloudError
      (Scenario.response 404 "oops") (some (Scenario.response 404 "oops"))
      (fun inner _ => by cases inner <;> simp [Scenario.runtime])).1.1⟩

/-- C9, counterexample: the body `oops` is not JSON and decoding fails with the text
`invalid character`; the error handed to `NewResponseError` has the text
`oops`, a newline, `invalid character`, not the raw body alone. -/
theorem HandleError_decode_failure_text_is_not_the_raw_body :
    (Scenario.runtime 404 "oops").Payload (some (Scenario.response 404 "oops")) = ("oops", none)
    ∧ (Scenario.jsonCloudError.UnmarshalAsJSON (some (Scenario.response 404 "oops"))
        { raw := "oops", InnerError := none }).2 = some { text := "invalid character" }
    ∧ (MHSMPrivateLinkResourcesClient.listByMHSMResourceHandleError (Scenario.runtime 404 "oops")
        Scenario.jsonCloudError (Scenario.response 404 "oops")).2
      = [Call.Payload (some (Scenario.response 404 "oops")),
         Call.UnmarshalAsJSON (some (Scenario.response 404 "oops")),
         Call.NewResponseErrorOf (.fmtErrorf "oops\ninvalid character")
           (some (Scenario.response 404 "oops"))]
    ∧ GoError.fmtErrorf "oops\ninvalid character" ≠ GoError.fmtErrorf "oops" := by
  decide

/-- C9, amended: after the body has been read, when it cannot be decoded as JSON
`listByMHSMResourceHandleError` hands `NewResponseError` the response and an error whose
text is the raw body, a newline and the text of the decode error; when decoding succeeds it
hands over the `CloudError` that was initialised with `raw` equal to the whole body before
decoding, as the decoder left it. -/
theorem HandleError_decode_failure_text_and_raw (rt : Runtime) (js : JSON CloudError)
    (resp : Response) (body : String)
    (hbody : rt.Payload (some resp) = (body, none)) :
    (∀ v err, js.UnmarshalAsJSON (some resp) { raw := body, InnerError := none } = (v, some err) →
        MHSMPrivateLinkResourcesClient.listByMHSMResourceHandleError rt js resp
          = (asError (rt.NewResponseErrorOf (.fmtErrorf (body ++ "\n" ++ err.text)) (some resp)),
             [Call.Payload (some resp), Call.UnmarshalAsJSON (some resp),
              Call.NewResponseErrorOf (.fmtErrorf (body ++ "\n" ++ err.text)) (some resp)]))
    ∧ (∀ v, js.UnmarshalAsJSON (some resp) { raw := body, InnerError := none } = (v, none) →
        MHSMPrivateLinkResourcesClient.listByMHSMResourceHandleError rt js resp
          = (asError (rt.NewResponseErrorOf (.cloudError v) (some resp)),
             [Call.Payload (some resp), Call.UnmarshalAsJSON (some resp),
              Call.NewResponseErrorOf (.cloudError v) (some resp)])) := by
  unfold MHSMPrivateLinkResourcesClient.listByMHSMResourceHandleError
  rw [hbody]
  refine ⟨?_, ?_⟩
  · intro v err h
    simp only [h]
  · intro v h
    simp only [h]

/-- Witness for C9, amended: the body `oops`, which the decoder rejects. -/
theorem HandleError_decode_failure_text_and_raw_witness :
    (Scenario.runtime 404 "oops").Payload (some (Scenario.response 404 "oops")) = ("oops", none)
    ∧ MHSMPrivateLinkResourcesClient.listByMHSMResourceHandleError (Scenario.runtime 404 "oops")
        Scenario.jsonCloudError (Scenario.response 404 "oops")
      = (asError ((Scenario.runtime 404 "oops").NewResponseErrorOf
            (.fmtErrorf ("oops" ++ "\n" ++ "invalid character"))
            (some (Scenario.response 404 "oops"))),
         [Call.Payload (some (Scenario.response 404 "oops")),
          Call.UnmarshalAsJSON (some (Scenario.response 404 "oops")),
          Call.NewResponseErrorOf (.fmtErrorf ("oops" ++ "\n" ++ "invalid character"))
            (some (Scenario.response 404 "oops"))]) :=
  ⟨rfl,
   (HandleError_decode_failure_text_and_raw (Scenario.runtime 404 "oops") Scenario.jsonCloudError
      (Scenario.response 404 "oops") "oops" rfl).1
      { raw := "oops", InnerError := none } { text := "invalid character" } (by decide)⟩

/-- C10, counterexample: the second page of `NewListByResourceGroupPager` is fetched from
the next-link `https://example.org/next?page=2`; the request handed to the pipeline is the
bare GET on that link, and it has no `Accept` header. -/
theorem follow_up_request_carries_no_Accept_header :
    (ElasticSansClient.NewListByResourceGroupPager.Fetcher Scenario.client
        (Scenario.runtime 200 "{}") Scenario.jsonPage "rg"
        (some (Scenario.sansPage (some "https://example.org/next?page=2")))).2
      = [Call.NewRequest "GET" "https://example.org/next?page=2",
         Call.Do (some (bareGet "https://example.org/next?page=2")),
         Call.UnmarshalAsJSON (some (Scenario.response 200 "{}"))]
    ∧ (bareGet "https://example.org/next?page=2").Header.values "Accept" = none := by
  decide

/-- C10, amended: every initial request that an `ElasticSansClient` operation hands to the
pipeline (in `Get`, `create`, `update`, `deleteOperation` and in the first-page fetch of
both list pagers) carries the header `Accept` with the single value `application/json`.
A follow-up request of a pager is the bare GET on the next-link of the previous page, as
`runtime.NewRequest` returns it: the client sets no header on it. -/
theorem initial_requests_carry_Accept_header {E U : Type} (client : ElasticSansClient)
    (rt : Runtime) (jsE : JSON E) (jsU : JSON U) (jsL : JSON (ElasticSanList E)) (zero : E)
    (resourceGroupName elasticSanName : String) (pE : E) (pU : U) (req : Option Request) :
    (Call.Do req ∈ (ElasticSansClient.Get client rt jsE zero resourceGroupName elasticSanName).2 →
        ∃ r, req = some r ∧ r.Header.values "Accept" = some ["application/json"])
    ∧ (Call.Do req ∈ (ElasticSansClient.create client rt jsE resourceGroupName elasticSanName pE).2 →
        ∃ r, req = some r ∧ r.Header.values "Accept" = some ["application/json"])
    ∧ (Call.Do req ∈ (ElasticSansClient.update client rt jsU resourceGroupName elasticSanName pU).2 →
        ∃ r, req = some r ∧ r.Header.values "Accept" = some ["application/json"])
    ∧ (Call.Do req ∈ (ElasticSansClient.deleteOperation client rt resourceGroupName elasticSanName).2 →
        ∃ r, req = some r ∧ r.Header.values "Accept" = some ["application/json"])
    ∧ (Call.Do req ∈ (ElasticSansClient.NewListByResourceGroupPager.Fetcher client rt jsL
          resourceGroupName none).2 →
        ∃ r, req = some r ∧ r.Header.values "Accept" = some ["application/json"])
    ∧ (Call.Do req ∈ (ElasticSansClient.NewListBySubscriptionPager.Fetcher client rt jsL none).2 →
        ∃ r, req = some r ∧ r.Header.values "Accept" = some ["application/json"])
    ∧ (∀ (page : ElasticSansClientListByResourceGroupResponse E) nextLink,
        page.NextLink = some nextLink →
        Call.Do req ∈ (ElasticSansClient.NewListByResourceGroupPager.Fetcher client rt jsL
          resourceGroupName (some page)).2 →
        req = some (bareGet nextLink) ∧ (bareGet nextLink).Header = [])
    ∧ (∀ (page : ElasticSansClientListBySubscriptionResponse E) nextLink,
        page.NextLink = some nextLink →
        Call.Do req ∈ (ElasticSansClient.NewListBySubscriptionPager.Fetcher client rt jsL
          (some page)).2 →
        req = some (bareGet nextLink) ∧ (bareGet nextLink).Header = []) := by
  obtain ⟨hc, hd, hg, hlr, hls, hu⟩ := ElasticSansClient_builders_shape client rt jsE jsU
    resourceGroupName elasticSanName pE pU
  refine ⟨?_, ?_, ?_, ?_, ?_, ?_, ?_, ?_⟩
  · unfold ElasticSansClient.Get
    rcases hg with ⟨name, hb⟩ | ⟨m, ep, e, hb⟩ | ⟨m, ep, r, err, hb, hacc⟩
    · simp [hb]
    · simp [hb]
    · simp only [hb]
      cases err with
      | some e => simp
      | none =>
        dsimp only
        rcases rt.Do _ with ⟨resp, derr⟩
        cases derr with
        | some e => simp; rintro rfl; exact ⟨_, rfl, hacc⟩
        | none =>
          dsimp only
          split_ifs
          · simp; rintro rfl; exact ⟨_, rfl, hacc⟩
          · simp only [ElasticSansClient.getHandleResponse]
            rcases jsE.UnmarshalAsJSON resp _ with ⟨v, uerr⟩
            cases uerr <;> simp <;> rintro rfl <;> exact ⟨_, rfl, hacc⟩
  · unfold ElasticSansClient.create
    rcases hc with ⟨name, hb⟩ | ⟨m, ep, e, hb⟩ | ⟨m, ep, r, err, hb, hacc⟩
    · simp [hb]
    · simp [hb]
    · simp only [hb]
      cases err with
      | some e => simp
      | none =>
        dsimp only
        rcases rt.Do _ with ⟨resp, derr⟩
        cases derr with
        | some e => simp; rintro rfl; exact ⟨_, rfl, hacc⟩
        | none =>
          dsimp only
          split_ifs <;> (simp; rintro rfl; exact ⟨_, rfl, hacc⟩)
  · unfold ElasticSansClient.update
    rcases hu with ⟨name, hb⟩ | ⟨m, ep, e, hb⟩ | ⟨m, ep, r, err, hb, hacc⟩
    · simp [hb]
    · simp [hb]
    · simp only [hb]
      cases err with
      | some e => simp
      | none =>
        dsimp only
        rcases rt.Do _ with ⟨resp, derr⟩
        cases derr with
        | some e => simp; rintro rfl; exact ⟨_, rfl, hacc⟩
        | none =>
          dsimp only
          split_ifs <;> (simp; rintro rfl; exact ⟨_, rfl, hacc⟩)
  · unfold ElasticSansClient.deleteOperation
    rcases hd with ⟨name, hb⟩ | ⟨m, ep, e, hb⟩ | ⟨m, ep, r, err, hb, hacc⟩
    · simp [hb]
    · simp [hb]
    · simp only [hb]
      cases err with
      | some e => simp
      | none =>
        dsimp only
        rcases rt.Do _ with ⟨resp, derr⟩
        cases derr with
        | some e => simp; rintro rfl; exact ⟨_, rfl, hacc⟩
        | none =>
          dsimp only
          split_ifs <;> (simp; rintro rfl; exact ⟨_, rfl, hacc⟩)
  · unfold ElasticSansClient.NewListByResourceGroupPager.Fetcher
    rcases hlr with ⟨name, hb⟩ | ⟨m, ep, e, hb⟩ | ⟨m, ep, r, err, hb, hacc⟩
    · simp [hb]
    · simp [hb]
    · simp only [hb]
      cases err with
      | some e => simp
      | none =>
        dsimp only
        rcases rt.Do _ with ⟨resp, derr⟩
        cases derr with
        | some e => simp; rintro rfl; exact ⟨_, rfl, hacc⟩
        | none =>
          dsimp only
          split_ifs
          · simp; rintro rfl; exact ⟨_, rfl, hacc⟩
          · simp only [ElasticSansClient.listByResourceGroupHandleResponse]
            rcases jsL.UnmarshalAsJSON resp _ with ⟨v, uerr⟩
            cases uerr <;> simp <;> rintro rfl <;> exact ⟨_, rfl, hacc⟩
  · unfold ElasticSansClient.NewListBySubscriptionPager.Fetcher
    rcases hls with ⟨name, hb⟩ | ⟨m, ep, e, hb⟩ | ⟨m, ep, r, err, hb, hacc⟩
    · simp [hb]
    · simp [hb]
    · simp only [hb]
      cases err with
      | some e => simp
      | none =>
        dsimp only
        rcases rt.Do _ with ⟨resp, derr⟩
        cases derr with
        | some e => simp; rintro rfl; exact ⟨_, rfl, hacc⟩
        | none =>
          dsimp only
          split_ifs
          · simp; rintro rfl; exact ⟨_, rfl, hacc⟩
          · simp only [ElasticSansClient.listBySubscriptionHandleResponse]
            rcases jsL.UnmarshalAsJSON resp _ with ⟨v, uerr⟩
            cases uerr <;> simp <;> rintro rfl <;> exact ⟨_, rfl, hacc⟩
  · intro page nextLink hpage
    unfold ElasticSansClient.NewListByResourceGroupPager.Fetcher
    simp only [hpage]
    rcases NewRequest_cases rt http.MethodGet nextLink with ⟨e, he⟩ | he
    · rw [he]; simp [asPair]
    · rw [he]
      simp only [asPair]
      rcases rt.Do _ with ⟨resp, derr⟩
      cases derr with
      | some e => simp [bareGet, url.Parse]
      | none =>
        dsimp only
        split_ifs
        · simp [bareGet, url.Parse]
        · simp only [ElasticSansClient.listByResourceGroupHandleResponse]
          rcases jsL.UnmarshalAsJSON resp _ with ⟨v, uerr⟩
          cases uerr <;> simp [bareGet, url.Parse]
  · intro page nextLink hpage
    unfold ElasticSansClient.NewListBySubscriptionPager.Fetcher
    simp only [hpage]
    rcases NewRequest_cases rt http.MethodGet nextLink with ⟨e, he⟩ | he
    · rw [he]; simp [asPair]
    · rw [he]
      simp only [asPair]
      rcases rt.Do _ with ⟨resp, derr⟩
      cases derr with
      | some e => simp [bareGet, url.Parse]
      | none =>
        dsimp only
        split_ifs
        · simp [bareGet, url.Parse]
        · simp only [ElasticSansClient.listBySubscriptionHandleResponse]
          rcases jsL.UnmarshalAsJSON resp _ with ⟨v, uerr⟩
          cases uerr <;> simp [bareGet, url.Parse]

/-! ### Shared lemmas: escaping -/

/-- The digit `upperhex n` is one of the sixteen hexadecimal digits. -/
theorem upperhex_mem (n : Nat) : url.upperhex n ∈ "0123456789ABCDEF".data := by
  have h : n % 16 < 16 := Nat.mod_lt _ (by decide)
  unfold url.upperhex
  generalize n % 16 = m at h
  interval_cases m <;> decide

/-- A byte of an escaped text is `+`, `%`, a hexadecimal digit, or a byte that the mode
leaves unescaped. -/
theorem escapeByte_mem (mode : url.encoding) (c x : Char) (hx : x ∈ url.escapeByte mode c) :
    x = '+' ∨ x = '%' ∨ x ∈ "0123456789ABCDEF".data ∨ (x = c ∧ url.shouldEscape c mode = false) := by
  unfold url.escapeByte at hx
  split_ifs at hx with h1 h2
  · simp at hx; exact Or.inl hx
  · simp at hx
    rcases hx with h | h | h
    · exact Or.inr (Or.inl h)
    · exact Or.inr (Or.inr (Or.inl (h ▸ upperhex_mem _)))
    · exact Or.inr (Or.inr (Or.inl (h ▸ upperhex_mem _)))
  · simp at hx
    exact Or.inr (Or.inr (Or.inr ⟨hx, by simpa using h2⟩))

/-- A byte that is escaped in a mode and is neither `+`, `%` nor a hexadecimal digit does
not occur in a text escaped in that mode. -/
theorem not_mem_escape (mode : url.encoding) (s : String) (x : Char)
    (hesc : url.shouldEscape x mode = true) (hplus : x ≠ '+') (hpct : x ≠ '%')
    (hhex : x ∉ "0123456789ABCDEF".data) : x ∉ (url.escape s mode).data := by
  intro hmem
  simp only [url.escape, List.mem_flatMap] at hmem
  obtain ⟨c, -, hc⟩ := hmem
  rcases escapeByte_mem mode c x hc with h | h | h | ⟨h, h2⟩
  · exact hplus h
  · exact hpct h
  · exact hhex h
  · rw [← h, hesc] at h2; exact Bool.noConfusion h2

/-- A text escaped in some mode that holds neither `%` nor `+` is the text itself. -/
theorem escape_eq_of_plain (mode : url.encoding) (s : String) (t : List Char)
    (hpct : '%' ∉ t) (hplus : '+' ∉ t) (h : (url.escape s mode).data = t) : s.data = t := by
  simp only [url.escape] at h
  generalize s.data = l at h
  induction l generalizing t with
  | nil => simpa using h
  | cons c rest ih =>
    simp only [List.flatMap_cons] at h
    unfold url.escapeByte at h
    split_ifs at h with h1 h2
    · exfalso; apply hplus; rw [← h]; simp
    · exfalso; apply hpct; rw [← h]; simp
    · cases t with
      | nil => simp at h
      | cons x t' =>
        simp only [List.singleton_append, List.cons.injEq] at h
        obtain ⟨rfl, h⟩ := h
        rw [ih t' (fun hm => hpct (List.mem_cons_of_mem _ hm))
          (fun hm => hplus (List.mem_cons_of_mem _ hm)) h]

/-! ### Shared lemmas: query strings -/

/-- The text before and after the first separator, when the text before is known to be free
of it. -/
theorem cut_append (sep : Char) (a b : List Char) (ha : sep ∉ a) :
    strings.cut sep (a ++ sep :: b) = (a, b) := by
  induction a with
  | nil => simp [strings.cut]
  | cons c rest ih =>
    have hc : c ≠ sep := fun h => ha (h ▸ List.mem_cons_self _ _)
    have hr : sep ∉ rest := fun h => ha (List.mem_cons_of_mem _ h)
    simp [strings.cut, hc, ih hr]

/-- Splitting a text that is free of the separator gives the text. -/
theorem split_of_not_mem (sep : Char) (a : List Char) (ha : sep ∉ a) :
    strings.split sep a = [a] := by
  induction a with
  | nil => rfl
  | cons c rest ih =>
    have hc : c ≠ sep := fun h => ha (h ▸ List.mem_cons_self _ _)
    have hr : sep ∉ rest := fun h => ha (List.mem_cons_of_mem _ h)
    simp [strings.split, hc, ih hr]

/-- Splitting after a first piece that is free of the separator. -/
theorem split_append (sep : Char) (a b : List Char) (ha : sep ∉ a) :
    strings.split sep (a ++ sep :: b) = a :: strings.split sep b := by
  induction a with
  | nil => simp [strings.split]
  | cons c rest ih =>
    have hc : c ≠ sep := fun h => ha (h ▸ List.mem_cons_self _ _)
    have hr : sep ∉ rest := fun h => ha (List.mem_cons_of_mem _ h)
    simp [strings.split, hc, ih hr]

/-- The bytes of the accumulating loop of `String.intercalate`. -/
theorem intercalate_go_data (acc sep : String) (ps : List String) :
    (String.intercalate.go acc sep ps).data
      = acc.data ++ ps.flatMap (fun p => sep.data ++ p.data) := by
  induction ps generalizing acc with
  | nil => simp [String.intercalate.go]
  | cons p rest ih => simp [String.intercalate.go, ih, List.append_assoc]

/-- Splitting at `&` undoes joining with `&`, for pieces free of `&`. -/
theorem split_intercalate (p : String) (ps : List String)
    (hp : ∀ q ∈ p :: ps, '&' ∉ q.data) :
    strings.split '&' ("&".intercalate (p :: ps)).data = (p :: ps).map String.data := by
  have hgo : ∀ (a : List Char) (qs : List String), '&' ∉ a → (∀ q ∈ qs, '&' ∉ q.data) →
      strings.split '&' (a ++ qs.flatMap (fun q => '&' :: q.data)) = a :: qs.map String.data := by
    intro a qs
    induction qs generalizing a with
    | nil => intro ha _; simpa using split_of_not_mem '&' a ha
    | cons q rest ih =>
      intro ha hq
      have h1 : '&' ∉ q.data := hq q (List.mem_cons_self _ _)
      have h2 : ∀ r ∈ rest, '&' ∉ r.data := fun r hr => hq r (List.mem_cons_of_mem _ hr)
      simp only [List.flatMap_cons, List.map_cons, List.cons_append]
      rw [split_append '&' a _ ha, ih q.data h1 h2]
  have hamp : (fun q : String => "&".data ++ q.data) = (fun q : String => '&' :: q.data) := rfl
  simp only [String.intercalate, intercalate_go_data, hamp]
  exact hgo p.data ps (hp p (List.mem_cons_self _ _))
    (fun q hq => hp q (List.mem_cons_of_mem _ hq))

/-- The keys of a `Values` after `Add`. -/
theorem Values_Add_keys (m : url.Values) (key value : String) :
    (m.Add key value).map Prod.fst
      = if key ∈ m.map Prod.fst then m.map Prod.fst else m.map Prod.fst ++ [key] := by
  induction m with
  | nil => simp [url.Values.Add]
  | cons e rest ih =>
    obtain ⟨k, vs⟩ := e
    by_cases hk : k = key
    · simp [url.Values.Add, hk]
    · have hk2 : ¬ key = k := fun h => hk h.symm
      simp only [url.Values.Add, hk, if_false, List.map_cons, ih, List.mem_cons, hk2, false_or]
      split_ifs <;> simp

/-- The keys of a `Values` after `Set`. -/
theorem Values_Set_keys (m : url.Values) (key value : String) :
    (m.Set key value).map Prod.fst
      = if key ∈ m.map Prod.fst then m.map Prod.fst else m.map Prod.fst ++ [key] := by
  induction m with
  | nil => simp [url.Values.Set]
  | cons e rest ih =>
    obtain ⟨k, vs⟩ := e
    by_cases hk : k = key
    · simp [url.Values.Set, hk]
    · have hk2 : ¬ key = k := fun h => hk h.symm
      simp only [url.Values.Set, hk, if_false, List.map_cons, ih, List.mem_cons, hk2, false_or]
      split_ifs <;> simp

/-- The map update `Add` keeps the keys of a `Values` distinct. -/
theorem Values_Add_nodup (m : url.Values) (key value : String)
    (h : (m.map Prod.fst).Nodup) : ((m.Add key value).map Prod.fst).Nodup := by
  rw [Values_Add_keys]
  split_ifs with hk
  · exact h
  · exact List.Nodup.append h (List.nodup_singleton _) (by simpa using hk)

/-- The method `Set` keeps the keys of a `Values` distinct. -/
theorem Values_Set_nodup (m : url.Values) (key value : String)
    (h : (m.map Prod.fst).Nodup) : ((m.Set key value).map Prod.fst).Nodup := by
  rw [Values_Set_keys]
  split_ifs with hk
  · exact h
  · exact List.Nodup.append h (List.nodup_singleton _) (by simpa using hk)

/-- The keys of a parsed query are distinct. -/
theorem ParseQuery_nodup (query : String) : ((url.ParseQuery query).map Prod.fst).Nodup := by
  unfold url.ParseQuery
  have h : ∀ (pieces : List (List Char)) (m : url.Values), (m.map Prod.fst).Nodup →
      ((pieces.foldl url.parsePiece m).map Prod.fst).Nodup := by
    intro pieces
    induction pieces with
    | nil => intro m hm; exact hm
    | cons p rest ih =>
      intro m hm
      apply ih
      unfold url.parsePiece
      split_ifs
      · exact hm
      · exact hm
      · split
        · exact Values_Add_nodup _ _ _ hm
        · exact hm
  exact h _ [] (by simp)

/-- After `Set`, a `Values` with distinct keys has one entry for the key: the value set. -/
theorem Values_Set_filter (m : url.Values) (key value : String)
    (h : (m.map Prod.fst).Nodup) :
    (m.Set key value).filter (fun kv => decide (kv.1 = key)) = [(key, [value])] := by
  induction m with
  | nil => simp [url.Values.Set]
  | cons e rest ih =>
    obtain ⟨k, vs⟩ := e
    simp only [List.map_cons, List.nodup_cons] at h
    by_cases hk : k = key
    · subst hk
      have hrest : rest.filter (fun kv => decide (kv.1 = k)) = [] := by
        rw [List.filter_eq_nil_iff]
        intro kv hkv
        simp only [decide_eq_true_eq]
        intro hkk
        exact h.1 (hkk ▸ List.mem_map_of_mem Prod.fst hkv)
      simp [url.Values.Set, hrest]
    · simp [url.Values.Set, hk, ih h.2]

/-- A filtered `Values` keeps its entries under `Set` of another key. -/
theorem Values_Set_filter_other (m : url.Values) (key other value : String) (hne : other ≠ key) :
    (m.Set key value).filter (fun kv => decide (kv.1 = other))
      = m.filter (fun kv => decide (kv.1 = other)) := by
  induction m with
  | nil => simp [url.Values.Set, hne.symm]
  | cons e rest ih =>
    obtain ⟨k, vs⟩ := e
    by_cases hk : k = key
    · subst hk
      simp [url.Values.Set, hne.symm]
    · by_cases ho : k = other
      · subst ho
        simp [url.Values.Set, hk, ih]
      · simp [url.Values.Set, hk, ho, ih]

/-- Sorting by key permutes the entries. -/
theorem sortByKey_perm (v : url.Values) : (url.sortByKey v).Perm v := by
  have hins : ∀ (kv : String × List String) (l : url.Values),
      (url.insertByKey kv l).Perm (kv :: l) := by
    intro kv l
    induction l with
    | nil => exact List.Perm.refl _
    | cons e rest ih =>
      unfold url.insertByKey
      split_ifs
      · exact List.Perm.refl _
      · exact (List.Perm.cons e ih).trans (List.Perm.swap kv e rest)
  unfold url.sortByKey
  induction v with
  | nil => exact List.Perm.refl _
  | cons e rest ih =>
    simp only [List.foldr_cons]
    exact (hins e _).trans (List.Perm.cons e ih)

/-- A text escaped for a query holds neither `&` nor `=`. -/
theorem QueryEscape_no_separator (s : String) :
    '&' ∉ (url.QueryEscape s).data ∧ '=' ∉ (url.QueryEscape s).data :=
  ⟨not_mem_escape _ s '&' (by decide) (by decide) (by decide) (by decide),
   not_mem_escape _ s '=' (by decide) (by decide) (by decide) (by decide)⟩

/-- The pieces of an encoded `Values` for a key it holds once: the one pair of the escaped
key and its escaped value.  The key is one that no other key escapes to. -/
theorem Encode_piecesWithKey (v : url.Values) (key value : String)
    (hentry : v.filter (fun kv => decide (kv.1 = key)) = [(key, [value])])
    (hinj : ∀ k : String, (url.QueryEscape k).data = (url.QueryEscape key).data → k = key) :
    url.piecesWithKey v.Encode (url.QueryEscape key)
      = [url.QueryEscape key ++ "=" ++ url.QueryEscape value] := by
  let f : String × List String → List String :=
    fun kv => kv.2.map (fun value => url.QueryEscape kv.1 ++ "=" ++ url.QueryEscape value)
  have hdata : ∀ a b : String, (a ++ "=" ++ b).data = a.data ++ '=' :: b.data := by
    intro a b; simp [String.data_append]
  -- the key text of a piece
  have hkeyOf : ∀ (kv : String × List String) (q : String), q ∈ f kv →
      (strings.cut '=' q.data).1 = (url.QueryEscape kv.1).data := by
    intro kv q hq
    simp only [f, List.mem_map] at hq
    obtain ⟨val, -, rfl⟩ := hq
    rw [hdata, cut_append '=' _ _ (QueryEscape_no_separator kv.1).2]
  have hnoamp : ∀ q ∈ (url.sortByKey v).flatMap f, '&' ∉ q.data := by
    intro q hq
    simp only [List.mem_flatMap, f, List.mem_map] at hq
    obtain ⟨kv, -, val, -, rfl⟩ := hq
    rw [hdata]
    simp only [List.mem_append, List.mem_cons, not_or]
    exact ⟨(QueryEscape_no_separator kv.1).1, by decide, (QueryEscape_no_separator val).1⟩
  -- filtering the pieces by key text is filtering the entries by key
  have hfilter : ∀ l : url.Values,
      (l.flatMap f).filter (fun q => decide ((strings.cut '=' q.data).1 = (url.QueryEscape key).data))
        = (l.filter (fun kv => decide (kv.1 = key))).flatMap f := by
    intro l
    induction l with
    | nil => rfl
    | cons kv rest ih =>
      simp only [List.flatMap_cons, List.filter_append, ih]
      by_cases hk : kv.1 = key
      · have hall : (f kv).filter
            (fun q => decide ((strings.cut '=' q.data).1 = (url.QueryEscape key).data)) = f kv := by
          rw [List.filter_eq_self]
          intro q hq
          simp [hkeyOf kv q hq, hk]
        simp [List.filter_cons, hk, hall]
      · have hnone : (f kv).filter
            (fun q => decide ((strings.cut '=' q.data).1 = (url.QueryEscape key).data)) = [] := by
          rw [List.filter_eq_nil_iff]
          intro q hq
          simp only [decide_eq_true_eq, hkeyOf kv q hq]
          exact fun h => hk (hinj _ h)
        simp [List.filter_cons, hk, hnone]
  have hsorted : (url.sortByKey v).filter (fun kv => decide (kv.1 = key)) = [(key, [value])] := by
    have hperm := (sortByKey_perm v).filter (fun kv => decide (kv.1 = key))
    rw [hentry] at hperm
    exact List.perm_singleton.mp hperm
  have hpieces : ((url.sortByKey v).flatMap f).filter
      (fun q => decide ((strings.cut '=' q.data).1 = (url.QueryEscape key).data))
      = [url.QueryEscape key ++ "=" ++ url.QueryEscape value] := by
    rw [hfilter, hsorted]; simp [f]
  have hEncode : v.Encode = "&".intercalate ((url.sortByKey v).flatMap f) := rfl
  cases hps : (url.sortByKey v).flatMap f with
  | nil => rw [hps] at hpieces; simp at hpieces
  | cons p ps =>
    rw [hps] at hpieces hnoamp
    unfold url.piecesWithKey
    rw [hEncode, hps, split_intercalate p ps hnoamp, List.filter_map, List.map_map]
    have hid : (String.mk ∘ String.data) = id := by funext s; rfl
    have hcomp : ((fun piece => decide ((strings.cut '=' piece).1 = (url.QueryEscape key).data))
        ∘ String.data)
        = (fun q : String => decide ((strings.cut '=' q.data).1 = (url.QueryEscape key).data)) := rfl
    rw [hid, List.map_id, hcomp, hpieces]

/-- A key that escapes to itself and holds neither `%` nor `+` is the only key that escapes
to it. -/
theorem QueryEscape_plain_inj (key : String) (hpct : '%' ∉ key.data) (hplus : '+' ∉ key.data)
    (hself : url.QueryEscape key = key) (k : String)
    (h : (url.QueryEscape k).data = (url.QueryEscape key).data) : k = key := by
  rw [hself] at h
  exact String.ext (escape_eq_of_plain _ k key.data hpct hplus h)

/-- The query that the builders of `ElasticSansClient` assign: whatever the URL of the
request carried, its pieces with key `api-version` are the one pair
`api-version=2021-11-20-preview`. -/
theorem api_version_pieces (u : url.URL) :
    url.piecesWithKey (u.Query.Set "api-version" "2021-11-20-preview").Encode "api-version"
      = ["api-version=2021-11-20-preview"] := by
  have h := Encode_piecesWithKey (u.Query.Set "api-version" "2021-11-20-preview")
    "api-version" "2021-11-20-preview"
    (Values_Set_filter _ _ _ (ParseQuery_nodup _))
    (QueryEscape_plain_inj "api-version" (by decide) (by decide) (by decide))
  have h1 : url.QueryEscape "api-version" = "api-version" := by decide
  have h2 : url.QueryEscape "2021-11-20-preview" = "2021-11-20-preview" := by decide
  rw [h1, h2] at h
  exact h

/-- The body encoder leaves the URL of a request as it is. -/
theorem MarshalAsJSON_URL {α : Type} (js : JSON α) (req : Request) (v : α) :
    (MarshalAsJSON js req v).1.URL = req.URL := by
  unfold MarshalAsJSON
  cases js.Marshal v <;> rfl

/-- C11: every request that a builder of `ElasticSansClient` returns (`createCreateRequest`,
`deleteCreateRequest`, `getCreateRequest`, `listByResourceGroupCreateRequest`,
`listBySubscriptionCreateRequest`, `updateCreateRequest`) has a raw query in which the key
`api-version` occurs in exactly one `&`-separated piece, the pair
`api-version=2021-11-20-preview`, for all path arguments and for every host endpoint,
whatever query text it carries. -/
theorem CreateRequest_builders_set_api_version_once {E U : Type} (client : ElasticSansClient)
    (rt : Runtime) (jsE : JSON E) (jsU : JSON U) (resourceGroupName elasticSanName : String)
    (pE : E) (pU : U) (req : Request) :
    ((ElasticSansClient.createCreateRequest client rt jsE resourceGroupName elasticSanName pE).1.1
        = some req →
      url.piecesWithKey req.URL.RawQuery "api-version" = ["api-version=2021-11-20-preview"])
    ∧ ((ElasticSansClient.deleteCreateRequest client rt resourceGroupName elasticSanName).1.1
        = some req →
      url.piecesWithKey req.URL.RawQuery "api-version" = ["api-version=2021-11-20-preview"])
    ∧ ((ElasticSansClient.getCreateRequest client rt resourceGroupName elasticSanName).1.1
        = some req →
      url.piecesWithKey req.URL.RawQuery "api-version" = ["api-version=2021-11-20-preview"])
    ∧ ((ElasticSansClient.listByResourceGroupCreateRequest client rt resourceGroupName).1.1
        = some req →
      url.piecesWithKey req.URL.RawQuery "api-version" = ["api-version=2021-11-20-preview"])
    ∧ ((ElasticSansClient.listBySubscriptionCreateRequest client rt).1.1 = some req →
      url.piecesWithKey req.URL.RawQuery "api-version" = ["api-version=2021-11-20-preview"])
    ∧ ((ElasticSansClient.updateCreateRequest client rt jsU resourceGroupName elasticSanName pU).1.1
        = some req →
      url.piecesWithKey req.URL.RawQuery "api-version" = ["api-version=2021-11-20-preview"]) := by
  unfold ElasticSansClient.createCreateRequest ElasticSansClient.deleteCreateRequest
    ElasticSansClient.getCreateRequest ElasticSansClient.listByResourceGroupCreateRequest
    ElasticSansClient.listBySubscriptionCreateRequest ElasticSansClient.updateCreateRequest
  refine ⟨?_, ?_, ?_, ?_, ?_, ?_⟩ <;>
  · simp only []
    split_ifs
    all_goals first
      | (intro h; exact absurd h (by simp))
      | (generalize rt.JoinPaths _ _ = ep
         rcases NewRequest_cases rt _ ep with ⟨e, he⟩ | he
         · rw [he]; intro h; exact absurd h (by simp)
         · rw [he]
           intro h
           simp only [Option.some.injEq] at h
           subst h
           first
             | exact api_version_pieces _
             | (rw [MarshalAsJSON_URL]; exact api_version_pieces _))

/-! ### Shared lemmas: `strings.ReplaceAll` on the URL templates -/

/-- The scan passes over a text that does not hold the first byte of `old`. -/
theorem replaceFrom_skip_before (c0 : Char) (old1 new : List Char) (pre s : List Char)
    (hpre : c0 ∉ pre) :
    strings.replaceFrom (c0 :: old1) new 0 (pre ++ s)
      = pre ++ strings.replaceFrom (c0 :: old1) new 0 s := by
  induction pre with
  | nil => rfl
  | cons c rest ih =>
    have hc : ¬ c0 = c := fun h => hpre (h ▸ List.mem_cons_self _ _)
    have hr : c0 ∉ rest := fun h => hpre (List.mem_cons_of_mem _ h)
    simp [strings.replaceFrom, List.isPrefixOf, hc, ih hr]

/-- The scan passes over the rest of an occurrence it has replaced. -/
theorem replaceFrom_skip_count (old new : List Char) (t s : List Char) :
    strings.replaceFrom old new t.length (t ++ s) = strings.replaceFrom old new 0 s := by
  induction t with
  | nil => rfl
  | cons c rest ih => simpa [strings.replaceFrom] using ih

/-- The scan replaces an occurrence of `old` at the head of the text. -/
theorem replaceFrom_match (c0 : Char) (old1 new s : List Char) :
    strings.replaceFrom (c0 :: old1) new 0 (c0 :: old1 ++ s)
      = new ++ strings.replaceFrom (c0 :: old1) new 0 s := by
  have hp : (c0 :: old1).isPrefixOf (c0 :: (old1 ++ s)) = true := by
    rw [← List.cons_append, List.isPrefixOf_iff_prefix]
    exact List.prefix_append _ _
  show strings.replaceFrom (c0 :: old1) new 0 (c0 :: (old1 ++ s)) = _
  rw [strings.replaceFrom, if_pos hp]
  simp only [List.length_cons, Nat.add_sub_cancel]
  rw [replaceFrom_skip_count]

/-- One replacement: `old` occurs once, after a text that does not hold its first byte and
before a text that the scan leaves as it is. -/
theorem replaceFrom_one (c0 : Char) (old1 new pre post : List Char) (hpre : c0 ∉ pre)
    (hpost : strings.replaceFrom (c0 :: old1) new 0 post = post) :
    strings.replaceFrom (c0 :: old1) new 0 (pre ++ (c0 :: old1 ++ post)) = pre ++ (new ++ post) := by
  rw [replaceFrom_skip_before c0 old1 new pre _ hpre, replaceFrom_match, hpost]

/-- A path-escaped text holds neither `{` nor `}`, neither `/`, `?` nor `#`. -/
theorem PathEscape_no_delimiter (s : String) :
    '{' ∉ (url.PathEscape s).data ∧ '}' ∉ (url.PathEscape s).data
    ∧ '/' ∉ (url.PathEscape s).data ∧ '?' ∉ (url.PathEscape s).data
    ∧ '#' ∉ (url.PathEscape s).data :=
  ⟨not_mem_escape _ s '{' (by decide) (by decide) (by decide) (by decide),
   not_mem_escape _ s '}' (by decide) (by decide) (by decide) (by decide),
   not_mem_escape _ s '/' (by decide) (by decide) (by decide) (by decide),
   not_mem_escape _ s '?' (by decide) (by decide) (by decide) (by decide),
   not_mem_escape _ s '#' (by decide) (by decide) (by decide) (by decide)⟩

/-- The three sequential replacements on the template of the ElasticSan resource path, for
replacement texts free of `{`. -/
theorem elasticSan_template_replaced (e1 e2 e3 : String)
    (h1 : '{' ∉ e1.data) (h2 : '{' ∉ e2.data) (_h3 : '{' ∉ e3.data) :
    strings.ReplaceAll
      (strings.ReplaceAll
        (strings.ReplaceAll
          "/subscriptions/{subscriptionId}/resourceGroups/{resourceGroupName}/providers/Microsoft.ElasticSan/elasticSans/{elasticSanName}"
          "{subscriptionId}" e1)
        "{resourceGroupName}" e2)
      "{elasticSanName}" e3
    = "/subscriptions/" ++ e1 ++ "/resourceGroups/" ++ e2
        ++ "/providers/Microsoft.ElasticSan/elasticSans/" ++ e3 := by
  have hs1 : strings.replaceFrom "{subscriptionId}".data e1.data 0
      "/subscriptions/{subscriptionId}/resourceGroups/{resourceGroupName}/providers/Microsoft.ElasticSan/elasticSans/{elasticSanName}".data
      = "/subscriptions/".data ++ (e1.data
          ++ "/resourceGroups/{resourceGroupName}/providers/Microsoft.ElasticSan/elasticSans/{elasticSanName}".data) :=
    replaceFrom_one '{' "subscriptionId\x7d".data e1.data "/subscriptions/".data
      "/resourceGroups/{resourceGroupName}/providers/Microsoft.ElasticSan/elasticSans/{elasticSanName}".data
      (by decide) rfl
  have hs2 : strings.replaceFrom "{resourceGroupName}".data e2.data 0
      (("/subscriptions/".data ++ e1.data ++ "/resourceGroups/".data)
        ++ ("{resourceGroupName}".data
          ++ "/providers/Microsoft.ElasticSan/elasticSans/{elasticSanName}".data))
      = ("/subscriptions/".data ++ e1.data ++ "/resourceGroups/".data)
          ++ (e2.data ++ "/providers/Microsoft.ElasticSan/elasticSans/{elasticSanName}".data) :=
    replaceFrom_one '{' "resourceGroupName\x7d".data e2.data _ _
      (by simp only [List.mem_append, not_or]; exact ⟨⟨by decide, h1⟩, by decide⟩) rfl
  have hs3 : strings.replaceFrom "{elasticSanName}".data e3.data 0
      (("/subscriptions/".data ++ e1.data ++ "/resourceGroups/".data ++ e2.data
          ++ "/providers/Microsoft.ElasticSan/elasticSans/".data)
        ++ ("{elasticSanName}".data ++ []))
      = ("/subscriptions/".data ++ e1.data ++ "/resourceGroups/".data ++ e2.data
          ++ "/providers/Microsoft.ElasticSan/elasticSans/".data) ++ (e3.data ++ []) :=
    replaceFrom_one '{' "elasticSanName\x7d".data e3.data _ _
      (by simp only [List.mem_append, not_or]
          exact ⟨⟨⟨⟨by decide, h1⟩, by decide⟩, h2⟩, by decide⟩) rfl
  have ho1 : ("{subscriptionId}" : String) ≠ "" := by decide
  have ho2 : ("{resourceGroupName}" : String) ≠ "" := by decide
  have ho3 : ("{elasticSanName}" : String) ≠ "" := by decide
  apply String.ext
  simp only [strings.ReplaceAll, ho1, ho2, ho3, if_false, String.data_append]
  rw [hs1]
  have e12 : "/subscriptions/".data ++ (e1.data
      ++ "/resourceGroups/{resourceGroupName}/providers/Microsoft.ElasticSan/elasticSans/{elasticSanName}".data)
      = ("/subscriptions/".data ++ e1.data ++ "/resourceGroups/".data)
        ++ ("{resourceGroupName}".data
          ++ "/providers/Microsoft.ElasticSan/elasticSans/{elasticSanName}".data) := by
    simp only [List.append_assoc]; rfl
  rw [e12, hs2]
  have e23 : ("/subscriptions/".data ++ e1.data ++ "/resourceGroups/".data)
      ++ (e2.data ++ "/providers/Microsoft.ElasticSan/elasticSans/{elasticSanName}".data)
      = ("/subscriptions/".data ++ e1.data ++ "/resourceGroups/".data ++ e2.data
          ++ "/providers/Microsoft.ElasticSan/elasticSans/".data)
        ++ ("{elasticSanName}".data ++ []) := by
    simp only [List.append_assoc]; rfl
  rw [e23, hs3]
  simp only [List.append_assoc, List.append_nil]

/-- C19: for non-empty subscription ID, resource group name and ElasticSan name, the path
that `ElasticSansClient.getCreateRequest` computes by three sequential calls of
`strings.ReplaceAll`, and hands to `runtime.JoinPaths` for its one `NewRequest` call, is the
simultaneous substitution `resourcePath` of the three path-escaped arguments: no argument
is substituted a second time, whatever placeholder text it holds, and no `{` or `}` is
left in the path. -/
theorem getCreateRequest_path_is_simultaneous_substitution (client : ElasticSansClient)
    (rt : Runtime) (resourceGroupName elasticSanName : String)
    (h1 : client.subscriptionID ≠ "") (h2 : resourceGroupName ≠ "") (h3 : elasticSanName ≠ "") :
    (ElasticSansClient.getCreateRequest client rt resourceGroupName elasticSanName).2
      = [Call.NewRequest http.MethodGet
          (rt.JoinPaths client.host
            (resourcePath client.subscriptionID resourceGroupName elasticSanName))]
    ∧ strings.ReplaceAll
        (strings.ReplaceAll
          (strings.ReplaceAll
            "/subscriptions/{subscriptionId}/resourceGroups/{resourceGroupName}/providers/Microsoft.ElasticSan/elasticSans/{elasticSanName}"
            "{subscriptionId}" (url.PathEscape client.subscriptionID))
          "{resourceGroupName}" (url.PathEscape resourceGroupName))
        "{elasticSanName}" (url.PathEscape elasticSanName)
      = resourcePath client.subscriptionID resourceGroupName elasticSanName
    ∧ '{' ∉ (resourcePath client.subscriptionID resourceGroupName elasticSanName).data
    ∧ '}' ∉ (resourcePath client.subscriptionID resourceGroupName elasticSanName).data := by
  have hpath := elasticSan_template_replaced (url.PathEscape client.subscriptionID)
    (url.PathEscape resourceGroupName) (url.PathEscape elasticSanName)
    (PathEscape_no_delimiter _).1 (PathEscape_no_delimiter _).1 (PathEscape_no_delimiter _).1
  refine ⟨?_, hpath, ?_, ?_⟩
  · unfold ElasticSansClient.getCreateRequest
    simp only [h1, h2, h3, if_false, hpath]
    rcases NewRequest_cases rt http.MethodGet
      (rt.JoinPaths client.host (resourcePath client.subscriptionID resourceGroupName
        elasticSanName)) with ⟨e, he⟩ | he
    · simp only [resourcePath] at he ⊢
      rw [he]
    · simp only [resourcePath] at he ⊢
      rw [he]
  · simp only [resourcePath, String.data_append, List.mem_append, not_or]
    exact ⟨⟨⟨⟨⟨by decide, (PathEscape_no_delimiter _).1⟩, by decide⟩,
      (PathEscape_no_delimiter _).1⟩, by decide⟩, (PathEscape_no_delimiter _).1⟩
  · simp only [resourcePath, String.data_append, List.mem_append, not_or]
    exact ⟨⟨⟨⟨⟨by decide, (PathEscape_no_delimiter _).2.1⟩, by decide⟩,
      (PathEscape_no_delimiter _).2.1⟩, by decide⟩, (PathEscape_no_delimiter _).2.1⟩

/-- Witness for C19: the subscription ID is the text of the second placeholder and the
resource group name the text of the third. -/
theorem getCreateRequest_path_is_simultaneous_substitution_witness :
    ("{resourceGroupName}" : String) ≠ "" ∧ ("{elasticSanName}" : String) ≠ ""
    ∧ ("san" : String) ≠ ""
    ∧ (ElasticSansClient.getCreateRequest
          { host := "https://management.azure.com", subscriptionID := "{resourceGroupName}" }
          (Scenario.runtime 200 "{}") "{elasticSanName}" "san").2
        = [Call.NewRequest http.MethodGet
            ((Scenario.runtime 200 "{}").JoinPaths "https://management.azure.com"
              (resourcePath "{resourceGroupName}" "{elasticSanName}" "san"))]
    ∧ resourcePath "{resourceGroupName}" "{elasticSanName}" "san"
        = "/subscriptions/%7BresourceGroupName%7D/resourceGroups/%7BelasticSanName%7D/providers/Microsoft.ElasticSan/elasticSans/san" :=
  ⟨by decide, by decide, by decide,
   (getCreateRequest_path_is_simultaneous_substitution
      { host := "https://management.azure.com", subscriptionID := "{resourceGroupName}" }
      (Scenario.runtime 200 "{}") "{elasticSanName}" "san" (by decide) (by decide) (by decide)).1,
   by decide⟩

set_option maxRecDepth 8000 in
/-- The four sequential replacements on the template of the path of an integration account
schema, for replacement texts free of `{`. -/
theorem schema_template_replaced (e1 e2 e3 e4 : String)
    (h1 : '{' ∉ e1.data) (h2 : '{' ∉ e2.data) (h3 : '{' ∉ e3.data) :
    strings.ReplaceAll
      (strings.ReplaceAll
        (strings.ReplaceAll
          (strings.ReplaceAll
            "/subscriptions/{subscriptionId}/resourceGroups/{resourceGroupName}/providers/Microsoft.Logic/integrationAccounts/{integrationAccountName}/schemas/{schemaName}"
            "{subscriptionId}" e1)
          "{resourceGroupName}" e2)
        "{integrationAccountName}" e3)
      "{schemaName}" e4
    = "/subscriptions/" ++ e1 ++ "/resourceGroups/" ++ e2
        ++ "/providers/Microsoft.Logic/integrationAccounts/" ++ e3 ++ "/schemas/" ++ e4 := by
  have hs1 : strings.replaceFrom "{subscriptionId}".data e1.data 0
      "/subscriptions/{subscriptionId}/resourceGroups/{resourceGroupName}/providers/Microsoft.Logic/integrationAccounts/{integrationAccountName}/schemas/{schemaName}".data
      = "/subscriptions/".data ++ (e1.data
          ++ "/resourceGroups/{resourceGroupName}/providers/Microsoft.Logic/integrationAccounts/{integrationAccountName}/schemas/{schemaName}".data) :=
    replaceFrom_one '{' "subscriptionId\x7d".data e1.data "/subscriptions/".data
      "/resourceGroups/{resourceGroupName}/providers/Microsoft.Logic/integrationAccounts/{integrationAccountName}/schemas/{schemaName}".data
      (by decide) rfl
  have hs2 : strings.replaceFrom "{resourceGroupName}".data e2.data 0
      (("/subscriptions/".data ++ e1.data ++ "/resourceGroups/".data)
        ++ ("{resourceGroupName}".data
          ++ "/providers/Microsoft.Logic/integrationAccounts/{integrationAccountName}/schemas/{schemaName}".data))
      = ("/subscriptions/".data ++ e1.data ++ "/resourceGroups/".data)
          ++ (e2.data
            ++ "/providers/Microsoft.Logic/integrationAccounts/{integrationAccountName}/schemas/{schemaName}".data) :=
    replaceFrom_one '{' "resourceGroupName\x7d".data e2.data _ _
      (by simp only [List.mem_append, not_or]; exact ⟨⟨by decide, h1⟩, by decide⟩) rfl
  have hs3 : strings.replaceFrom "{integrationAccountName}".data e3.data 0
      (("/subscriptions/".data ++ e1.data ++ "/resourceGroups/".data ++ e2.data
          ++ "/providers/Microsoft.Logic/integrationAccounts/".data)
        ++ ("{integrationAccountName}".data ++ "/schemas/{schemaName}".data))
      = ("/subscriptions/".data ++ e1.data ++ "/resourceGroups/".data ++ e2.data
          ++ "/providers/Microsoft.Logic/integrationAccounts/".data)
        ++ (e3.data ++ "/schemas/{schemaName}".data) :=
    replaceFrom_one '{' "integrationAccountName\x7d".data e3.data _ _
      (by simp only [List.mem_append, not_or]
          exact ⟨⟨⟨⟨by decide, h1⟩, by decide⟩, h2⟩, by decide⟩) rfl
  have hs4 : strings.replaceFrom "{schemaName}".data e4.data 0
      (("/subscriptions/".data ++ e1.data ++ "/resourceGroups/".data ++ e2.data
          ++ "/providers/Microsoft.Logic/integrationAccounts/".data ++ e3.data ++ "/schemas/".data)
        ++ ("{schemaName}".data ++ []))
      = ("/subscriptions/".data ++ e1.data ++ "/resourceGroups/".data ++ e2.data
          ++ "/providers/Microsoft.Logic/integrationAccounts/".data ++ e3.data ++ "/schemas/".data)
        ++ (e4.data ++ []) :=
    replaceFrom_one '{' "schemaName\x7d".data e4.data _ _
      (by simp only [List.mem_append, not_or]
          exact ⟨⟨⟨⟨⟨⟨by decide, h1⟩, by decide⟩, h2⟩, by decide⟩, h3⟩, by decide⟩) rfl
  have ho1 : ("{subscriptionId}" : String) ≠ "" := by decide
  have ho2 : ("{resourceGroupName}" : String) ≠ "" := by decide
  have ho3 : ("{integrationAccountName}" : String) ≠ "" := by decide
  have ho4 : ("{schemaName}" : String) ≠ "" := by decide
  apply String.ext
  simp only [strings.ReplaceAll, ho1, ho2, ho3, ho4, if_false, String.data_append]
  rw [hs1]
  have e12 : "/subscriptions/".data ++ (e1.data
      ++ "/resourceGroups/{resourceGroupName}/providers/Microsoft.Logic/integrationAccounts/{integrationAccountName}/schemas/{schemaName}".data)
      = ("/subscriptions/".data ++ e1.data ++ "/resourceGroups/".data)
        ++ ("{resourceGroupName}".data
          ++ "/providers/Microsoft.Logic/integrationAccounts/{integrationAccountName}/schemas/{schemaName}".data) := by
    simp only [List.append_assoc]; rfl
  rw [e12, hs2]
  have e23 : ("/subscriptions/".data ++ e1.data ++ "/resourceGroups/".data)
      ++ (e2.data
        ++ "/providers/Microsoft.Logic/integrationAccounts/{integrationAccountName}/schemas/{schemaName}".data)
      = ("/subscriptions/".data ++ e1.data ++ "/resourceGroups/".data ++ e2.data
          ++ "/providers/Microsoft.Logic/integrationAccounts/".data)
        ++ ("{integrationAccountName}".data ++ "/schemas/{schemaName}".data) := by
    simp only [List.append_assoc]; rfl
  rw [e23, hs3]
  have e34 : ("/subscriptions/".data ++ e1.data ++ "/resourceGroups/".data ++ e2.data
          ++ "/providers/Microsoft.Logic/integrationAccounts/".data)
        ++ (e3.data ++ "/schemas/{schemaName}".data)
      = ("/subscriptions/".data ++ e1.data ++ "/resourceGroups/".data ++ e2.data
          ++ "/providers/Microsoft.Logic/integrationAccounts/".data ++ e3.data ++ "/schemas/".data)
        ++ ("{schemaName}".data ++ []) := by
    simp only [List.append_assoc]; rfl
  rw [e34, hs4]
  simp only [List.append_assoc, List.append_nil]

/-- C20: for non-empty path arguments, whatever bytes they hold, the path that
`IntegrationAccountSchemasClient.getCreateRequest` builds, and hands to `runtime.JoinPaths`
for its one `NewRequest` call, is the template with each placeholder replaced by the
path-escaped argument; it holds exactly as many `/` as the template, ten, and neither `?`
nor `#`: every argument fills one segment. -/
theorem getCreateRequest_arguments_fill_one_segment (client : IntegrationAccountSchemasClient)
    (rt : Runtime) (resourceGroupName integrationAccountName schemaName : String)
    (h1 : client.subscriptionID ≠ "") (h2 : resourceGroupName ≠ "")
    (h3 : integrationAccountName ≠ "") (h4 : schemaName ≠ "") :
    (IntegrationAccountSchemasClient.getCreateRequest client rt resourceGroupName
        integrationAccountName schemaName).2
      = [Call.NewRequest http.MethodGet
          (rt.JoinPaths client.host
            (schemaPath client.subscriptionID resourceGroupName integrationAccountName schemaName))]
    ∧ (schemaPath client.subscriptionID resourceGroupName integrationAccountName
          schemaName).data.count '/' = schemaPathTemplate.data.count '/'
    ∧ schemaPathTemplate.data.count '/' = 10
    ∧ '?' ∉ (schemaPath client.subscriptionID resourceGroupName integrationAccountName
          schemaName).data
    ∧ '#' ∉ (schemaPath client.subscriptionID resourceGroupName integrationAccountName
          schemaName).data := by
  have hpath := schema_template_replaced (url.PathEscape client.subscriptionID)
    (url.PathEscape resourceGroupName) (url.PathEscape integrationAccountName)
    (url.PathEscape schemaName)
    (PathEscape_no_delimiter _).1 (PathEscape_no_delimiter _).1 (PathEscape_no_delimiter _).1
  have hcount : ∀ s : String, (url.PathEscape s).data.count '/' = 0 := fun s =>
    List.count_eq_zero.mpr (PathEscape_no_delimiter s).2.2.1
  have htemplate : schemaPathTemplate.data.count '/' = 10 := by decide
  refine ⟨?_, ?_, htemplate, ?_, ?_⟩
  · unfold IntegrationAccountSchemasClient.getCreateRequest
    simp only [h1, h2, h3, h4, if_false, hpath]
    rcases NewRequest_cases rt http.MethodGet
      (rt.JoinPaths client.host (schemaPath client.subscriptionID resourceGroupName
        integrationAccountName schemaName)) with ⟨e, he⟩ | he
    · simp only [schemaPath] at he ⊢
      rw [he]
    · simp only [schemaPath] at he ⊢
      rw [he]
  · rw [htemplate]
    simp only [schemaPath, String.data_append, List.count_append, hcount]
    decide
  · simp only [schemaPath, String.data_append, List.mem_append, not_or]
    exact ⟨⟨⟨⟨⟨⟨⟨by decide, (PathEscape_no_delimiter _).2.2.2.1⟩, by decide⟩,
      (PathEscape_no_delimiter _).2.2.2.1⟩, by decide⟩, (PathEscape_no_delimiter _).2.2.2.1⟩,
      by decide⟩, (PathEscape_no_delimiter _).2.2.2.1⟩
  · simp only [schemaPath, String.data_append, List.mem_append, not_or]
    exact ⟨⟨⟨⟨⟨⟨⟨by decide, (PathEscape_no_delimiter _).2.2.2.2⟩, by decide⟩,
      (PathEscape_no_delimiter _).2.2.2.2⟩, by decide⟩, (PathEscape_no_delimiter _).2.2.2.2⟩,
      by decide⟩, (PathEscape_no_delimiter _).2.2.2.2⟩

/-- Witness for C20: arguments that hold `/`, `?`, `#`, `%` and `..`. -/
theorem getCreateRequest_arguments_fill_one_segment_witness :
    ("a/b" : String) ≠ "" ∧ ("r?g#1" : String) ≠ "" ∧ (".." : String) ≠ ""
    ∧ ("50%" : String) ≠ ""
    ∧ (schemaPath "a/b" "r?g#1" ".." "50%").data.count '/' = schemaPathTemplate.data.count '/'
    ∧ schemaPath "a/b" "r?g#1" ".." "50%"
        = "/subscriptions/a%2Fb/resourceGroups/r%3Fg%231/providers/Microsoft.Logic/integrationAccounts/../schemas/50%25" :=
  ⟨by decide, by decide, by decide, by decide,
   (getCreateRequest_arguments_fill_one_segment
      { host := "https://management.azure.com", subscriptionID := "a/b" }
      (Scenario.runtime 200 "{}") "r?g#1" ".." "50%"
      (by decide) (by decide) (by decide) (by decide)).2.1,
   by decide⟩

/-- C12: `UploadStreamOptions.setDefaults` maps every options value to the same value with
`BlockSize` replaced by the larger of `BlockSize` and 1 MiB, and `Concurrency` replaced by 1
when it is 0; every other field is unchanged.  Afterwards `BlockSize` is at least 1 MiB and
`Concurrency` is not 0. -/
theorem setDefaults_block_size_and_concurrency {T : blob.Types}
    (o : blockblob.UploadStreamOptions T) :
    o.setDefaults
      = { o with
          BlockSize := max o.BlockSize blockblob._1MiB
          Concurrency := if o.Concurrency = 0 then 1 else o.Concurrency }
    ∧ blockblob._1MiB = 1048576
    ∧ blockblob._1MiB ≤ o.setDefaults.BlockSize
    ∧ o.setDefaults.Concurrency ≠ 0 := by
  have hmax : ∀ a b : Int, a < b → max a b = b := fun a b h => max_eq_right (le_of_lt h)
  have hmax2 : ∀ a b : Int, ¬ a < b → max a b = a := fun a b h => max_eq_left (not_lt.mp h)
  have heq : o.setDefaults
      = { o with
          BlockSize := max o.BlockSize blockblob._1MiB
          Concurrency := if o.Concurrency = 0 then 1 else o.Concurrency } := by
    unfold blockblob.UploadStreamOptions.setDefaults
    by_cases hc : o.Concurrency = 0 <;> by_cases hb : o.BlockSize < blockblob._1MiB
    · simp [hc, hb, hmax _ _ hb]
    · simp [hc, hb, hmax2 _ _ hb]
    · simp [hc, hb, hmax _ _ hb]
    · simp [hc, hb, hmax2 _ _ hb]
  refine ⟨heq, by decide, ?_, ?_⟩
  · rw [heq]; exact le_max_right _ _
  · rw [heq]
    by_cases hc : o.Concurrency = 0
    · simp [hc]
    · simp [hc]

/-- C13, the code at the failing input: a caller supplies `Concurrency` -1 (and a block size
of 4 MiB); after `setDefaults` the concurrency is still -1, which is not at least 1. -/
theorem setDefaults_keeps_negative_concurrency :
    (Scenario.streamOptions 4194304 (-1)).setDefaults.Concurrency = -1
    ∧ ¬ (1 ≤ (Scenario.streamOptions 4194304 (-1)).setDefaults.Concurrency) := by
  decide

/-- C14, the code at the failing input: options of `UploadBuffer` that carry an access
condition.  The commit options made by `uploadFromReaderOptions.getCommitBlockListOptions`
have no access conditions, for these and for all options, while the upload options of the
same value and the commit options of `UploadStreamOptions` carry them; on the six other
fields the two conversions to commit options agree. -/
theorem getCommitBlockListOptions_drops_AccessConditions {T : blob.Types}
    (o : blockblob.uploadFromReaderOptions T) (u : blockblob.UploadStreamOptions T) :
    Scenario.bufferOptions.AccessConditions = some "if-match: etag"
    ∧ Scenario.bufferOptions.getCommitBlockListOptions.map (fun c => c.AccessConditions)
        = some none
    ∧ o.getCommitBlockListOptions.map (fun c => c.AccessConditions) = some none
    ∧ o.getUploadBlockBlobOptions.map (fun c => c.AccessConditions) = some o.AccessConditions
    ∧ (blockblob.UploadStreamOptions.getCommitBlockListOptions (some u)).map
        (fun c => c.AccessConditions) = some u.AccessConditions
    ∧ o.getCommitBlockListOptions.map
        (fun c => (c.Tags, c.Metadata, c.Tier, c.HTTPHeaders, c.CpkInfo, c.CpkScopeInfo))
        = some (o.Tags, o.Metadata, o.AccessTier, o.HTTPHeaders, o.CpkInfo, o.CpkScopeInfo)
    ∧ (blockblob.UploadStreamOptions.getCommitBlockListOptions (some u)).map
        (fun c => (c.Tags, c.Metadata, c.Tier, c.HTTPHeaders, c.CpkInfo, c.CpkScopeInfo))
        = some (u.Tags, u.Metadata, u.AccessTier, u.HTTPHeaders, u.CpkInfo, u.CpkScopeInfo) :=
  ⟨rfl, rfl, rfl, rfl, rfl, rfl, rfl⟩

/-! ### The batch preparers: `timeout` and `maxresults` -/

/-- The characters of `Nat.toDigitsCore 10` are decimal digits, when those collected
before are. -/
theorem toDigitsCore_decimal (fuel n : Nat) (ds : List Char)
    (h : ∀ c ∈ ds, c ∈ "-0123456789".data) :
    ∀ c ∈ Nat.toDigitsCore 10 fuel n ds, c ∈ "-0123456789".data := by
  induction fuel generalizing n ds with
  | zero => simpa [Nat.toDigitsCore] using h
  | succ fuel ih =>
    have hd : Nat.digitChar (n % 10) ∈ "-0123456789".data := by
      have hlt : n % 10 < 10 := Nat.mod_lt _ (by decide)
      generalize n % 10 = k at hlt
      interval_cases k <;> decide
    have hcons : ∀ c ∈ Nat.digitChar (n % 10) :: ds, c ∈ "-0123456789".data := by
      intro c hc
      rcases List.mem_cons.mp hc with hc | hc
      · exact hc ▸ hd
      · exact h c hc
    unfold Nat.toDigitsCore
    dsimp only
    split_ifs
    · exact hcons
    · exact ih _ _ hcons

/-- The text of `strconv.FormatInt` holds a sign and decimal digits only. -/
theorem FormatInt_decimal (i : Int) :
    ∀ c ∈ (strconv.FormatInt i).data, c ∈ "-0123456789".data := by
  have hdigits : ∀ c ∈ Nat.toDigits 10 i.natAbs, c ∈ "-0123456789".data :=
    toDigitsCore_decimal _ _ [] (by simp)
  unfold strconv.FormatInt
  split_ifs
  · intro c hc
    rcases List.mem_cons.mp hc with hc | hc
    · exact hc ▸ (by decide)
    · exact hdigits c hc
  · exact hdigits

/-- A sign or a decimal digit is written as it is by the escaping of `net/url`. -/
theorem escapeByte_decimal (mode : url.encoding) (c : Char) (h : c ∈ "-0123456789".data) :
    url.escapeByte mode c = [c] := by
  have hall : ∀ x ∈ "-0123456789".data, url.escapeByte mode x = [x] := by
    cases mode <;> decide
  exact hall c h

/-- A text of signs and decimal digits escapes to itself. -/
theorem QueryEscape_decimal (s : String) (h : ∀ c ∈ s.data, c ∈ "-0123456789".data) :
    url.QueryEscape s = s := by
  have hgo : ∀ l : List Char, (∀ c ∈ l, c ∈ "-0123456789".data) →
      l.flatMap (url.escapeByte .encodeQueryComponent) = l := by
    intro l
    induction l with
    | nil => intro _; rfl
    | cons c rest ih =>
      intro hl
      rw [List.flatMap_cons, escapeByte_decimal _ c (hl c (List.mem_cons_self _ _)),
        ih (fun x hx => hl x (List.mem_cons_of_mem _ hx))]
      rfl
  exact String.ext (hgo s.data h)

/-- A text of signs and decimal digits unescapes to itself. -/
theorem unescape_decimal (l : List Char) (h : ∀ c ∈ l, c ∈ "-0123456789".data) :
    url.unescape l = some l := by
  induction l with
  | nil => rfl
  | cons c rest ih =>
    have hc := h c (List.mem_cons_self _ _)
    have hpct : c ≠ '%' := by
      intro hp; rw [hp] at hc; revert hc; decide
    have hplus : c ≠ '+' := by
      intro hp; rw [hp] at hc; revert hc; decide
    unfold url.unescape
    rw [if_neg hpct, if_neg hplus, ih (fun x hx => h x (List.mem_cons_of_mem _ hx))]
    rfl

/-- The query parameter that the preparers make of an integer is its decimal text, and the
decorator `WithQueryParameters` unescapes it to the same text. -/
theorem Encode_query_FormatInt (i : Int) :
    autorest.Encode "query" (strconv.FormatInt i) = strconv.FormatInt i
      ∧ url.unescape (strconv.FormatInt i).data = some (strconv.FormatInt i).data := by
  refine ⟨?_, unescape_decimal _ (FormatInt_decimal i)⟩
  have h : autorest.Encode "query" (strconv.FormatInt i) = url.QueryEscape (strconv.FormatInt i) := by
    simp [autorest.Encode]
  rw [h, QueryEscape_decimal _ (FormatInt_decimal i)]

/-- The keys of a parameter map after an assignment. -/
theorem Parameters_assign_keys (p : autorest.Parameters) (key value : String) :
    (p.assign key value).map Prod.fst
      = if key ∈ p.map Prod.fst then p.map Prod.fst else p.map Prod.fst ++ [key] := by
  induction p with
  | nil => simp [autorest.Parameters.assign]
  | cons e rest ih =>
    obtain ⟨k, v⟩ := e
    by_cases hk : k = key
    · simp [autorest.Parameters.assign, hk]
    · have hk2 : ¬ key = k := fun h => hk h.symm
      simp only [autorest.Parameters.assign, hk, if_false, List.map_cons, ih, List.mem_cons, hk2,
        false_or]
      split_ifs <;> simp

/-- An assignment keeps the keys of a parameter map distinct. -/
theorem Parameters_assign_nodup (p : autorest.Parameters) (key value : String)
    (h : (p.map Prod.fst).Nodup) : ((p.assign key value).map Prod.fst).Nodup := by
  rw [Parameters_assign_keys]
  split_ifs with hk
  · exact h
  · exact List.Nodup.append h (List.nodup_singleton _) (by simpa using hk)

/-- A parameter map holds the value assigned to a key. -/
theorem Parameters_assign_mem (p : autorest.Parameters) (key value : String) :
    (key, value) ∈ p.assign key value := by
  induction p with
  | nil => simp [autorest.Parameters.assign]
  | cons e rest ih =>
    obtain ⟨k, v⟩ := e
    by_cases hk : k = key
    · simp [autorest.Parameters.assign, hk]
    · simp only [autorest.Parameters.assign, hk, if_false]
      exact List.mem_cons_of_mem _ ih

/-- A parameter map keeps the value of a key when another key is assigned. -/
theorem Parameters_assign_mem_other (p : autorest.Parameters) (key value k x : String)
    (hne : k ≠ key) (h : (k, x) ∈ p) : (k, x) ∈ p.assign key value := by
  induction p with
  | nil => cases h
  | cons e rest ih =>
    obtain ⟨k2, v2⟩ := e
    by_cases hk : k2 = key
    · simp only [autorest.Parameters.assign, hk, if_true]
      rcases List.mem_cons.mp h with h | h
      · exact absurd ((Prod.mk.inj h).1.trans hk) hne
      · exact List.mem_cons_of_mem _ h
    · simp only [autorest.Parameters.assign, hk, if_false]
      rcases List.mem_cons.mp h with h | h
      · exact h ▸ List.mem_cons_self _ _
      · exact List.mem_cons_of_mem _ (ih h)
/-- A filtered `Values` keeps its entries under `Add` for another key. -/
theorem Values_Add_filter_other (m : url.Values) (key other value : String) (hne : other ≠ key) :
    (m.Add key value).filter (fun kv => decide (kv.1 = other))
      = m.filter (fun kv => decide (kv.1 = other)) := by
  induction m with
  | nil => simp [url.Values.Add, hne.symm]
  | cons e rest ih =>
    obtain ⟨k, vs⟩ := e
    by_cases hk : k = key
    · subst hk
      simp [url.Values.Add, hne.symm]
    · by_cases ho : k = other
      · subst ho
        simp [url.Values.Add, hk, ih]
      · simp [url.Values.Add, hk, ho, ih]

/-- After `Add`, a `Values` with distinct keys has one entry for the key: the values it held
for the key, then the value added. -/
theorem Values_Add_filter (m : url.Values) (key value : String)
    (h : (m.map Prod.fst).Nodup) :
    (m.Add key value).filter (fun kv => decide (kv.1 = key))
      = [(key, m.valuesOf key ++ [value])] := by
  induction m with
  | nil => simp [url.Values.Add, url.Values.valuesOf]
  | cons e rest ih =>
    obtain ⟨k, vs⟩ := e
    simp only [List.map_cons, List.nodup_cons] at h
    by_cases hk : k = key
    · subst hk
      have hrest : rest.filter (fun kv => decide (kv.1 = k)) = [] := by
        rw [List.filter_eq_nil_iff]
        intro kv hkv
        simp only [decide_eq_true_eq]
        intro hkk
        exact h.1 (hkk ▸ List.mem_map_of_mem Prod.fst hkv)
      simp [url.Values.Add, url.Values.valuesOf, hrest]
    · have hv : url.Values.valuesOf ((k, vs) :: rest) key = url.Values.valuesOf rest key := by
        simp [url.Values.valuesOf, hk]
      simp [url.Values.Add, hk, ih h.2, hv]

/-- The pieces of an encoded `Values` for a key it holds with some values: the pairs of the
escaped key and each escaped value, in the order of the values.  The key is one that no
other key escapes to. -/
theorem Encode_piecesWithKey_values (v : url.Values) (key : String) (values : List String)
    (hvalues : values ≠ [])
    (hentry : v.filter (fun kv => decide (kv.1 = key)) = [(key, values)])
    (hinj : ∀ k : String, (url.QueryEscape k).data = (url.QueryEscape key).data → k = key) :
    url.piecesWithKey v.Encode (url.QueryEscape key)
      = values.map (fun value => url.QueryEscape key ++ "=" ++ url.QueryEscape value) := by
  let f : String × List String → List String :=
    fun kv => kv.2.map (fun value => url.QueryEscape kv.1 ++ "=" ++ url.QueryEscape value)
  have hdata : ∀ a b : String, (a ++ "=" ++ b).data = a.data ++ '=' :: b.data := by
    intro a b; simp [String.data_append]
  have hkeyOf : ∀ (kv : String × List String) (q : String), q ∈ f kv →
      (strings.cut '=' q.data).1 = (url.QueryEscape kv.1).data := by
    intro kv q hq
    simp only [f, List.mem_map] at hq
    obtain ⟨val, -, rfl⟩ := hq
    rw [hdata, cut_append '=' _ _ (QueryEscape_no_separator kv.1).2]
  have hnoamp : ∀ q ∈ (url.sortByKey v).flatMap f, '&' ∉ q.data := by
    intro q hq
    simp only [List.mem_flatMap, f, List.mem_map] at hq
    obtain ⟨kv, -, val, -, rfl⟩ := hq
    rw [hdata]
    simp only [List.mem_append, List.mem_cons, not_or]
    exact ⟨(QueryEscape_no_separator kv.1).1, by decide, (QueryEscape_no_separator val).1⟩
  have hfilter : ∀ l : url.Values,
      (l.flatMap f).filter (fun q => decide ((strings.cut '=' q.data).1 = (url.QueryEscape key).data))
        = (l.filter (fun kv => decide (kv.1 = key))).flatMap f := by
    intro l
    induction l with
    | nil => rfl
    | cons kv rest ih =>
      simp only [List.flatMap_cons, List.filter_append, ih]
      by_cases hk : kv.1 = key
      · have hall : (f kv).filter
            (fun q => decide ((strings.cut '=' q.data).1 = (url.QueryEscape key).data)) = f kv := by
          rw [List.filter_eq_self]
          intro q hq
          simp [hkeyOf kv q hq, hk]
        simp [List.filter_cons, hk, hall]
      · have hnone : (f kv).filter
            (fun q => decide ((strings.cut '=' q.data).1 = (url.QueryEscape key).data)) = [] := by
          rw [List.filter_eq_nil_iff]
          intro q hq
          simp only [decide_eq_true_eq, hkeyOf kv q hq]
          exact fun h => hk (hinj _ h)
        simp [List.filter_cons, hk, hnone]
  have hsorted : (url.sortByKey v).filter (fun kv => decide (kv.1 = key)) = [(key, values)] := by
    have hperm := (sortByKey_perm v).filter (fun kv => decide (kv.1 = key))
    rw [hentry] at hperm
    exact List.perm_singleton.mp hperm
  have hpieces : ((url.sortByKey v).flatMap f).filter
      (fun q => decide ((strings.cut '=' q.data).1 = (url.QueryEscape key).data))
      = values.map (fun value => url.QueryEscape key ++ "=" ++ url.QueryEscape value) := by
    rw [hfilter, hsorted]; simp [f]
  have hEncode : v.Encode = "&".intercalate ((url.sortByKey v).flatMap f) := rfl
  cases hps : (url.sortByKey v).flatMap f with
  | nil =>
    rw [hps] at hpieces
    exact absurd (List.map_eq_nil_iff.mp hpieces.symm) hvalues
  | cons p ps =>
    rw [hps] at hpieces hnoamp
    unfold url.piecesWithKey
    rw [hEncode, hps, split_intercalate p ps hnoamp, List.filter_map, List.map_map]
    have hid : (String.mk ∘ String.data) = id := by funext s; rfl
    have hcomp : ((fun piece => decide ((strings.cut '=' piece).1 = (url.QueryEscape key).data))
        ∘ String.data)
        = (fun q : String => decide ((strings.cut '=' q.data).1 = (url.QueryEscape key).data)) := rfl
    rw [hid, List.map_id, hcomp, hpieces]

/-- The loop of `WithQueryParameters` keeps the keys of the query distinct. -/
theorem setQueryParameters_nodup (ps : autorest.Parameters) (v v2 : url.Values)
    (hv : (v.map Prod.fst).Nodup) (h : autorest.setQueryParameters v ps = .ok v2) :
    (v2.map Prod.fst).Nodup := by
  induction ps generalizing v with
  | nil =>
    simp only [autorest.setQueryParameters, Except.ok.injEq] at h
    exact h ▸ hv
  | cons e rest ih =>
    obtain ⟨k, x⟩ := e
    simp only [autorest.setQueryParameters] at h
    cases hx : url.unescape x.data with
    | none => simp [hx] at h
    | some d =>
      simp only [hx] at h
      exact ih _ (Values_Add_nodup _ _ _ hv) h

/-- The loop of `WithQueryParameters` leaves the entries of a key that is not a parameter. -/
theorem setQueryParameters_filter_other (ps : autorest.Parameters) (v v2 : url.Values)
    (key : String) (hkey : key ∉ ps.map Prod.fst)
    (h : autorest.setQueryParameters v ps = .ok v2) :
    v2.filter (fun kv => decide (kv.1 = key)) = v.filter (fun kv => decide (kv.1 = key)) := by
  induction ps generalizing v with
  | nil =>
    simp only [autorest.setQueryParameters, Except.ok.injEq] at h
    rw [h]
  | cons e rest ih =>
    obtain ⟨k, x⟩ := e
    simp only [List.map_cons, List.mem_cons, not_or] at hkey
    simp only [autorest.setQueryParameters] at h
    cases hx : url.unescape x.data with
    | none => simp [hx] at h
    | some d =>
      simp only [hx] at h
      rw [ih _ hkey.2 h, Values_Add_filter_other _ _ _ _ hkey.1]

/-- After the loop of `WithQueryParameters`, the query holds one entry for the key of a
parameter: the values that the query held for the key before, then the unescaped value of
the parameter. -/
theorem setQueryParameters_filter (ps : autorest.Parameters) (v v2 : url.Values)
    (key x : String) (d : List Char) (hv : (v.map Prod.fst).Nodup)
    (hps : (ps.map Prod.fst).Nodup) (hmem : (key, x) ∈ ps) (hd : url.unescape x.data = some d)
    (h : autorest.setQueryParameters v ps = .ok v2) :
    v2.filter (fun kv => decide (kv.1 = key)) = [(key, v.valuesOf key ++ [⟨d⟩])] := by
  induction ps generalizing v with
  | nil => cases hmem
  | cons e rest ih =>
    obtain ⟨k, y⟩ := e
    simp only [List.map_cons, List.nodup_cons] at hps
    simp only [autorest.setQueryParameters] at h
    cases hy : url.unescape y.data with
    | none => simp [hy] at h
    | some dy =>
      simp only [hy] at h
      rcases List.mem_cons.mp hmem with hm | hm
      · obtain ⟨hk, hxy⟩ := Prod.mk.inj hm
        subst hk; subst hxy
        rw [hd] at hy
        cases hy
        rw [setQueryParameters_filter_other _ _ _ _ hps.1 h]
        exact Values_Add_filter _ _ _ hv
      · have hne : key ≠ k := by
          intro hkk
          exact hps.1 (hkk ▸ List.mem_map_of_mem Prod.fst hm)
        have hsame : url.Values.valuesOf (v.Add k ⟨dy⟩) key = v.valuesOf key := by
          unfold url.Values.valuesOf
          rw [Values_Add_filter_other _ _ _ _ hne]
        rw [ih _ (Values_Add_nodup _ _ _ hv) hps.2 hm h, hsame]
/-- A preparer of decorators followed by others: the others act when the first ones have
prepared the request without error. -/
theorem Prepare_append (lib : autorest.Library) (a b : List autorest.PrepareDecorator)
    (r : http.Request) :
    autorest.Prepare lib (a ++ b) r
      = match autorest.Prepare lib a r with
        | (r2, some err) => (r2, some err)
        | (r2, none) => autorest.Prepare lib b r2 := by
  induction a generalizing r with
  | nil => simp [autorest.Prepare]
  | cons d rest ih =>
    simp only [List.cons_append, autorest.Prepare]
    rcases d.apply lib r with ⟨r2, _ | err⟩
    · exact ih r2
    · rfl

/-- Header decorators prepare a request without error and leave its URL. -/
theorem Prepare_headers (lib : autorest.Library) (hs : List autorest.PrepareDecorator)
    (hhs : ∀ d ∈ hs, ∃ header value, d = .WithHeader header value) (r : http.Request) :
    (autorest.Prepare lib hs r).2 = none ∧ (autorest.Prepare lib hs r).1.URL = r.URL := by
  induction hs generalizing r with
  | nil => exact ⟨rfl, rfl⟩
  | cons d rest ih =>
    obtain ⟨header, value, hd⟩ := hhs d (List.mem_cons_self _ _)
    subst hd
    simp only [autorest.Prepare, autorest.PrepareDecorator.apply]
    exact ih (fun d hd => hhs d (List.mem_cons_of_mem _ hd)) _
/-- The decorator `WithQueryParameters` on a request: when it reports no error, the request
had a URL, and the query of the URL is now the encoded result of the loop over the query
that the URL carried. -/
theorem WithQueryParameters_apply (lib : autorest.Library) (queryParameters : autorest.Parameters)
    (r2 r : http.Request)
    (h : (autorest.PrepareDecorator.WithQueryParameters queryParameters).apply lib r2 = (r, none)) :
    ∃ (u : url.URL) (v : url.Values), r2.URL = some u
      ∧ autorest.setQueryParameters u.Query queryParameters = .ok v
      ∧ r.URL = some { u with RawQuery := v.Encode } := by
  unfold autorest.PrepareDecorator.apply at h
  cases hu : r2.URL with
  | none => simp [hu] at h
  | some u =>
    cases hs : autorest.setQueryParameters u.Query queryParameters with
    | error err => simp [hu, hs] at h
    | ok v =>
      simp only [hu, hs, Prod.mk.injEq, and_true] at h
      exact ⟨u, v, rfl, hs, by rw [← h]⟩

/-- The decorators of a batch preparer, the one of the query parameters last before the
headers: a request prepared without error comes from the request that the decorators before
prepare without error, and its URL is the URL of that request with the encoded result of
the loop of `WithQueryParameters` as its query. -/
theorem Prepare_query_then_headers (lib : autorest.Library)
    (before hs : List autorest.PrepareDecorator) (queryParameters : autorest.Parameters)
    (hhs : ∀ d ∈ hs, ∃ header value, d = .WithHeader header value) (r0 r : http.Request)
    (h : autorest.Prepare lib (before ++ [.WithQueryParameters queryParameters] ++ hs) r0
      = (r, none)) :
    ∃ (r2 : http.Request) (u : url.URL) (v : url.Values),
      autorest.Prepare lib before r0 = (r2, none) ∧ r2.URL = some u
      ∧ autorest.setQueryParameters u.Query queryParameters = .ok v
      ∧ r.URL = some { u with RawQuery := v.Encode } := by
  rw [Prepare_append] at h
  rcases hq : autorest.Prepare lib (before ++ [.WithQueryParameters queryParameters]) r0
    with ⟨r3, _ | err⟩
  · rw [hq] at h
    dsimp only at h
    have hurl := (Prepare_headers lib hs hhs r3).2
    rw [h] at hurl
    rw [Prepare_append] at hq
    rcases hb : autorest.Prepare lib before r0 with ⟨r2, _ | err⟩
    · rw [hb] at hq
      dsimp only at hq
      simp only [autorest.Prepare] at hq
      rcases ha : (autorest.PrepareDecorator.WithQueryParameters queryParameters).apply lib r2
        with ⟨r4, _ | err⟩
      · rw [ha] at hq
        dsimp only at hq
        cases hq
        obtain ⟨u, v, hu, hv, hr⟩ := WithQueryParameters_apply lib queryParameters r2 r3 ha
        exact ⟨r2, u, v, rfl, hu, hv, hurl.trans hr⟩
      · rw [ha] at hq
        cases hq
    · rw [hb] at hq
      cases hq
  · rw [hq] at h
    cases h

/-- The parameter map of a batch preparer after its last two assignments: its keys are
distinct and it holds the values assigned to `maxresults` and `timeout`. -/
theorem Parameters_maxresults_timeout (base : autorest.Parameters) (m t : String)
    (hbase : (base.map Prod.fst).Nodup) :
    ((((base.assign "maxresults" m).assign "timeout" t).map Prod.fst).Nodup)
      ∧ ("timeout", t) ∈ (base.assign "maxresults" m).assign "timeout" t
      ∧ ("maxresults", m) ∈ (base.assign "maxresults" m).assign "timeout" t :=
  ⟨Parameters_assign_nodup _ _ _ (Parameters_assign_nodup _ _ _ hbase),
   Parameters_assign_mem _ _ _,
   Parameters_assign_mem_other _ _ _ _ _ (by decide) (Parameters_assign_mem _ _ _)⟩

/-- The parameter map of `ListPoolNodeCountsPreparer`: distinct keys, `timeout` with the
decimal text of the argument or of 30, `maxresults` with that of the argument or of 10. -/
theorem ListPoolNodeCountsPreparer_queryParameters (filter : String)
    (maxResults timeout : Option Int) :
    ((batch.AccountClient.ListPoolNodeCountsPreparer.queryParameters filter maxResults
        timeout).map Prod.fst).Nodup
      ∧ ("timeout", strconv.FormatInt (timeout.getD 30))
          ∈ batch.AccountClient.ListPoolNodeCountsPreparer.queryParameters filter maxResults timeout
      ∧ ("maxresults", strconv.FormatInt (maxResults.getD 10))
          ∈ batch.AccountClient.ListPoolNodeCountsPreparer.queryParameters filter maxResults
              timeout := by
  have hbase : ∀ b : Bool, (((if b then
      autorest.Parameters.assign [("api-version", "2019-06-01.9.0")] "$filter"
        (autorest.Encode "query" filter)
      else [("api-version", "2019-06-01.9.0")]) : autorest.Parameters).map Prod.fst).Nodup := by
    intro b
    cases b
    · simp
    · exact Parameters_assign_nodup _ _ _ (by simp)
  have h := Parameters_maxresults_timeout _ (strconv.FormatInt (maxResults.getD 10))
    (strconv.FormatInt (timeout.getD 30)) (hbase (decide (filter.length > 0)))
  cases maxResults <;> cases timeout <;>
    simpa [batch.AccountClient.ListPoolNodeCountsPreparer.queryParameters,
      (Encode_query_FormatInt _).1] using h

/-- The parameter map of `ListSupportedImagesPreparer`: distinct keys, `timeout` with the
decimal text of the argument or of 30, `maxresults` with that of the argument or of 1000. -/
theorem ListSupportedImagesPreparer_queryParameters (filter : String)
    (maxResults timeout : Option Int) :
    ((batch.AccountClient.ListSupportedImagesPreparer.queryParameters filter maxResults
        timeout).map Prod.fst).Nodup
      ∧ ("timeout", strconv.FormatInt (timeout.getD 30))
          ∈ batch.AccountClient.ListSupportedImagesPreparer.queryParameters filter maxResults
              timeout
      ∧ ("maxresults", strconv.FormatInt (maxResults.getD 1000))
          ∈ batch.AccountClient.ListSupportedImagesPreparer.queryParameters filter maxResults
              timeout := by
  have hbase : ∀ b : Bool, (((if b then
      autorest.Parameters.assign [("api-version", "2019-06-01.9.0")] "$filter"
        (autorest.Encode "query" filter)
      else [("api-version", "2019-06-01.9.0")]) : autorest.Parameters).map Prod.fst).Nodup := by
    intro b
    cases b
    · simp
    · exact Parameters_assign_nodup _ _ _ (by simp)
  have h := Parameters_maxresults_timeout _ (strconv.FormatInt (maxResults.getD 1000))
    (strconv.FormatInt (timeout.getD 30)) (hbase (decide (filter.length > 0)))
  cases maxResults <;> cases timeout <;>
    simpa [batch.AccountClient.ListSupportedImagesPreparer.queryParameters,
      (Encode_query_FormatInt _).1] using h
/-- The pieces of the query that `WithQueryParameters` encodes, for the key of an integer
parameter: the pairs of the key and each value that the query of the URL held for it, then
the pair of the key and the decimal text. -/
theorem query_parameter_pieces (queryParameters : autorest.Parameters) (u : url.URL)
    (v : url.Values) (key : String) (i : Int)
    (hps : (queryParameters.map Prod.fst).Nodup)
    (hmem : (key, strconv.FormatInt i) ∈ queryParameters)
    (hpct : '%' ∉ key.data) (hplus : '+' ∉ key.data) (hself : url.QueryEscape key = key)
    (hv : autorest.setQueryParameters u.Query queryParameters = .ok v) :
    url.piecesWithKey v.Encode key
      = (u.Query.valuesOf key).map (fun x => key ++ "=" ++ url.QueryEscape x)
          ++ [key ++ "=" ++ strconv.FormatInt i] := by
  have hentry := setQueryParameters_filter queryParameters u.Query v key (strconv.FormatInt i)
    (strconv.FormatInt i).data (ParseQuery_nodup _) hps hmem (Encode_query_FormatInt i).2 hv
  have h := Encode_piecesWithKey_values v key _ (by simp) hentry
    (QueryEscape_plain_inj key hpct hplus hself)
  rw [hself, List.map_append] at h
  rw [h]
  simp only [List.map_cons, List.map_nil]
  rw [QueryEscape_decimal _ (FormatInt_decimal i)]

/-- The decorators of `ListPoolNodeCountsPreparer`: the verb, the base URL, the path, the
query parameters, then headers. -/
theorem ListPoolNodeCountsPreparer_decorators_shape (client : batch.AccountClient)
    (lib : autorest.Library) (filter : String) (maxResults timeout : Option Int)
    (clientRequestID : Option String) (returnClientRequestID : Option Bool)
    (ocpDate : Option String) :
    ∃ hs : List autorest.PrepareDecorator,
      (∀ d ∈ hs, ∃ header value, d = .WithHeader header value)
      ∧ batch.AccountClient.ListPoolNodeCountsPreparer.decorators client lib filter maxResults
          timeout clientRequestID returnClientRequestID ocpDate
        = [.AsGet, .WithCustomBaseURL "{batchUrl}" [("batchUrl", client.BatchURL)],
            .WithPath "/nodecounts"]
          ++ [.WithQueryParameters
              (batch.AccountClient.ListPoolNodeCountsPreparer.queryParameters filter maxResults
                timeout)]
          ++ hs := by
  cases clientRequestID <;> cases returnClientRequestID <;> cases ocpDate <;>
    exact ⟨_, by simp, rfl⟩

/-- The decorators of `ListSupportedImagesPreparer`: the verb, the base URL, the path, the
query parameters, then headers. -/
theorem ListSupportedImagesPreparer_decorators_shape (client : batch.AccountClient)
    (lib : autorest.Library) (filter : String) (maxResults timeout : Option Int)
    (clientRequestID : Option String) (returnClientRequestID : Option Bool)
    (ocpDate : Option String) :
    ∃ hs : List autorest.PrepareDecorator,
      (∀ d ∈ hs, ∃ header value, d = .WithHeader header value)
      ∧ batch.AccountClient.ListSupportedImagesPreparer.decorators client lib filter maxResults
          timeout clientRequestID returnClientRequestID ocpDate
        = [.AsGet, .WithCustomBaseURL "{batchUrl}" [("batchUrl", client.BatchURL)],
            .WithPath "/supportedimages"]
          ++ [.WithQueryParameters
              (batch.AccountClient.ListSupportedImagesPreparer.queryParameters filter maxResults
                timeout)]
          ++ hs := by
  cases clientRequestID <;> cases returnClientRequestID <;> cases ocpDate <;>
    exact ⟨_, by simp, rfl⟩
/-- C16: every request that `ListPoolNodeCountsPreparer` or `ListSupportedImagesPreparer`
prepares without error has a URL whose query holds the pair `timeout=` with the decimal
text of 30 when the argument `timeout` is nil and of `*timeout` otherwise, and the pair
`maxresults=` with the decimal text of `*maxResults`, or of 10 (pool node counts) and 1000
(supported images) when `maxResults` is nil, for every batch URL, filter and header
argument.  Each is the last pair of its key: `WithQueryParameters` adds it after the pairs
that the URL made of the batch URL and the path held for the key, and it is the only pair
of the key when that URL held none. -/
theorem Preparers_put_timeout_and_maxresults (client : batch.AccountClient)
    (lib : autorest.Library) (filter : String) (maxResults timeout : Option Int)
    (clientRequestID : Option String) (returnClientRequestID : Option Bool)
    (ocpDate : Option String) :
    (∀ req : http.Request,
      (batch.AccountClient.ListPoolNodeCountsPreparer client lib filter maxResults timeout
        clientRequestID returnClientRequestID ocpDate).1 = (some req, none) →
      ∃ (located : http.Request) (u0 u : url.URL),
        autorest.Prepare lib [.AsGet,
            .WithCustomBaseURL "{batchUrl}" [("batchUrl", client.BatchURL)],
            .WithPath "/nodecounts"] http.Request.empty = (located, none)
        ∧ located.URL = some u0 ∧ req.URL = some u
        ∧ url.piecesWithKey u.RawQuery "timeout"
            = (u0.Query.valuesOf "timeout").map (fun x => "timeout" ++ "=" ++ url.QueryEscape x)
              ++ ["timeout" ++ "=" ++ strconv.FormatInt (timeout.getD 30)]
        ∧ url.piecesWithKey u.RawQuery "maxresults"
            = (u0.Query.valuesOf "maxresults").map
                (fun x => "maxresults" ++ "=" ++ url.QueryEscape x)
              ++ ["maxresults" ++ "=" ++ strconv.FormatInt (maxResults.getD 10)])
    ∧ (∀ req : http.Request,
      (batch.AccountClient.ListSupportedImagesPreparer client lib filter maxResults timeout
        clientRequestID returnClientRequestID ocpDate).1 = (some req, none) →
      ∃ (located : http.Request) (u0 u : url.URL),
        autorest.Prepare lib [.AsGet,
            .WithCustomBaseURL "{batchUrl}" [("batchUrl", client.BatchURL)],
            .WithPath "/supportedimages"] http.Request.empty = (located, none)
        ∧ located.URL = some u0 ∧ req.URL = some u
        ∧ url.piecesWithKey u.RawQuery "timeout"
            = (u0.Query.valuesOf "timeout").map (fun x => "timeout" ++ "=" ++ url.QueryEscape x)
              ++ ["timeout" ++ "=" ++ strconv.FormatInt (timeout.getD 30)]
        ∧ url.piecesWithKey u.RawQuery "maxresults"
            = (u0.Query.valuesOf "maxresults").map
                (fun x => "maxresults" ++ "=" ++ url.QueryEscape x)
              ++ ["maxresults" ++ "=" ++ strconv.FormatInt (maxResults.getD 1000)]) := by
  constructor
  · intro req h
    obtain ⟨hs, hhs, hshape⟩ := ListPoolNodeCountsPreparer_decorators_shape client lib filter
      maxResults timeout clientRequestID returnClientRequestID ocpDate
    obtain ⟨hps, htimeout, hmax⟩ :=
      ListPoolNodeCountsPreparer_queryParameters filter maxResults timeout
    simp only [batch.AccountClient.ListPoolNodeCountsPreparer, Prod.mk.injEq, Option.some.injEq]
      at h
    rw [hshape] at h
    obtain ⟨r2, u0, v, hbefore, hu0, hv, hr⟩ :=
      Prepare_query_then_headers lib _ hs _ hhs http.Request.empty req (Prod.ext h.1 h.2)
    exact ⟨r2, u0, _, hbefore, hu0, hr,
      query_parameter_pieces _ u0 v "timeout" _ hps htimeout (by decide) (by decide) (by decide) hv,
      query_parameter_pieces _ u0 v "maxresults" _ hps hmax (by decide) (by decide) (by decide) hv⟩
  · intro req h
    obtain ⟨hs, hhs, hshape⟩ := ListSupportedImagesPreparer_decorators_shape client lib filter
      maxResults timeout clientRequestID returnClientRequestID ocpDate
    obtain ⟨hps, htimeout, hmax⟩ :=
      ListSupportedImagesPreparer_queryParameters filter maxResults timeout
    simp only [batch.AccountClient.ListSupportedImagesPreparer, Prod.mk.injEq, Option.some.injEq]
      at h
    rw [hshape] at h
    obtain ⟨r2, u0, v, hbefore, hu0, hv, hr⟩ :=
      Prepare_query_then_headers lib _ hs _ hhs http.Request.empty req (Prod.ext h.1 h.2)
    exact ⟨r2, u0, _, hbefore, hu0, hr,
      query_parameter_pieces _ u0 v "timeout" _ hps htimeout (by decide) (by decide) (by decide) hv,
      query_parameter_pieces _ u0 v "maxresults" _ hps hmax (by decide) (by decide) (by decide) hv⟩

set_option maxRecDepth 16000 in
/-- C16 at concrete inputs, with no timeout and no maximum given.  For the batch URL of the
scenario, which has no query, the requests of the two preparers carry the one pair
`timeout=30`, and the one pair `maxresults=10` and `maxresults=1000`.  For the batch URL
`https://h/?timeout=5` the path lands in the value of the key `timeout` that the batch URL
holds, and `timeout=30` follows that pair. -/
theorem Preparers_put_timeout_and_maxresults_witness :
    (∃ (req : http.Request) (u : url.URL),
      (batch.AccountClient.ListPoolNodeCountsPreparer (Scenario.batchClient 3 200)
        Scenario.library "" none none none none none).1 = (some req, none)
      ∧ req.URL = some u
      ∧ url.piecesWithKey u.RawQuery "timeout" = ["timeout=30"]
      ∧ url.piecesWithKey u.RawQuery "maxresults" = ["maxresults=10"])
    ∧ (∃ (req : http.Request) (u : url.URL),
      (batch.AccountClient.ListSupportedImagesPreparer (Scenario.batchClient 3 200)
        Scenario.library "" none none none none none).1 = (some req, none)
      ∧ req.URL = some u
      ∧ url.piecesWithKey u.RawQuery "timeout" = ["timeout=30"]
      ∧ url.piecesWithKey u.RawQuery "maxresults" = ["maxresults=1000"])
    ∧ (∃ (req : http.Request) (u : url.URL),
      (batch.AccountClient.ListPoolNodeCountsPreparer Scenario.queryClient
        Scenario.library "" none none none none none).1 = (some req, none)
      ∧ req.URL = some u
      ∧ u.RawQuery
          = "api-version=2019-06-01.9.0&maxresults=10&timeout=5%2Fnodecounts&timeout=30"
      ∧ url.piecesWithKey u.RawQuery "timeout" = ["timeout=5%2Fnodecounts", "timeout=30"]
      ∧ url.piecesWithKey u.RawQuery "maxresults" = ["maxresults=10"]) := by
  have hpool : (batch.AccountClient.ListPoolNodeCountsPreparer (Scenario.batchClient 3 200)
      Scenario.library "" none none none none none).1
      = (some Scenario.nodeCountsRequest, none) := by decide
  have himages : (batch.AccountClient.ListSupportedImagesPreparer (Scenario.batchClient 3 200)
      Scenario.library "" none none none none none).1
      = (some ((batch.AccountClient.ListSupportedImagesPreparer (Scenario.batchClient 3 200)
          Scenario.library "" none none none none none).1.1.getD http.Request.empty), none) := by
    decide
  have hquery : (batch.AccountClient.ListPoolNodeCountsPreparer Scenario.queryClient
      Scenario.library "" none none none none none).1
      = (some ((batch.AccountClient.ListPoolNodeCountsPreparer Scenario.queryClient
          Scenario.library "" none none none none none).1.1.getD http.Request.empty), none) := by
    decide
  obtain ⟨b1, v1, u1, hb1, hv1, hu1, ht1, hm1⟩ :=
    (Preparers_put_timeout_and_maxresults (Scenario.batchClient 3 200) Scenario.library ""
      none none none none none).1 _ hpool
  obtain ⟨b2, v2, u2, hb2, hv2, hu2, ht2, hm2⟩ :=
    (Preparers_put_timeout_and_maxresults (Scenario.batchClient 3 200) Scenario.library ""
      none none none none none).2 _ himages
  obtain ⟨b3, v3, u3, hb3, hv3, hu3, ht3, hm3⟩ :=
    (Preparers_put_timeout_and_maxresults Scenario.queryClient Scenario.library ""
      none none none none none).1 _ hquery
  have hv1c : some v1 = some (url.Parse "https://account.region.batch.azure.com/nodecounts") := by
    have hb : b1 = _ := (congrArg Prod.fst hb1).symm
    rw [← hv1, hb]; decide
  have hv2c : some v2
      = some (url.Parse "https://account.region.batch.azure.com/supportedimages") := by
    have hb : b2 = _ := (congrArg Prod.fst hb2).symm
    rw [← hv2, hb]; decide
  have hv3c : some v3 = some (url.Parse "https://h/?timeout=5/nodecounts") := by
    have hb : b3 = _ := (congrArg Prod.fst hb3).symm
    rw [← hv3, hb]; decide
  have hq3 : some u3.RawQuery
      = some "api-version=2019-06-01.9.0&maxresults=10&timeout=5%2Fnodecounts&timeout=30" := by
    have h : Option.map url.URL.RawQuery (some u3) = _ :=
      (congrArg (Option.map url.URL.RawQuery) hu3).symm
    exact h.trans (by decide)
  rw [Option.some.inj hv1c] at ht1 hm1
  rw [Option.some.inj hv2c] at ht2 hm2
  rw [Option.some.inj hv3c] at ht3 hm3
  refine ⟨⟨_, u1, hpool, hu1, ?_, ?_⟩, ⟨_, u2, himages, hu2, ?_, ?_⟩,
    ⟨_, u3, hquery, hu3, Option.some.inj hq3, ?_, ?_⟩⟩
  · rw [ht1]; decide
  · rw [hm1]; decide
  · rw [ht2]; decide
  · rw [hm2]; decide
  · rw [ht3]; decide
  · rw [hm3]; decide

/-! ### The batch client: validation, the end of the pages, the retry bound -/

/-- C15: the validation of `ListSupportedImages` passes a nil `maxResults`, and passes a
non-nil one exactly when its value is between 1 and 1000; for every non-nil value outside
that range the method returns the zero-valued page with a validation error of
`batch.AccountClient`, `ListSupportedImages`, and calls neither a preparer nor a sender
(its trace of calls is empty). -/
theorem ListSupportedImages_enforces_maxResults_range {I : Type} (client : batch.AccountClient)
    (lib : autorest.Library) (results : batch.Results (batch.AccountListSupportedImagesResult I))
    (filter : String) (maxResults timeout : Option Int) (clientRequestID : Option String)
    (returnClientRequestID : Option Bool) (ocpDate : Option String) :
    validation.Validate (batch.AccountClient.ListSupportedImages.validations none) = none
    ∧ (validation.Validate (batch.AccountClient.ListSupportedImages.validations maxResults) = none
        ↔ ∀ v : Int, maxResults = some v → 1 ≤ v ∧ v ≤ 1000)
    ∧ (∀ v : Int, maxResults = some v → ¬ (1 ≤ v ∧ v ≤ 1000) →
        ∃ failure : validation.Failure,
          validation.Validate (batch.AccountClient.ListSupportedImages.validations maxResults)
            = some failure
          ∧ batch.AccountClient.ListSupportedImages client lib results filter maxResults timeout
              clientRequestID returnClientRequestID ocpDate
            = (({ fn := none, alsir := batch.AccountListSupportedImagesResult.zero I },
                some (.validation "batch.AccountClient" "ListSupportedImages" failure)), [])) := by
  refine ⟨rfl, ?_, ?_⟩
  · cases maxResults with
    | none => simp [batch.AccountClient.ListSupportedImages.validations, validation.Validate,
        validation.validateConstraints, validation.validatePtr]
    | some v =>
      simp only [batch.AccountClient.ListSupportedImages.validations, validation.Validate,
        validation.validateConstraints, validation.validatePtr, validation.validateChain,
        validation.validateInt, Option.some.injEq, forall_eq']
      by_cases hmax : v ≤ 1000
      · by_cases hmin : v ≥ 1
        · simp [hmax, hmin]
        · simp [hmax, hmin]
      · simp [hmax]
  · intro v hv hrange
    subst hv
    have hfail : ∃ failure : validation.Failure,
        validation.Validate (batch.AccountClient.ListSupportedImages.validations (some v))
          = some failure := by
      simp only [batch.AccountClient.ListSupportedImages.validations, validation.Validate,
        validation.validateConstraints, validation.validatePtr, validation.validateChain,
        validation.validateInt]
      by_cases hmax : v ≤ 1000
      · have hmin : ¬ v ≥ 1 := fun h => hrange ⟨h, hmax⟩
        simp [hmax, hmin]
      · simp [hmax]
    obtain ⟨failure, hf⟩ := hfail
    refine ⟨failure, hf, ?_⟩
    unfold batch.AccountClient.ListSupportedImages
    simp only [hf]

/-- C17, the claim at a concrete input: the last page of the scenario carries no next-link,
its preparer yields no request, and `listPoolNodeCountsNextResults` returns a nil error. -/
theorem listPoolNodeCountsNextResults_nil_error_at_last_page :
    Scenario.nodeCountResults.nextPreparer Scenario.lastNodeCounts = (none, none)
    ∧ (batch.AccountClient.listPoolNodeCountsNextResults (Scenario.batchClient 3 200)
        Scenario.library Scenario.nodeCountResults Scenario.lastNodeCounts).1.2 = none := by
  decide

/-- C17, amended: when the next-results preparer yields no request,
`listPoolNodeCountsNextResults` returns the zero-valued result and no error of its own: its
error is nil when the preparer reports none, and is the error of the preparer, wrapped as
`Failure preparing next results request`, otherwise. -/
theorem listPoolNodeCountsNextResults_without_request {N : Type} (client : batch.AccountClient)
    (lib : autorest.Library) (results : batch.Results (batch.PoolNodeCountsListResult N))
    (lastResults : batch.PoolNodeCountsListResult N)
    (h : (results.nextPreparer lastResults).1 = none) :
    (batch.AccountClient.listPoolNodeCountsNextResults client lib results lastResults).1
      = (batch.PoolNodeCountsListResult.zero N,
          (results.nextPreparer lastResults).2.map (fun err =>
            autorest.NewErrorWithError err "batch.AccountClient" "listPoolNodeCountsNextResults"
              none "Failure preparing next results request")) := by
  unfold batch.AccountClient.listPoolNodeCountsNextResults
  rcases hp : results.nextPreparer lastResults with ⟨req, _ | err⟩ <;>
  · rw [hp] at h
    dsimp only at h
    subst h
    rfl

/-- C17, amended, at a concrete input: at the last page of the scenario the preparer yields
no request and no error, and the function returns the zero-valued result and a nil error. -/
theorem listPoolNodeCountsNextResults_without_request_witness :
    (Scenario.nodeCountResults.nextPreparer Scenario.lastNodeCounts).1 = none
    ∧ (batch.AccountClient.listPoolNodeCountsNextResults (Scenario.batchClient 3 200)
        Scenario.library Scenario.nodeCountResults Scenario.lastNodeCounts).1
      = (batch.PoolNodeCountsListResult.zero String, none) :=
  ⟨rfl, listPoolNodeCountsNextResults_without_request (Scenario.batchClient 3 200)
    Scenario.library Scenario.nodeCountResults Scenario.lastNodeCounts rfl⟩

/-- The sends answered with status 429 among one more send. -/
theorem throttled_succ (s : autorest.Sender) (r : Option http.Request) (n : Nat) :
    autorest.throttled s r (n + 1)
      = autorest.throttled s r n + (if autorest.countsAsAttempt (s n r).1 then 0 else 1) := by
  unfold autorest.throttled
  rw [List.range_succ, List.filter_append, List.length_append]
  cases h : autorest.countsAsAttempt (s n r).1 <;> simp [List.filter_cons, h]

/-- The counter of attempts with which the retry loop goes on: one more, unless the
response has status 429. -/
theorem retryStep_again (lib : autorest.Library) (codes : List Int)
    (resp : Option azcore.Response) (err : Option autorest.Error) (attempt attempt2 : Int)
    (h : autorest.retryStep lib codes resp err attempt = .again attempt2) :
    attempt2 = if autorest.countsAsAttempt resp then attempt + 1 else attempt := by
  unfold autorest.retryStep at h
  cases err with
  | none =>
    dsimp only at h
    split_ifs at h <;> cases h <;> simp [*]
  | some e =>
    dsimp only at h
    split_ifs at h <;> cases h <;> simp [*]

/-- The retry loop, from any state: the requests it sends that are not answered with status
429 are at most the attempts that are left. -/
theorem retryLoop_bound (lib : autorest.Library) (codes : List Int) (s : autorest.Sender)
    (r : Option http.Request) (attempts : Int) (delays : Nat) (attempt : Int) (sent : Nat)
    (last : Option azcore.Response × Option autorest.Error) :
    (((autorest.retryLoop lib codes s r attempts delays attempt sent last).2 : Nat) : Int)
        - autorest.throttled s r (autorest.retryLoop lib codes s r attempts delays attempt sent last).2
      ≤ (sent : Int) - autorest.throttled s r sent + max 0 (attempts - attempt) := by
  have hone : ∀ (attempt : Int) (sent : Nat), attempt < attempts →
      ((sent + 1 : Nat) : Int) - autorest.throttled s r (sent + 1)
        ≤ (sent : Int) - autorest.throttled s r sent + max 0 (attempts - attempt) := by
    intro attempt sent hlt
    rw [throttled_succ]
    have hmax : max 0 (attempts - attempt) = attempts - attempt := max_eq_right (by omega)
    rw [hmax]
    split_ifs <;> push_cast <;> omega
  induction delays generalizing attempt sent last with
  | zero =>
    unfold autorest.retryLoop
    split_ifs with hlt
    · split <;> exact hone _ _ hlt
    · have : (0 : Int) ≤ max 0 (attempts - attempt) := le_max_left _ _
      dsimp only
      omega
  | succ delays ih =>
    unfold autorest.retryLoop
    split_ifs with hlt
    · split
      · exact hone _ _ hlt
      · rename_i attempt2 hstep
        have h2 := retryStep_again lib codes _ _ _ _ hstep
        have hrec := ih attempt2 (sent + 1) (s sent r)
        refine le_trans hrec ?_
        rw [throttled_succ]
        have hmax : max 0 (attempts - attempt) = attempts - attempt := max_eq_right (by omega)
        rw [hmax, h2]
        cases hc : autorest.countsAsAttempt (s sent r).1
        · have hm : max 0 (attempts - attempt) = attempts - attempt := max_eq_right (by omega)
          simp only [Bool.false_eq_true, if_false, hm]
          push_cast
          omega
        · have hm : max 0 (attempts - (attempt + 1)) = attempts - (attempt + 1) :=
            max_eq_right (by omega)
          simp only [if_true, hm]
          push_cast
          omega
    · have : (0 : Int) ≤ max 0 (attempts - attempt) := le_max_left _ _
      dsimp only
      omega

/-- C18, the claim at concrete inputs: with `RetryAttempts` 3 and a transport that answers
503 to every request, `ListPoolNodeCountsSender` sends the prepared request four times, more
than `RetryAttempts`; with `RetryAttempts` 0 it sends it once; and with `RetryAttempts` 3
and ten answers 429 before a 200 it sends it eleven times. -/
theorem ListPoolNodeCountsSender_sends_more_than_RetryAttempts :
    (Scenario.batchClient 3 503).RetryAttempts = 3
    ∧ (batch.AccountClient.ListPoolNodeCountsSender (Scenario.batchClient 3 503)
        Scenario.library (some Scenario.nodeCountsRequest)).2.count
          (batch.Call.Send (some Scenario.nodeCountsRequest)) = 4
    ∧ ¬ ((((batch.AccountClient.ListPoolNodeCountsSender (Scenario.batchClient 3 503)
        Scenario.library (some Scenario.nodeCountsRequest)).2.count
          (batch.Call.Send (some Scenario.nodeCountsRequest)) : Nat) : Int)
        ≤ (Scenario.batchClient 3 503).RetryAttempts)
    ∧ (batch.AccountClient.ListPoolNodeCountsSender (Scenario.batchClient 0 503)
        Scenario.library (some Scenario.nodeCountsRequest)).2.count
          (batch.Call.Send (some Scenario.nodeCountsRequest)) = 1
    ∧ (batch.AccountClient.ListPoolNodeCountsSender (Scenario.throttledClient 3 10)
        Scenario.library (some Scenario.nodeCountsRequest)).2.count
          (batch.Call.Send (some Scenario.nodeCountsRequest)) = 11 := by
  decide

/-- C18, amended: one call of `ListPoolNodeCountsSender` makes `Send` calls only, and the
requests it sends that are not answered with status 429 are at most
`client.RetryAttempts + 1`, the first send and the retries (none when that number is
negative), whatever responses and errors the transport gives, whichever errors are
temporary and whenever the context is done; so a transport that never answers 429 is sent
at most `client.RetryAttempts + 1` requests. -/
theorem ListPoolNodeCountsSender_retry_bound (client : batch.AccountClient)
    (lib : autorest.Library) (req : http.Request) :
    (batch.AccountClient.ListPoolNodeCountsSender client lib (some req)).2
        = List.replicate
            ((batch.AccountClient.ListPoolNodeCountsSender client lib (some req)).2.count
              (batch.Call.Send (some req)))
            (batch.Call.Send (some req))
    ∧ ((((batch.AccountClient.ListPoolNodeCountsSender client lib (some req)).2.count
          (batch.Call.Send (some req)) : Nat) : Int)
        ≤ max 0 (client.RetryAttempts + 1)
          + autorest.throttled client.Sender (some req)
              ((batch.AccountClient.ListPoolNodeCountsSender client lib (some req)).2.count
                (batch.Call.Send (some req))))
    ∧ ((∀ i : Nat, autorest.countsAsAttempt (client.Sender i (some req)).1 = true) →
        (((batch.AccountClient.ListPoolNodeCountsSender client lib (some req)).2.count
          (batch.Call.Send (some req)) : Nat) : Int) ≤ max 0 (client.RetryAttempts + 1)) := by
  have hbound := retryLoop_bound lib autorest.StatusCodesForRetry client.Sender (some req)
    (client.RetryAttempts + 1) lib.Delays 0 0 (none, none)
  have hzero : autorest.throttled client.Sender (some req) 0 = 0 := rfl
  simp only [batch.AccountClient.ListPoolNodeCountsSender, batch.AccountClient.sendWithRetry,
    autorest.DoRetryForStatusCodes, List.count_replicate_self, true_and]
  rw [hzero] at hbound
  simp only [sub_zero, Nat.cast_zero, zero_add] at hbound
  refine ⟨by omega, ?_⟩
  intro hall
  have hnone : ∀ n, autorest.throttled client.Sender (some req) n = 0 := by
    intro n
    unfold autorest.throttled
    rw [List.length_eq_zero, List.filter_eq_nil_iff]
    intro i _
    simp [hall i]
  rw [hnone] at hbound
  simpa using hbound

/-- C18, amended, at a concrete input: ten answers 429, then 200, and three retry attempts:
eleven requests are sent, ten of them answered 429. -/
theorem ListPoolNodeCountsSender_retry_bound_witness :
    (batch.AccountClient.ListPoolNodeCountsSender (Scenario.throttledClient 3 10)
        Scenario.library (some Scenario.nodeCountsRequest)).2.count
          (batch.Call.Send (some Scenario.nodeCountsRequest)) = 11
    ∧ autorest.throttled (Scenario.throttledClient 3 10).Sender
        (some Scenario.nodeCountsRequest) 11 = 10
    ∧ ((((batch.AccountClient.ListPoolNodeCountsSender (Scenario.throttledClient 3 10)
        Scenario.library (some Scenario.nodeCountsRequest)).2.count
          (batch.Call.Send (some Scenario.nodeCountsRequest)) : Nat) : Int)
        ≤ max 0 ((Scenario.throttledClient 3 10).RetryAttempts + 1)
          + autorest.throttled (Scenario.throttledClient 3 10).Sender
              (some Scenario.nodeCountsRequest)
              ((batch.AccountClient.ListPoolNodeCountsSender (Scenario.throttledClient 3 10)
                Scenario.library (some Scenario.nodeCountsRequest)).2.count
                  (batch.Call.Send (some Scenario.nodeCountsRequest)))) :=
  ⟨by decide, by decide,
   (ListPoolNodeCountsSender_retry_bound (Scenario.throttledClient 3 10) Scenario.library
    Scenario.nodeCountsRequest).2.1⟩

/-! ### The last claims: presence order, delete status codes, encoding failure, last page -/

/-- C21: `IntegrationAccountSchemasClient.getCreateRequest` reports the first empty path
argument in the order `client.subscriptionID`, `resourceGroupName`,
`integrationAccountName`, `schemaName`: its error is the presence error of a parameter
exactly when that parameter is empty and every parameter before it is not; and every error
made by `errors.New` that it returns is one of these four, returned with no request and
before any call. -/
theorem getCreateRequest_reports_first_empty_parameter (client : IntegrationAccountSchemasClient)
    (rt : Runtime) (resourceGroupName integrationAccountName schemaName : String) :
    ((IntegrationAccountSchemasClient.getCreateRequest client rt resourceGroupName
        integrationAccountName schemaName).1.2 = some (presenceError "client.subscriptionID")
      ↔ client.subscriptionID = "")
    ∧ ((IntegrationAccountSchemasClient.getCreateRequest client rt resourceGroupName
        integrationAccountName schemaName).1.2 = some (presenceError "resourceGroupName")
      ↔ client.subscriptionID ≠ "" ∧ resourceGroupName = "")
    ∧ ((IntegrationAccountSchemasClient.getCreateRequest client rt resourceGroupName
        integrationAccountName schemaName).1.2 = some (presenceError "integrationAccountName")
      ↔ client.subscriptionID ≠ "" ∧ resourceGroupName ≠ "" ∧ integrationAccountName = "")
    ∧ ((IntegrationAccountSchemasClient.getCreateRequest client rt resourceGroupName
        integrationAccountName schemaName).1.2 = some (presenceError "schemaName")
      ↔ client.subscriptionID ≠ "" ∧ resourceGroupName ≠ "" ∧ integrationAccountName ≠ ""
          ∧ schemaName = "")
    ∧ (∀ text : String,
        (IntegrationAccountSchemasClient.getCreateRequest client rt resourceGroupName
          integrationAccountName schemaName).1.2 = some (.errorsNew text) →
        (∃ p ∈ ["client.subscriptionID", "resourceGroupName", "integrationAccountName",
            "schemaName"], GoError.errorsNew text = presenceError p)
        ∧ IntegrationAccountSchemasClient.getCreateRequest client rt resourceGroupName
            integrationAccountName schemaName = ((none, some (.errorsNew text)), [])) := by
  have hmem : ∀ p : String, p ∈ ["client.subscriptionID", "resourceGroupName",
      "integrationAccountName", "schemaName"] → ∀ text : String,
      some (presenceError p) = some (GoError.errorsNew text) →
      (∃ q ∈ ["client.subscriptionID", "resourceGroupName", "integrationAccountName",
          "schemaName"], GoError.errorsNew text = presenceError q)
      ∧ (((none : Option Request), some (presenceError p)), ([] : List Call))
          = ((none, some (GoError.errorsNew text)), []) := by
    intro p hp text ht
    exact ⟨⟨p, hp, (Option.some.inj ht).symm⟩, by rw [Option.some.inj ht]⟩
  unfold IntegrationAccountSchemasClient.getCreateRequest Runtime.NewRequest
  by_cases h1 : client.subscriptionID = ""
  · simp only [h1, if_true]
    exact ⟨by simp [presenceError], by simp [presenceError], by simp [presenceError],
      by simp [presenceError], hmem "client.subscriptionID" (by simp)⟩
  · by_cases h2 : resourceGroupName = ""
    · simp only [h1, h2, if_true, if_false]
      exact ⟨by simp [presenceError], by simp [presenceError, h1], by simp [presenceError],
        by simp [presenceError], hmem "resourceGroupName" (by simp)⟩
    · by_cases h3 : integrationAccountName = ""
      · simp only [h1, h2, h3, if_true, if_false]
        exact ⟨by simp [presenceError], by simp [presenceError],
          by simp [presenceError, h1, h2], by simp [presenceError],
          hmem "integrationAccountName" (by simp)⟩
      · by_cases h4 : schemaName = ""
        · simp only [h1, h2, h3, h4, if_true, if_false]
          exact ⟨by simp [presenceError], by simp [presenceError], by simp [presenceError],
            by simp [presenceError, h1, h2, h3], hmem "schemaName" (by simp)⟩
        · simp only [h1, h2, h3, h4, if_false]
          cases h : rt.NewRequestError http.MethodGet _ <;> simp [presenceError, h1, h2, h3, h4]

/-- C22: for a pipeline response to the request of the builder,
`ElasticSansClient.deleteOperation` returns that response with a nil error exactly when its
status is 200, 202 or 204, and for every other status returns no response and the error of
`runtime.NewResponseError`; `IntegrationAccountSchemasClient.Delete` returns a nil error
exactly when the status is 200 or 204, and the error of `runtime.NewResponseError`
otherwise (that function never returns nil). -/
theorem deleteOperation_accepts_200_202_204 (client : ElasticSansClient)
    (logic : IntegrationAccountSchemasClient) (rt : Runtime)
    (resourceGroupName elasticSanName integrationAccountName schemaName : String)
    (req reqL : Option Request) (calls callsL : List Call) (resp respL : Response)
    (hreq : ElasticSansClient.deleteCreateRequest client rt resourceGroupName elasticSanName
        = ((req, none), calls))
    (hdo : rt.Do req = (some resp, none))
    (hreqL : IntegrationAccountSchemasClient.deleteCreateRequest logic rt resourceGroupName
        integrationAccountName schemaName = ((reqL, none), callsL))
    (hdoL : rt.Do reqL = (some respL, none))
    (hNRE : ∀ r, rt.NewResponseError r ≠ none) :
    ((ElasticSansClient.deleteOperation client rt resourceGroupName elasticSanName).1
        = (some resp, none)
      ↔ (resp.StatusCode = 200 ∨ resp.StatusCode = 202 ∨ resp.StatusCode = 204))
    ∧ ((ElasticSansClient.deleteOperation client rt resourceGroupName elasticSanName).1.2 = none
      ↔ (resp.StatusCode = 200 ∨ resp.StatusCode = 202 ∨ resp.StatusCode = 204))
    ∧ (¬ (resp.StatusCode = 200 ∨ resp.StatusCode = 202 ∨ resp.StatusCode = 204) →
        ElasticSansClient.deleteOperation client rt resourceGroupName elasticSanName
          = ((none, asError (rt.NewResponseError (some resp))),
             calls ++ [Call.Do req, Call.NewResponseError (some resp)]))
    ∧ ((IntegrationAccountSchemasClient.Delete logic rt resourceGroupName integrationAccountName
          schemaName).1.2 = none
      ↔ (respL.StatusCode = 200 ∨ respL.StatusCode = 204))
    ∧ (¬ (respL.StatusCode = 200 ∨ respL.StatusCode = 204) →
        IntegrationAccountSchemasClient.Delete logic rt resourceGroupName integrationAccountName
            schemaName
          = (({}, asError (rt.NewResponseError (some respL))),
             callsL ++ [Call.Do reqL, Call.NewResponseError (some respL)])) := by
  have hd : ElasticSansClient.deleteOperation client rt resourceGroupName elasticSanName
      = if !HasStatusCode (some resp) [http.StatusOK, http.StatusAccepted, http.StatusNoContent]
        then ((none, asError (rt.NewResponseError (some resp))),
           calls ++ [Call.Do req, Call.NewResponseError (some resp)])
        else ((some resp, none), calls ++ [Call.Do req]) := by
    simp only [ElasticSansClient.deleteOperation, hreq, hdo]
  have hl : IntegrationAccountSchemasClient.Delete logic rt resourceGroupName
      integrationAccountName schemaName
      = if !HasStatusCode (some respL) [http.StatusOK, http.StatusNoContent]
        then (({}, asError (rt.NewResponseError (some respL))),
           callsL ++ [Call.Do reqL, Call.NewResponseError (some respL)])
        else (({}, none), callsL ++ [Call.Do reqL]) := by
    simp only [IntegrationAccountSchemasClient.Delete, hreqL, hdoL]
  have hne : ∀ r, asError (rt.NewResponseError r) ≠ none := by
    intro r h
    cases he : rt.NewResponseError r with
    | none => exact hNRE r he
    | some e => rw [he] at h; cases h
  have hcodes : HasStatusCode (some resp) [http.StatusOK, http.StatusAccepted, http.StatusNoContent]
      = true ↔ (resp.StatusCode = 200 ∨ resp.StatusCode = 202 ∨ resp.StatusCode = 204) := by
    simp [HasStatusCode, http.StatusOK, http.StatusAccepted, http.StatusNoContent]
  have hcodesL : HasStatusCode (some respL) [http.StatusOK, http.StatusNoContent] = true
      ↔ (respL.StatusCode = 200 ∨ respL.StatusCode = 204) := by
    simp [HasStatusCode, http.StatusOK, http.StatusNoContent]
  rw [hd, hl, ← hcodes, ← hcodesL]
  cases hE : HasStatusCode (some resp) [http.StatusOK, http.StatusAccepted, http.StatusNoContent]
    <;> cases hL : HasStatusCode (some respL) [http.StatusOK, http.StatusNoContent]
    <;> simp [hne]

/-- C22 at a concrete input: the transport answers 202 to both delete requests;
`deleteOperation` returns the response with a nil error, and the non-LRO `Delete` of
armlogic returns the error of `runtime.NewResponseError`. -/
theorem deleteOperation_accepts_200_202_204_witness :
    (ElasticSansClient.deleteOperation Scenario.client (Scenario.runtime 202 "") "rg" "san").1
        = (some (Scenario.response 202 ""), none)
    ∧ (IntegrationAccountSchemasClient.Delete Scenario.logicClient (Scenario.runtime 202 "")
        "rg" "account" "schema").1.2 ≠ none := by
  have h := deleteOperation_accepts_200_202_204 Scenario.client Scenario.logicClient
    (Scenario.runtime 202 "") "rg" "san" "account" "schema"
    (ElasticSansClient.deleteCreateRequest Scenario.client (Scenario.runtime 202 "") "rg" "san").1.1
    (IntegrationAccountSchemasClient.deleteCreateRequest Scenario.logicClient
      (Scenario.runtime 202 "") "rg" "account" "schema").1.1
    (ElasticSansClient.deleteCreateRequest Scenario.client (Scenario.runtime 202 "") "rg" "san").2
    (IntegrationAccountSchemasClient.deleteCreateRequest Scenario.logicClient
      (Scenario.runtime 202 "") "rg" "account" "schema").2
    (Scenario.response 202 "") (Scenario.response 202 "")
    (by decide) (by decide) (by decide) (by decide) (by intro r; simp [Scenario.runtime])
  refine ⟨h.1.mpr (Or.inr (Or.inl rfl)), ?_⟩
  intro hnil
  have hs := h.2.2.2.1.mp hnil
  revert hs
  decide

/-- C23: when `json.Marshal` fails on the request body, `ElasticSansClient.create` makes no
pipeline call and returns no response and a non-nil error, whatever the path arguments
are; and when the path arguments are present and `runtime.NewRequest` accepts the
endpoint, so that the body is encoded, `createCreateRequest` returns both a request and the
error of the encoder, and `create` returns no response and that error after the one call
of the builder. -/
theorem create_sends_nothing_when_marshalling_fails {E : Type} (client : ElasticSansClient)
    (rt : Runtime) (js : JSON E) (resourceGroupName elasticSanName : String) (parameters : E)
    (e : RuntimeError) (hmarshal : js.Marshal parameters = .error e) :
    (∀ c ∈ (ElasticSansClient.create client rt js resourceGroupName elasticSanName
        parameters).2, c.isDo = false)
    ∧ (ElasticSansClient.create client rt js resourceGroupName elasticSanName parameters).1.1
        = none
    ∧ (ElasticSansClient.create client rt js resourceGroupName elasticSanName parameters).1.2
        ≠ none
    ∧ (client.subscriptionID ≠ "" → resourceGroupName ≠ "" → elasticSanName ≠ "" →
        (∀ endpoint, rt.NewRequestError http.MethodPut endpoint = none) →
        ∃ (req : Request) (endpoint : String),
          ElasticSansClient.createCreateRequest client rt js resourceGroupName elasticSanName
              parameters
            = ((some req, some (.runtime e)), [Call.NewRequest http.MethodPut endpoint])
          ∧ ElasticSansClient.create client rt js resourceGroupName elasticSanName parameters
            = ((none, some (.runtime e)), [Call.NewRequest http.MethodPut endpoint])) := by
  have hbuilder : (∃ err calls,
      ElasticSansClient.createCreateRequest client rt js resourceGroupName elasticSanName
          parameters = ((none, some err), calls) ∧ ∀ c ∈ calls, c.isDo = false)
      ∨ (∃ (req : Request) (endpoint : String),
        rt.NewRequestError http.MethodPut endpoint = none
        ∧ ElasticSansClient.createCreateRequest client rt js resourceGroupName elasticSanName
          parameters
          = ((some req, some (.runtime e)), [Call.NewRequest http.MethodPut endpoint])) := by
    unfold ElasticSansClient.createCreateRequest Runtime.NewRequest
    by_cases h1 : client.subscriptionID = ""
    · exact Or.inl ⟨_, [], by simp only [h1, if_true]; rfl, by simp⟩
    · by_cases h2 : resourceGroupName = ""
      · exact Or.inl ⟨_, [], by simp only [h1, h2, if_true, if_false]; rfl, by simp⟩
      · by_cases h3 : elasticSanName = ""
        · exact Or.inl ⟨_, [], by simp only [h1, h2, h3, if_true, if_false]; rfl, by simp⟩
        · simp only [h1, h2, h3, if_false]
          generalize rt.JoinPaths _ _ = ep
          cases hn : rt.NewRequestError http.MethodPut ep with
          | some err =>
            exact Or.inl ⟨_, _, rfl, by simp [Call.isDo]⟩
          | none =>
            simp only [MarshalAsJSON, hmarshal]
            exact Or.inr ⟨_, ep, hn, rfl⟩
  have hcreate : ∀ (req : Option Request) (err : GoError) (calls : List Call),
      ElasticSansClient.createCreateRequest client rt js resourceGroupName elasticSanName
        parameters = ((req, some err), calls) →
      ElasticSansClient.create client rt js resourceGroupName elasticSanName parameters
        = ((none, some err), calls) := by
    intro req err calls h
    simp only [ElasticSansClient.create, h]
  refine ⟨?_, ?_, ?_, ?_⟩
  · rcases hbuilder with ⟨err, calls, hb, hcalls⟩ | ⟨req, endpoint, _, hb⟩
    · rw [hcreate _ _ _ hb]; exact hcalls
    · rw [hcreate _ _ _ hb]; simp [Call.isDo]
  · rcases hbuilder with ⟨err, calls, hb, _⟩ | ⟨req, endpoint, _, hb⟩ <;>
      rw [hcreate _ _ _ hb]
  · rcases hbuilder with ⟨err, calls, hb, _⟩ | ⟨req, endpoint, _, hb⟩ <;>
      rw [hcreate _ _ _ hb] <;> simp
  · intro h1 h2 h3 hnew
    rcases hbuilder with ⟨err, calls, hb, _⟩ | ⟨req, endpoint, _, hb⟩
    · exfalso
      revert hb
      unfold ElasticSansClient.createCreateRequest Runtime.NewRequest
      simp only [h1, h2, h3, if_false, hnew, MarshalAsJSON, hmarshal]
      intro hb
      cases hb
    · exact ⟨req, endpoint, hb, hcreate _ _ _ hb⟩

/-- C23 at a concrete input: a codec whose `json.Marshal` fails; the builder returns a
request together with the error, and `create` returns the error and calls only
`runtime.NewRequest`. -/
theorem create_sends_nothing_when_marshalling_fails_witness :
    Scenario.jsonFailing.Marshal "{}" = .error { text := "json: unsupported value" }
    ∧ (ElasticSansClient.createCreateRequest Scenario.client (Scenario.runtime 200 "{}")
        Scenario.jsonFailing "rg" "san" "{}").1.1 ≠ none
    ∧ (ElasticSansClient.createCreateRequest Scenario.client (Scenario.runtime 200 "{}")
        Scenario.jsonFailing "rg" "san" "{}").1.2
        = some (.runtime { text := "json: unsupported value" })
    ∧ (ElasticSansClient.create Scenario.client (Scenario.runtime 200 "{}")
        Scenario.jsonFailing "rg" "san" "{}").1
        = (none, some (.runtime { text := "json: unsupported value" }))
    ∧ (∀ c ∈ (ElasticSansClient.create Scenario.client (Scenario.runtime 200 "{}")
        Scenario.jsonFailing "rg" "san" "{}").2, c.isDo = false) := by
  have h := create_sends_nothing_when_marshalling_fails Scenario.client
    (Scenario.runtime 200 "{}") Scenario.jsonFailing "rg" "san" "{}"
    { text := "json: unsupported value" } rfl
  obtain ⟨req, endpoint, hb, hc⟩ := h.2.2.2 (by decide) (by decide) (by decide) (fun _ => rfl)
  refine ⟨rfl, ?_, ?_, ?_, h.1⟩
  · rw [hb]; simp
  · rw [hb]
  · rw [hc]

/-- C24: when the next-results preparer yields no request and no error,
`listPoolNodeCountsNextResults` and `listSupportedImagesNextResults` return the zero-valued
result and a nil error after calling the preparer only: no call of their traces hands a
request to the sender. -/
theorem NextResults_without_request_send_nothing {N I : Type} (client : batch.AccountClient)
    (lib : autorest.Library) (nodeCounts : batch.Results (batch.PoolNodeCountsListResult N))
    (images : batch.Results (batch.AccountListSupportedImagesResult I))
    (lastNodeCounts : batch.PoolNodeCountsListResult N)
    (lastImages : batch.AccountListSupportedImagesResult I)
    (hn : nodeCounts.nextPreparer lastNodeCounts = (none, none))
    (hi : images.nextPreparer lastImages = (none, none)) :
    batch.AccountClient.listPoolNodeCountsNextResults client lib nodeCounts lastNodeCounts
        = ((batch.PoolNodeCountsListResult.zero N, none), [batch.Call.PrepareNext])
    ∧ (∀ c ∈ (batch.AccountClient.listPoolNodeCountsNextResults client lib nodeCounts
        lastNodeCounts).2, c.isSend = false)
    ∧ batch.AccountClient.listSupportedImagesNextResults client lib images lastImages
        = ((batch.AccountListSupportedImagesResult.zero I, none), [batch.Call.PrepareNext])
    ∧ (∀ c ∈ (batch.AccountClient.listSupportedImagesNextResults client lib images
        lastImages).2, c.isSend = false) := by
  have h1 : batch.AccountClient.listPoolNodeCountsNextResults client lib nodeCounts
      lastNodeCounts
      = ((batch.PoolNodeCountsListResult.zero N, none), [batch.Call.PrepareNext]) := by
    unfold batch.AccountClient.listPoolNodeCountsNextResults
    rw [hn]
  have h2 : batch.AccountClient.listSupportedImagesNextResults client lib images lastImages
      = ((batch.AccountListSupportedImagesResult.zero I, none), [batch.Call.PrepareNext]) := by
    unfold batch.AccountClient.listSupportedImagesNextResults
    rw [hi]
  refine ⟨h1, ?_, h2, ?_⟩
  · rw [h1]
    intro c hc
    rw [List.mem_singleton.mp hc]
    rfl
  · rw [h2]
    intro c hc
    rw [List.mem_singleton.mp hc]
    rfl

/-- C24 at a concrete input: the last pages of the scenario carry no next-link, their
preparers yield no request, and neither function sends, although the transport of the
client would answer. -/
theorem NextResults_without_request_send_nothing_witness :
    Scenario.nodeCountResults.nextPreparer Scenario.lastNodeCounts = (none, none)
    ∧ Scenario.imageResults.nextPreparer Scenario.lastImages = (none, none)
    ∧ (batch.AccountClient.listPoolNodeCountsNextResults (Scenario.batchClient 3 200)
        Scenario.library Scenario.nodeCountResults Scenario.lastNodeCounts).2
        = [batch.Call.PrepareNext]
    ∧ (batch.AccountClient.listSupportedImagesNextResults (Scenario.batchClient 3 200)
        Scenario.library Scenario.imageResults Scenario.lastImages).2
        = [batch.Call.PrepareNext] := by
  have h := NextResults_without_request_send_nothing (Scenario.batchClient 3 200)
    Scenario.library Scenario.nodeCountResults Scenario.imageResults Scenario.lastNodeCounts
    Scenario.lastImages rfl rfl
  exact ⟨rfl, rfl, congrArg Prod.snd h.1, congrArg Prod.snd h.2.2.1⟩
